import Mathlib

/-!
Verification of `swshtools.py`, a converter between fixed-layout binary
game-data records (creature base stats `personal_total.bin`, level-up move
tables `wazaoboe_total.bin`, icon lists `pokecaplist.bin`) and structured
JSON-like entries.

The Python source is shallowly embedded:
* byte buffers become `List Nat` (each element one byte value);
* `struct` pack/unpack becomes explicit little-endian byte arithmetic;
* Python exceptions become `Except PyError`;
* the enumeration side-file `constants.json` (external data, not part of the
  source) becomes an explicit `Constants` record parameter.
-/

namespace Swshtools

/-- The Python exception classes the tool can raise from its lookup helpers:
`IndexError` (sequence index out of range), `KeyError` (missing dict key) and
`ValueError` (`list.index(x)`: x not in list).  In Python, `IndexError` and
`KeyError` are subclasses of `LookupError`; `ValueError` is not. -/
inductive PyError where
  | indexError
  | keyError
  | valueError
  deriving DecidableEq, Repr

/-- Whether the exception is an instance of Python's `LookupError`
(`IndexError` and `KeyError` are; `ValueError` is not). -/
def PyError.isLookupError : PyError → Bool
  | .indexError => true
  | .keyError => true
  | .valueError => false

/-- The enumeration registry loaded from `constants.json`: one ordered list of
string names per category (the categories enumerated in the source's comment
block).  The file itself is external data, so its contents stay parameters. -/
structure Constants where
  pokemon : List String
  moves : List String
  types : List String
  abilities : List String
  items : List String
  egg_groups : List String
  growth_types : List String
  dex_colors : List String
  tms : List String
  trs : List String
  move_tutors : List String
  armor_tutors : List String
  genders : List String
  deriving Repr

/-- Python `list.index` search: index of the first occurrence, or `none`. -/
def listFirstIndex : List String → String → Option Nat
  | [], _ => none
  | a :: l, x => if a = x then some 0 else (listFirstIndex l x).map (· + 1)

/-- `cnstname(category, cval)`: `__CONSTANTS__[category][cval]`.  Indexing a
Python list out of range raises `IndexError` (a `LookupError`). -/
def cnstname (category : List String) (cval : Nat) : Except PyError String :=
  match category.get? cval with
  | some s => .ok s
  | none => .error .indexError

/-- `cnstval(category, cname)`: `__CONSTANTS__[category].index(cname)`.
Python `list.index` raises `ValueError` when the name is absent. -/
def cnstval (category : List String) (cname : String) : Except PyError Nat :=
  match listFirstIndex category cname with
  | some i => .ok i
  | none => .error .valueError

/-- Read one byte: `buffer[off]` (reads in this development are only used at
in-range offsets; out-of-range reads default to 0). -/
def readU8 (buf : List Nat) (off : Nat) : Nat := buf.getD off 0

/-- Read a little-endian `<H` at `off`. -/
def readU16 (buf : List Nat) (off : Nat) : Nat :=
  readU8 buf off + 256 * readU8 buf (off + 1)

/-- Read a little-endian `<I` at `off`. -/
def readU32 (buf : List Nat) (off : Nat) : Nat :=
  readU16 buf off + 65536 * readU16 buf (off + 2)

/-- Read an `ns` field: the `n` bytes starting at `off`. -/
def readBytes (buf : List Nat) (off n : Nat) : List Nat :=
  (buf.drop off).take n

/-- Overwrite `buf[off : off + data.length]` with `data`
(`struct.pack_into` into a `bytearray`; always used in bounds here). -/
def writeBytesAt (buf : List Nat) (off : Nat) (data : List Nat) : List Nat :=
  buf.take off ++ data ++ buf.drop (off + data.length)

/-- Bytes of a packed `B` value. -/
def w8 (v : Nat) : List Nat := [v % 256]

/-- Bytes of a packed little-endian `H` value. -/
def w16 (v : Nat) : List Nat := [v % 256, v / 256 % 256]

/-- Bytes of a packed little-endian `I` value. -/
def w32 (v : Nat) : List Nat :=
  [v % 256, v / 256 % 256, v / 65536 % 256, v / 16777216 % 256]

/-- Bytes of a packed `ns` field: truncated to `n` bytes and zero-padded. -/
def wbytes (n : Nat) (bs : List Nat) : List Nat :=
  bs.take n ++ List.replicate (n - bs.length) 0

theorem length_w8 (v : Nat) : (w8 v).length = 1 := rfl

theorem length_w16 (v : Nat) : (w16 v).length = 2 := rfl

theorem length_w32 (v : Nat) : (w32 v).length = 4 := rfl

theorem length_wbytes (n : Nat) (bs : List Nat) : (wbytes n bs).length = n := by
  simp [wbytes]
  omega

theorem readU8_append (xs ys : List Nat) (n : Nat) :
    readU8 (xs ++ ys) n =
      if n < xs.length then readU8 xs n else readU8 ys (n - xs.length) := by
  unfold readU8
  split
  · next h =>
    rw [List.getD_eq_getElem?_getD, List.getElem?_append_left h,
      ← List.getD_eq_getElem?_getD]
  · next h =>
    rw [List.getD_eq_getElem?_getD,
      List.getElem?_append_right (by omega : xs.length ≤ n),
      ← List.getD_eq_getElem?_getD]

theorem readBytes_append (xs ys : List Nat) (off n : Nat) :
    readBytes (xs ++ ys) off n =
      if off + n ≤ xs.length then readBytes xs off n
      else if xs.length ≤ off then readBytes ys (off - xs.length) n
      else readBytes xs off n ++ readBytes ys 0 (off + n - xs.length) := by
  unfold readBytes
  rw [List.drop_append_eq_append_drop, List.take_append_eq_append_take]
  split
  · next h =>
    have h0 : n - (xs.drop off).length = 0 := by
      simp [List.length_drop]; omega
    rw [h0]
    simp [readBytes]
  · next h =>
    split
    · next h2 =>
      have hnil : xs.drop off = [] := by
        apply List.drop_eq_nil_of_le h2
      rw [hnil]
      simp [readBytes]
    · next h2 =>
      have h0 : off - xs.length = 0 := by omega
      have h1 : n - (xs.drop off).length = off + n - xs.length := by
        simp [List.length_drop]; omega
      rw [h0, h1]

theorem readBytes_self (xs : List Nat) (n : Nat) (h : xs.length = n) :
    readBytes xs 0 n = xs := by
  subst h
  simp [readBytes]

theorem writeBytesAt_length (buf data : List Nat) (off : Nat)
    (h : off + data.length ≤ buf.length) :
    (writeBytesAt buf off data).length = buf.length := by
  simp [writeBytesAt]
  omega

/-- Value of one hexadecimal digit character, as accepted by `bytes.fromhex`. -/
def hexVal (ch : Char) : Nat :=
  if 97 ≤ ch.toNat then ch.toNat - 87
  else if 65 ≤ ch.toNat then ch.toNat - 55
  else ch.toNat - 48

/-- Successive pairs of hex digits, one byte each. -/
def hexPairs : List Char → List Nat
  | c1 :: c2 :: rest => (16 * hexVal c1 + hexVal c2) :: hexPairs rest
  | _ => []

/-- `bytes.fromhex(s)` for the even-length hex literals appearing in the
source (and in the JSON text of the `unk60` field). -/
def hexToBytes (s : String) : List Nat := hexPairs s.toList

/-- `__BLANK_PRSNL_ENTRY__`: the canonical 0xB0-byte blank-record template. -/
def BLANK_PRSNL_ENTRY : List Nat :=
  hexToBytes ("000000000000000000000000000000000000FF0000000000000000000000000000400000000000"
    ++ "000000000000000000000000000000000000000000000000000000000000000000000000000000"
    ++ "000000000000000000000000000000000000010001000100010001000000000000000000000000"
    ++ "000000000000000000000000000001010101010101010101010101010100000000000000000000"
    ++ "0000000000000000000000000000000000000000")

/-- The structured JSON entry produced by `unpack_personal` for one creature
record.  Fields are named and typed as the entry dict's keys; `unk60` keeps
the raw 72 bytes (serialized as hex text by the JSON layer, a bijection). -/
structure CreatureEntry where
  type_1 : String
  type_2 : String
  base_hp : Nat
  base_atk : Nat
  base_def : Nat
  base_sp_atk : Nat
  base_sp_def : Nat
  base_spd : Nat
  ability_1 : String
  ability_2 : String
  hidden_ability : String
  height : Nat
  weight : Nat
  evs_hp : Nat
  evs_atk : Nat
  evs_def : Nat
  evs_sp_atk : Nat
  evs_sp_def : Nat
  evs_spd : Nat
  fail_telekinesis : Bool
  catch_rate : Nat
  gender_rate : Nat
  base_exp : Nat
  growth_type : String
  special_z_item : String
  special_z_base_move : String
  special_z_move : String
  egg_group_1 : String
  egg_group_2 : String
  evolution_stage : Nat
  egg_species : String
  egg_form : Nat
  hatch_cycles : Nat
  base_friendship : Nat
  common_item : String
  rare_item : String
  very_rare_item : String
  first_form_index : String
  form_count : Nat
  icon_id : Nat
  pokedex_number : Nat
  armor_dex_number : Nat
  crown_dex_number : Nat
  dex_color : String
  has_dex_entry : Bool
  is_visual_form : Bool
  is_regional_form : Bool
  can_not_dynamax : Bool
  tms : List String
  trs : List String
  move_tutors : List String
  armor_tutors : List String
  unk5E : Nat
  unk60 : List Nat
  deriving DecidableEq, Repr

/-- One `{"level": .., "move": ..}` element of a level-up learnset. -/
structure MoveEntry where
  level : Nat
  move : String
  deriving DecidableEq, Repr

/-- One entry of `pokecaplist.bin`. -/
structure IconEntry where
  icon_id : Nat
  form_id : Nat
  gender_type : String
  is_gigantamax : Bool
  deriving DecidableEq, Repr

/-- One step of `parse_learnset_bits` (`unpack_personal`, lines 160-163):
`for index, move in enumerate(consts): if bits[index >> 3] & (1 << (index & 7)): append`.
`bits[i] & (1 << k)` is nonzero exactly when bit `k` of byte `i` is set. -/
def parseLearnsetFrom (bits : List Nat) : Nat → List String → List String
  | _, [] => []
  | index, move :: rest =>
    if Nat.testBit (bits.getD (index / 8) 0) (index % 8) then
      move :: parseLearnsetFrom bits (index + 1) rest
    else
      parseLearnsetFrom bits (index + 1) rest

/-- `parse_learnset_bits(consts_name, bits)`: decode a fixed-width bitflag
buffer into the sub-list of the master list whose bits are set. -/
def parse_learnset_bits (consts : List String) (bits : List Nat) : List String :=
  parseLearnsetFrom bits 0 consts

/-- `bits[index >> 3] |= 1 << (index & 7)` on a `bytearray`. -/
def setLearnsetBit (bits : List Nat) (index : Nat) : List Nat :=
  bits.set (index / 8) (bits.getD (index / 8) 0 ||| 1 <<< (index % 8))

/-- One step of `pack_learnset_bits` (`pack_personal`, lines 181-186):
`for index, move in enumerate(consts): if move in selected: set bit index`. -/
def packLearnsetFrom (selected : List String) : Nat → List String → List Nat → List Nat
  | _, [], bits => bits
  | index, move :: rest, bits =>
    packLearnsetFrom selected (index + 1) rest
      (if selected.contains move then setLearnsetBit bits index else bits)

/-- `pack_learnset_bits(consts_name, size)`: encode the selected subset of the
master list into a zero-initialized bitflag buffer of `size` bytes. -/
def pack_learnset_bits (consts selected : List String) (size : Nat) : List Nat :=
  packLearnsetFrom selected 0 consts (List.replicate size 0)

theorem getD_set_self (l : List Nat) (i v d : Nat) (h : i < l.length) :
    (l.set i v).getD i d = v := by
  simp [List.getD_eq_getElem?_getD, List.getElem?_set_self h]

theorem getD_set_ne (l : List Nat) (i j v d : Nat) (h : i ≠ j) :
    (l.set i v).getD j d = l.getD j d := by
  simp [List.getD_eq_getElem?_getD, List.getElem?_set_ne h]

/-- Bit `p & 7` of byte `p >> 3` of a bitflag buffer: the bit the codec
associates with master-list position `p`. -/
def bitAt (bits : List Nat) (p : Nat) : Bool :=
  Nat.testBit (bits.getD (p / 8) 0) (p % 8)

theorem bitAt_setLearnsetBit (bits : List Nat) (idx p : Nat)
    (hidx : idx / 8 < bits.length) :
    bitAt (setLearnsetBit bits idx) p = (bitAt bits p || decide (p = idx)) := by
  unfold bitAt setLearnsetBit
  by_cases hb : p / 8 = idx / 8
  · rw [hb, getD_set_self _ _ _ _ hidx, Nat.one_shiftLeft, Nat.testBit_or,
      Nat.testBit_two_pow]
    by_cases hp : p = idx
    · subst hp
      simp
    · have hne : idx % 8 ≠ p % 8 := by omega
      simp [hne, hp]
  · rw [getD_set_ne _ _ _ _ _ (Ne.symm hb)]
    have hne : p ≠ idx := by omega
    simp [hne]

theorem setLearnsetBit_length (bits : List Nat) (idx : Nat) :
    (setLearnsetBit bits idx).length = bits.length := by
  simp [setLearnsetBit]

theorem packLearnsetFrom_length (sel cs : List String) :
    ∀ (i : Nat) (bits : List Nat),
      (packLearnsetFrom sel i cs bits).length = bits.length := by
  induction cs with
  | nil => intro i bits; rfl
  | cons mv rest ih =>
    intro i bits
    unfold packLearnsetFrom
    rw [ih]
    split <;> simp [setLearnsetBit_length]

theorem length_pack_learnset_bits (cs sel : List String) (size : Nat) :
    (pack_learnset_bits cs sel size).length = size := by
  unfold pack_learnset_bits
  rw [packLearnsetFrom_length]
  exact List.length_replicate size 0

theorem setLearnsetBit_bytes_lt (bits : List Nat) (idx : Nat)
    (h : ∀ b ∈ bits, b < 256) (hi : idx % 8 < 8) :
    ∀ b ∈ setLearnsetBit bits idx, b < 256 := by
  intro b hb
  rcases List.mem_or_eq_of_mem_set hb with hmem | rfl
  · exact h b hmem
  · apply @Nat.or_lt_two_pow _ _ 8
    · by_cases hin : idx / 8 < bits.length
      · exact h _ (List.getD_eq_getElem bits (0) hin ▸ List.getElem_mem _)
      · simp [List.getD_eq_getElem?_getD, List.getElem?_eq_none (by omega : bits.length ≤ idx / 8)]
    · rw [Nat.one_shiftLeft]
      exact Nat.pow_lt_pow_right (by omega) hi

theorem packLearnsetFrom_bytes_lt (sel cs : List String) :
    ∀ (i : Nat) (bits : List Nat), (∀ b ∈ bits, b < 256) →
      ∀ b ∈ packLearnsetFrom sel i cs bits, b < 256 := by
  induction cs with
  | nil => intro i bits h; exact h
  | cons mv rest ih =>
    intro i bits h
    unfold packLearnsetFrom
    apply ih
    split
    · exact setLearnsetBit_bytes_lt bits i h (Nat.mod_lt _ (by omega))
    · exact h

theorem bitAt_packLearnsetFrom (sel : List String) (cs : List String) :
    ∀ (i : Nat) (bits : List Nat) (p : Nat), i + cs.length ≤ 8 * bits.length →
      bitAt (packLearnsetFrom sel i cs bits) p =
        (bitAt bits p ||
          if i ≤ p ∧ p - i < cs.length then sel.contains (cs.getD (p - i) "")
          else false) := by
  induction cs with
  | nil =>
    intro i bits p h
    rw [if_neg (by simp)]
    simp [packLearnsetFrom]
  | cons mv rest ih =>
    intro i bits p h
    simp only [List.length_cons] at h
    unfold packLearnsetFrom
    have hlen : ∀ b : List Nat, b.length = bits.length →
        (i + 1) + rest.length ≤ 8 * b.length := by
      intro b hb
      rw [hb]
      omega
    by_cases hc : sel.contains mv
    · rw [if_pos hc,
        ih (i + 1) (setLearnsetBit bits i) p
          (hlen _ (setLearnsetBit_length bits i)),
        bitAt_setLearnsetBit bits i p (by omega)]
      by_cases hp : p = i
      · subst hp
        rw [if_neg (by omega),
          if_pos (by simp only [List.length_cons]; omega)]
        rw [Nat.sub_self, List.getD_cons_zero, hc]
        simp
      · by_cases hin : i + 1 ≤ p ∧ p - (i + 1) < rest.length
        · rw [if_pos hin,
            if_pos (by simp only [List.length_cons]; omega)]
          have hpi : p - i = (p - (i + 1)) + 1 := by omega
          rw [hpi, List.getD_cons_succ]
          simp [hp]
        · rw [if_neg hin,
            if_neg (by simp only [List.length_cons]; omega)]
          simp [hp]
    · rw [if_neg hc, ih (i + 1) bits p (hlen _ rfl)]
      by_cases hp : p = i
      · subst hp
        rw [if_neg (by omega),
          if_pos (by simp only [List.length_cons]; omega)]
        have hcf : sel.contains mv = false := by
          revert hc
          cases sel.contains mv <;> simp
        rw [Nat.sub_self, List.getD_cons_zero, hcf]
      · by_cases hin : i + 1 ≤ p ∧ p - (i + 1) < rest.length
        · rw [if_pos hin,
            if_pos (by simp only [List.length_cons]; omega)]
          have hpi : p - i = (p - (i + 1)) + 1 := by omega
          rw [hpi, List.getD_cons_succ]
        · rw [if_neg hin,
            if_neg (by simp only [List.length_cons]; omega)]

theorem bitAt_replicate_zero (size p : Nat) :
    bitAt (List.replicate size 0) p = false := by
  unfold bitAt
  rcases Nat.lt_or_ge (p / 8) size with h | h
  · rw [List.getD_eq_getElem?_getD, List.getElem?_replicate_of_lt h]
    simp
  · rw [List.getD_eq_getElem?_getD,
      List.getElem?_eq_none (by simpa using h)]
    simp

theorem bitAt_pack_learnset_bits (cs sel : List String) (size p : Nat)
    (h : cs.length ≤ 8 * size) :
    bitAt (pack_learnset_bits cs sel size) p =
      if p < cs.length then sel.contains (cs.getD p "") else false := by
  unfold pack_learnset_bits
  rw [bitAt_packLearnsetFrom sel cs 0 (List.replicate size 0) p
    (by simpa using h), bitAt_replicate_zero]
  by_cases hp : p < cs.length
  · rw [if_pos (by omega), if_pos hp]
    simp
  · rw [if_neg (by omega), if_neg hp]
    simp

theorem pack_learnset_bits_bytes_lt (cs sel : List String) (size : Nat) :
    ∀ b ∈ pack_learnset_bits cs sel size, b < 256 := by
  unfold pack_learnset_bits
  apply packLearnsetFrom_bytes_lt
  intro b hb
  rw [List.eq_of_mem_replicate hb]
  omega

theorem parseLearnsetFrom_eq_filter (bits : List Nat) (pr : String → Bool)
    (cs : List String) :
    ∀ i : Nat,
      (∀ m, m < cs.length → bitAt bits (i + m) = pr (cs.getD m "")) →
      parseLearnsetFrom bits i cs = cs.filter pr := by
  induction cs with
  | nil => intro i h; rfl
  | cons mv rest ih =>
    intro i h
    have h0 : bitAt bits i = pr mv := by
      have := h 0 (by simp)
      simpa using this
    have hrest : parseLearnsetFrom bits (i + 1) rest = rest.filter pr := by
      apply ih
      intro m hm
      have := h (m + 1) (by simp; omega)
      have harith : i + (m + 1) = i + 1 + m := by omega
      rw [harith] at this
      simpa using this
    unfold parseLearnsetFrom
    show (if Nat.testBit (bits.getD (i / 8) 0) (i % 8) then
        mv :: parseLearnsetFrom bits (i + 1) rest
      else parseLearnsetFrom bits (i + 1) rest) = _
    have hb : Nat.testBit (bits.getD (i / 8) 0) (i % 8) = pr mv := h0
    rw [hb, hrest, List.filter_cons]

/-- Bit-flag codec round trip at the list level: decoding what was encoded
yields the master list filtered by membership in the selection. -/
theorem parse_pack_learnset_bits (cs sel : List String) (size : Nat)
    (h : cs.length ≤ 8 * size) :
    parse_learnset_bits cs (pack_learnset_bits cs sel size) =
      cs.filter (fun m => sel.contains m) := by
  unfold parse_learnset_bits
  apply parseLearnsetFrom_eq_filter
  intro m hm
  rw [Nat.zero_add, bitAt_pack_learnset_bits cs sel size m h, if_pos hm]

theorem testBit_getD_eq_bitAt (buf : List Nat) (j k : Nat) (hk : k < 8) :
    Nat.testBit (buf.getD j 0) k = bitAt buf (8 * j + k) := by
  unfold bitAt
  have h1 : (8 * j + k) / 8 = j := by omega
  have h2 : (8 * j + k) % 8 = k := by omega
  rw [h1, h2]

theorem getD_eq_of_bytes_eq (xs ys : List Nat) (hlen : xs.length = ys.length)
    (h : ∀ j, xs.getD j 0 = ys.getD j 0) : xs = ys := by
  apply List.ext_getElem hlen
  intro j hj hj2
  have := h j
  rwa [List.getD_eq_getElem xs (0) hj,
    List.getD_eq_getElem ys (0) hj2] at this

theorem byte_eq_of_bits_eq (x y : Nat) (hx : x < 256) (hy : y < 256)
    (h : ∀ k, k < 8 → Nat.testBit x k = Nat.testBit y k) : x = y := by
  apply Nat.eq_of_testBit_eq
  intro k
  by_cases hk : k < 8
  · exact h k hk
  · have hxk : x < 2 ^ k := by
      calc x < 256 := hx
        _ = 2 ^ 8 := by norm_num
        _ ≤ 2 ^ k := Nat.pow_le_pow_right (by omega) (by omega)
    have hyk : y < 2 ^ k := by
      calc y < 256 := hy
        _ = 2 ^ 8 := by norm_num
        _ ≤ 2 ^ k := Nat.pow_le_pow_right (by omega) (by omega)
    rw [Nat.testBit_lt_two_pow hxk, Nat.testBit_lt_two_pow hyk]

theorem getD_byte_lt (bits : List Nat) (j : Nat) (h : ∀ b ∈ bits, b < 256) :
    bits.getD j 0 < 256 := by
  by_cases hj : j < bits.length
  · exact h _ (List.getD_eq_getElem bits (0) hj ▸ List.getElem_mem _)
  · rw [List.getD_eq_getElem?_getD,
      List.getElem?_eq_none (by omega : bits.length ≤ j)]
    simp

/-- The encoded bit buffer depends only on the membership predicate of the
selection, never on its order or multiplicity. -/
theorem pack_learnset_bits_congr (cs sel sel' : List String) (size : Nat)
    (hcs : cs.length ≤ 8 * size)
    (h : ∀ x, sel.contains x = sel'.contains x) :
    pack_learnset_bits cs sel size = pack_learnset_bits cs sel' size := by
  apply getD_eq_of_bytes_eq
  · rw [length_pack_learnset_bits, length_pack_learnset_bits]
  intro j
  apply byte_eq_of_bits_eq
  · exact getD_byte_lt _ _ (pack_learnset_bits_bytes_lt cs sel size)
  · exact getD_byte_lt _ _ (pack_learnset_bits_bytes_lt cs sel' size)
  intro k hk
  rw [testBit_getD_eq_bitAt _ _ _ hk, testBit_getD_eq_bitAt _ _ _ hk,
    bitAt_pack_learnset_bits cs sel size _ hcs,
    bitAt_pack_learnset_bits cs sel' size _ hcs, h]

theorem mem_parseLearnsetFrom (bits : List Nat) (cs : List String) :
    ∀ (i : Nat) (x : String),
      x ∈ parseLearnsetFrom bits i cs ↔
        ∃ m, m < cs.length ∧ cs.getD m "" = x ∧ bitAt bits (i + m) = true := by
  induction cs with
  | nil =>
    intro i x
    simp [parseLearnsetFrom]
  | cons mv rest ih =>
    intro i x
    unfold parseLearnsetFrom
    show x ∈ (if Nat.testBit (bits.getD (i / 8) 0) (i % 8) then
        mv :: parseLearnsetFrom bits (i + 1) rest
      else parseLearnsetFrom bits (i + 1) rest) ↔ _
    have hbit : Nat.testBit (bits.getD (i / 8) 0) (i % 8) = bitAt bits i := rfl
    rw [hbit]
    by_cases hb : bitAt bits i = true
    · rw [if_pos hb]
      simp only [List.mem_cons, ih (i + 1) x]
      constructor
      · rintro (rfl | ⟨m, hm, hx, hbm⟩)
        · exact ⟨0, by simp, by simpa using hb⟩
        · exact ⟨m + 1, by simp only [List.length_cons]; omega,
            by simpa using hx, by rw [(by omega : i + (m + 1) = i + 1 + m)]; exact hbm⟩
      · rintro ⟨m, hm, hx, hbm⟩
        cases m with
        | zero => exact Or.inl (by simpa using hx.symm)
        | succ q =>
          refine Or.inr ⟨q, by simp only [List.length_cons] at hm; omega,
            by simpa using hx, ?_⟩
          rwa [(by omega : i + (q + 1) = i + 1 + q)] at hbm
    · rw [if_neg hb]
      rw [ih (i + 1) x]
      constructor
      · rintro ⟨m, hm, hx, hbm⟩
        exact ⟨m + 1, by simp only [List.length_cons]; omega,
          by simpa using hx, by rw [(by omega : i + (m + 1) = i + 1 + m)]; exact hbm⟩
      · rintro ⟨m, hm, hx, hbm⟩
        cases m with
        | zero => exact absurd (by simpa using hbm) hb
        | succ q =>
          refine ⟨q, by simp only [List.length_cons] at hm; omega,
            by simpa using hx, ?_⟩
          rwa [(by omega : i + (q + 1) = i + 1 + q)] at hbm

theorem nodup_getD_inj (cs : List String) (hnd : cs.Nodup) (p q : Nat)
    (hp : p < cs.length) (hq : q < cs.length)
    (h : cs.getD p "" = cs.getD q "") : p = q := by
  rw [List.getD_eq_getElem cs ("") hp,
    List.getD_eq_getElem cs ("") hq] at h
  have hinj := List.nodup_iff_injective_getElem.mp hnd
  have := @hinj ⟨p, hp⟩ ⟨q, hq⟩ h
  exact congrArg Fin.val this

/-- On a well-formed bit buffer (spare bits clear, bytes in range) the encoder
inverts the decoder byte-for-byte. -/
theorem pack_parse_learnset_bits (cs : List String) (bits : List Nat) (size : Nat)
    (hnd : cs.Nodup) (hlen : bits.length = size) (hcs : cs.length ≤ 8 * size)
    (hbytes : ∀ b ∈ bits, b < 256)
    (hspare : ∀ p, cs.length ≤ p → p < 8 * size → bitAt bits p = false) :
    pack_learnset_bits cs (parse_learnset_bits cs bits) size = bits := by
  apply getD_eq_of_bytes_eq
  · rw [length_pack_learnset_bits, hlen]
  intro j
  by_cases hj : j < size
  · apply byte_eq_of_bits_eq
    · exact getD_byte_lt _ _ (pack_learnset_bits_bytes_lt _ _ _)
    · exact getD_byte_lt _ _ hbytes
    intro k hk
    rw [testBit_getD_eq_bitAt _ _ _ hk, testBit_getD_eq_bitAt _ _ _ hk,
      bitAt_pack_learnset_bits cs _ size _ hcs]
    by_cases hp : 8 * j + k < cs.length
    · rw [if_pos hp]
      by_cases hbit : bitAt bits (8 * j + k) = true
      · rw [hbit]
        have : cs.getD (8 * j + k) "" ∈ parse_learnset_bits cs bits := by
          unfold parse_learnset_bits
          rw [mem_parseLearnsetFrom]
          exact ⟨8 * j + k, hp, rfl, by simpa using hbit⟩
        simpa using this
      · rw [Bool.not_eq_true] at hbit
        rw [hbit]
        by_contra hcon
        rw [Bool.not_eq_false] at hcon
        have hmem : cs.getD (8 * j + k) "" ∈ parse_learnset_bits cs bits := by
          simpa using hcon
        unfold parse_learnset_bits at hmem
        rw [mem_parseLearnsetFrom] at hmem
        obtain ⟨m, hm, hx, hbm⟩ := hmem
        simp only [Nat.zero_add] at hbm
        have : m = 8 * j + k := nodup_getD_inj cs hnd m (8 * j + k) hm hp hx
        rw [this] at hbm
        rw [hbm] at hbit
        exact absurd hbit (by simp)
    · rw [if_neg hp, hspare (8 * j + k) (by omega) (by omega)]
  · have h1 : (pack_learnset_bits cs (parse_learnset_bits cs bits) size).getD j 0 = 0 := by
      rw [List.getD_eq_getElem?_getD, List.getElem?_eq_none
        (by rw [length_pack_learnset_bits]; omega)]
      rfl
    have h2 : bits.getD j 0 = 0 := by
      rw [List.getD_eq_getElem?_getD, List.getElem?_eq_none (by omega)]
      rfl
    rw [h1, h2]

theorem listFirstIndex_eq_none_iff (l : List String) (x : String) :
    listFirstIndex l x = none ↔ x ∉ l := by
  induction l with
  | nil => simp [listFirstIndex]
  | cons a t ih =>
    unfold listFirstIndex
    by_cases ha : a = x
    · subst ha
      simp
    · rw [if_neg ha]
      simp only [Option.map_eq_none', ih, List.mem_cons]
      constructor
      · intro h hmem
        rcases hmem with rfl | hmem
        · exact ha rfl
        · exact h hmem
      · intro h hmem
        exact h (Or.inr hmem)

theorem listFirstIndex_get (l : List String) (x : String) :
    ∀ i, listFirstIndex l x = some i → l.get? i = some x := by
  induction l with
  | nil => intro i h; simp [listFirstIndex] at h
  | cons a t ih =>
    intro i h
    unfold listFirstIndex at h
    by_cases ha : a = x
    · rw [if_pos ha] at h
      cases h
      simpa using ha
    · rw [if_neg ha] at h
      rcases Option.map_eq_some'.mp h with ⟨j, hj, rfl⟩
      simpa using ih j hj

theorem listFirstIndex_lt (l : List String) (x : String) (i : Nat)
    (h : listFirstIndex l x = some i) : i < l.length := by
  have := listFirstIndex_get l x i h
  by_contra hcon
  rw [List.get?_eq_none.mpr (by omega)] at this
  cases this

theorem listFirstIndex_nodup (l : List String) (hnd : l.Nodup) (i : Nat)
    (hi : i < l.length) : listFirstIndex l (l.getD i "") = some i := by
  rcases h : listFirstIndex l (l.getD i "") with _ | j
  · rw [listFirstIndex_eq_none_iff] at h
    exact absurd (List.getD_eq_getElem l ("") hi ▸
      List.getElem_mem hi) h
  · have hj := listFirstIndex_get l _ j h
    have hjlt := listFirstIndex_lt l _ j h
    have : l.getD j "" = l.getD i "" := by
      rw [List.getD_eq_getElem l ("") hjlt]
      rw [List.get?_eq_getElem? , List.getElem?_eq_getElem hjlt] at hj
      exact Option.some_injective _ hj
    have hji := nodup_getD_inj l hnd j i hjlt hi this
    subst hji
    rfl

/-- A small concrete registry used to instantiate theorems on explicit
inputs (the real `constants.json` is external data). -/
def demoConstants : Constants where
  pokemon := ["Bulbasaur", "Ivysaur", "Venusaur"]
  moves := ["Pound", "Karate Chop", "Double Slap"]
  types := ["Normal", "Fighting"]
  abilities := ["Stench", "Drizzle"]
  items := ["NoItem", "Master Ball"]
  egg_groups := ["Monster", "Water 1"]
  growth_types := ["Medium Fast", "Slow"]
  dex_colors := ["Red", "Blue"]
  tms := ["TM00", "TM01", "TM02"]
  trs := ["TR00", "TR01"]
  move_tutors := ["Tutor0"]
  armor_tutors := ["Armor0"]
  genders := ["MaleFemale", "MaleOnly"]

/-- C3: for each of the four learnset categories at widths 16/16/4/4 and any
subset `S` of the master list, the bit-flag encode sets exactly the bit
`i & 7` of byte `i >> 3` for the selected master-list positions, decode of
the encode yields exactly `S` (as a set), and the encoded buffer depends only
on membership in `S`, not on its order. -/
theorem C3_bitflag_roundtrip (c : Constants) (cs : List String) (size : Nat)
    (hcat : (cs, size) = (c.tms, 16) ∨ (cs, size) = (c.trs, 16) ∨
      (cs, size) = (c.move_tutors, 4) ∨ (cs, size) = (c.armor_tutors, 4))
    (hlen : cs.length ≤ 8 * size)
    (S : List String) (hS : ∀ x ∈ S, x ∈ cs) :
    (∀ i, i < cs.length →
      bitAt (pack_learnset_bits cs S size) i = S.contains (cs.getD i "")) ∧
    (∀ x, x ∈ parse_learnset_bits cs (pack_learnset_bits cs S size) ↔ x ∈ S) ∧
    (∀ S', (∀ x, x ∈ S' ↔ x ∈ S) →
      pack_learnset_bits cs S' size = pack_learnset_bits cs S size) := by
  refine ⟨?_, ?_, ?_⟩
  · intro i hi
    rw [bitAt_pack_learnset_bits cs S size i hlen, if_pos hi]
  · intro x
    rw [parse_pack_learnset_bits cs S size hlen]
    simp only [List.mem_filter]
    constructor
    · rintro ⟨-, hx⟩
      simpa using hx
    · intro hx
      exact ⟨hS x hx, by simpa using hx⟩
  · intro S' hiff
    apply pack_learnset_bits_congr cs S' S size hlen
    intro x
    by_cases hx : x ∈ S
    · have hx' : x ∈ S' := (hiff x).mpr hx
      simp [hx, hx']
    · have hx' : x ∉ S' := fun hh => hx ((hiff x).mp hh)
      simp [hx, hx']

/-- Witness for C3 at a concrete master list and subset: bit layout,
decode-of-encode membership, and insertion-order independence. -/
theorem C3_bitflag_roundtrip_witness :
    (bitAt (pack_learnset_bits demoConstants.tms ["TM02", "TM00"] 16) 0 =
      ["TM02", "TM00"].contains (demoConstants.tms.getD 0 "")) ∧
    ("TM02" ∈ parse_learnset_bits demoConstants.tms
        (pack_learnset_bits demoConstants.tms ["TM02", "TM00"] 16) ↔
      "TM02" ∈ ["TM02", "TM00"]) ∧
    ("TM01" ∈ parse_learnset_bits demoConstants.tms
        (pack_learnset_bits demoConstants.tms ["TM02", "TM00"] 16) ↔
      "TM01" ∈ ["TM02", "TM00"]) ∧
    pack_learnset_bits demoConstants.tms ["TM00", "TM02"] 16 =
      pack_learnset_bits demoConstants.tms ["TM02", "TM00"] 16 := by
  have h := C3_bitflag_roundtrip demoConstants demoConstants.tms 16
    (Or.inl rfl) (by decide) ["TM02", "TM00"] (by decide)
  exact ⟨h.1 0 (by decide), h.2.1 "TM02", h.2.1 "TM01",
    h.2.2 ["TM00", "TM02"] (by intro x; simp [or_comm])⟩

theorem readU8_drop (buf : List Nat) (k p : Nat) :
    readU8 (buf.drop k) p = readU8 buf (k + p) := by
  unfold readU8
  rw [List.getD_eq_getElem?_getD, List.getElem?_drop,
    ← List.getD_eq_getElem?_getD]

theorem readU8_writeBytesAt (buf data : List Nat) (off p : Nat)
    (h : off + data.length ≤ buf.length) :
    readU8 (writeBytesAt buf off data) p =
      if p < off then readU8 buf p
      else if p < off + data.length then readU8 data (p - off)
      else readU8 buf p := by
  unfold writeBytesAt
  have hlen : (buf.take off).length = off := by
    rw [List.length_take]
    omega
  rw [List.append_assoc,
    readU8_append (buf.take off) (data ++ buf.drop (off + data.length)) p,
    hlen]
  by_cases h1 : p < off
  · rw [if_pos h1, if_pos h1]
    unfold readU8
    rw [List.getD_eq_getElem?_getD, List.getElem?_take_of_lt h1,
      ← List.getD_eq_getElem?_getD]
  · rw [if_neg h1, if_neg h1,
      readU8_append data (buf.drop (off + data.length)) (p - off)]
    by_cases h2 : p < off + data.length
    · rw [if_pos (by omega), if_pos h2]
    · rw [if_neg (by omega), if_neg h2, readU8_drop]
      congr 1
      omega

/-- The inner slot loop of `unpack_wazaoboe` (lines 252-260): scan `count`
4-byte slots starting at `offset`; a slot is emitted only when neither its
move code nor its level is the 0xFFFF sentinel; scanning always continues
through all slots. -/
def unpackWazaoboeSlots (c : Constants) (buffer : List Nat) :
    Nat → Nat → Except PyError (List MoveEntry)
  | _, 0 => .ok []
  | offset, count + 1 =>
    let move := readU16 buffer offset
    let level := readU16 buffer (offset + 2)
    if move ≠ 65535 ∧ level ≠ 65535 then
      match cnstname c.moves move with
      | .error e => .error e
      | .ok name => do
        let rest ← unpackWazaoboeSlots c buffer (offset + 4) count
        .ok ({ level := level, move := name } :: rest)
    else
      unpackWazaoboeSlots c buffer (offset + 4) count

/-- Decode one creature's 0x104-byte level-up slot (65 slots). -/
def unpack_wazaoboe_slot (c : Constants) (buffer : List Nat) (offset : Nat) :
    Except PyError (List MoveEntry) :=
  unpackWazaoboeSlots c buffer offset 65

/-- The write loop of `pack_wazaoboe` (lines 288-291): write the first
`count` entries as little-endian `<2H` (move index, level) pairs at 4-byte
stride. -/
def packWazaoboeMoves (c : Constants) :
    List MoveEntry → Nat → List Nat → Nat → Except PyError (List Nat)
  | _, 0, buf, _ => .ok buf
  | [], _ + 1, buf, _ => .ok buf
  | m :: rest, count + 1, buf, offset => do
    let mv ← cnstval c.moves m.move
    packWazaoboeMoves c rest count
      (writeBytesAt buf offset (w16 mv ++ w16 m.level)) (offset + 4)

/-- One creature's contribution in `pack_wazaoboe` (lines 281-291): cap the
number of written entries at 65; the Bool records whether the non-fatal
`more than 65 moves` warning was printed for this creature. -/
def pack_wazaoboe_creature (c : Constants) (move_list : List MoveEntry)
    (buf : List Nat) (offset : Nat) : Except PyError (List Nat × Bool) :=
  (packWazaoboeMoves c move_list
      (if move_list.length > 65 then 65 else move_list.length) buf offset).map
    (fun b => (b, decide (move_list.length > 65)))

/-- Encode one creature's move list into a fresh all-0xFF 0x104-byte slot
(the per-creature slice of `pack_wazaoboe`). -/
def pack_wazaoboe_slot (c : Constants) (move_list : List MoveEntry) :
    Except PyError (List Nat × Bool) :=
  pack_wazaoboe_creature c move_list (List.replicate 260 255) 0

/-- The entry loop of `pack_wazaoboe` (lines 280-291): each creature's list
is written at byte offset `cnstval("pokemon", name) * 0x104`. -/
def packWazaoboeEntries (c : Constants) :
    List (String × List MoveEntry) → List Nat →
      Except PyError (List Nat × List String)
  | [], buf => .ok (buf, [])
  | (pokemon_name, move_list) :: rest, buf => do
    let idx ← cnstval c.pokemon pokemon_name
    let (buf2, warned) ← pack_wazaoboe_creature c move_list buf (idx * 260)
    let (buf3, ws) ← packWazaoboeEntries c rest buf2
    .ok (buf3, (if warned then [pokemon_name] else []) ++ ws)

/-- `pack_wazaoboe`: pre-fill `len(pokemon) * 0x104` bytes with 0xFF, then
write every creature of the input mapping at its registry-index slot.  The
returned list collects the creatures whose lists were truncated (warnings). -/
def pack_wazaoboe (c : Constants) (entries : List (String × List MoveEntry)) :
    Except PyError (List Nat × List String) :=
  packWazaoboeEntries c entries (List.replicate (c.pokemon.length * 260) 255)

theorem cnstname_ok (l : List String) (i : Nat) (h : i < l.length) :
    cnstname l i = .ok (l.getD i "") := by
  unfold cnstname
  rw [List.get?_eq_getElem?, List.getElem?_eq_getElem h,
    List.getD_eq_getElem l ("") h]

theorem cnstname_err (l : List String) (i : Nat) (h : l.length ≤ i) :
    cnstname l i = .error .indexError := by
  unfold cnstname
  rw [List.get?_eq_getElem?, List.getElem?_eq_none h]

theorem cnstname_of_firstIndex (l : List String) (x : String) (i : Nat)
    (h : listFirstIndex l x = some i) : cnstname l i = .ok x := by
  unfold cnstname
  rw [listFirstIndex_get l x i h]

theorem cnstval_ok (l : List String) (x : String) (i : Nat)
    (h : listFirstIndex l x = some i) : cnstval l x = .ok i := by
  unfold cnstval
  rw [h]

theorem cnstval_err (l : List String) (x : String) (h : x ∉ l) :
    cnstval l x = .error .valueError := by
  unfold cnstval
  rw [(listFirstIndex_eq_none_iff l x).mpr h]

/-- Total version of the `list.index` lookup (meaningful when the name is
present; lemmas carry the membership hypothesis). -/
def idxOfD (l : List String) (x : String) : Nat :=
  (listFirstIndex l x).getD 0

theorem listFirstIndex_of_mem (l : List String) (x : String) (h : x ∈ l) :
    listFirstIndex l x = some (idxOfD l x) := by
  unfold idxOfD
  rcases hfi : listFirstIndex l x with _ | i
  · rw [listFirstIndex_eq_none_iff] at hfi
    exact absurd h hfi
  · rfl

theorem cnstval_mem (l : List String) (x : String) (h : x ∈ l) :
    cnstval l x = .ok (idxOfD l x) :=
  cnstval_ok l x _ (listFirstIndex_of_mem l x h)

theorem idxOfD_lt (l : List String) (x : String) (h : x ∈ l) :
    idxOfD l x < l.length :=
  listFirstIndex_lt l x _ (listFirstIndex_of_mem l x h)

theorem cnstname_idxOfD (l : List String) (x : String) (h : x ∈ l) :
    cnstname l (idxOfD l x) = .ok x :=
  cnstname_of_firstIndex l x _ (listFirstIndex_of_mem l x h)

/-- The byte image of a move list: consecutive `<2H` (move index, level)
pairs, as `pack_wazaoboe` writes them. -/
def movesData (c : Constants) : List MoveEntry → List Nat
  | [] => []
  | m :: rest => w16 (idxOfD c.moves m.move) ++ w16 m.level ++ movesData c rest

theorem length_movesData (c : Constants) (ms : List MoveEntry) :
    (movesData c ms).length = 4 * ms.length := by
  induction ms with
  | nil => rfl
  | cons m rest ih =>
    unfold movesData
    simp only [List.length_append, length_w16, ih, List.length_cons]
    omega

theorem writeBytesAt_writeBytesAt (buf d1 d2 : List Nat) (off : Nat)
    (h : off + d1.length + d2.length ≤ buf.length) :
    writeBytesAt (writeBytesAt buf off d1) (off + d1.length) d2 =
      writeBytesAt buf off (d1 ++ d2) := by
  apply getD_eq_of_bytes_eq
  · rw [writeBytesAt_length _ _ _
      (by rw [writeBytesAt_length _ _ _ (by omega)]; omega),
      writeBytesAt_length _ _ _ (by omega),
      writeBytesAt_length _ _ _ (by simp only [List.length_append]; omega)]
  intro p
  have e1 := readU8_writeBytesAt buf d1 off p (by omega)
  have e2 := readU8_writeBytesAt (writeBytesAt buf off d1) d2 (off + d1.length) p
    (by rw [writeBytesAt_length _ _ _ (by omega)]; omega)
  have e3 := readU8_writeBytesAt buf (d1 ++ d2) off p
    (by simp only [List.length_append]; omega)
  have e4 := readU8_append d1 d2 (p - off)
  unfold readU8 at e1 e2 e3 e4
  simp only [List.length_append] at e2 e3 ⊢
  by_cases h1 : p < off
  · rw [e2, if_pos (show p < off + d1.length by omega), e1, if_pos h1, e3,
      if_pos h1]
  · by_cases h2 : p < off + d1.length
    · rw [e2, if_pos h2, e1, if_neg h1, if_pos h2, e3, if_neg h1,
        if_pos (show p < off + (d1.length + d2.length) by omega), e4,
        if_pos (show p - off < d1.length by omega)]
    · by_cases h3 : p < off + d1.length + d2.length
      · rw [e2, if_neg h2, if_pos h3, e3, if_neg h1,
          if_pos (show p < off + (d1.length + d2.length) by omega), e4,
          if_neg (show ¬p - off < d1.length by omega)]
        congr 1
        omega
      · rw [e2, if_neg h2, if_neg h3, e1, if_neg h1, if_neg h2, e3, if_neg h1,
          if_neg (show ¬p < off + (d1.length + d2.length) by omega)]

theorem ok_bind {α β : Type} (a : α) (f : α → Except PyError β) :
    (do let x ← (.ok a : Except PyError α); f x) = f a := rfl

theorem err_bind {α β : Type} (e : PyError) (f : α → Except PyError β) :
    (do let x ← (.error e : Except PyError α); f x) = .error e := rfl

theorem packWazaoboeMoves_eq (c : Constants) :
    ∀ (count : Nat) (moves : List MoveEntry) (buf : List Nat) (offset : Nat),
      count ≤ moves.length →
      (∀ m ∈ moves.take count, m.move ∈ c.moves) →
      offset + 4 * count ≤ buf.length →
      packWazaoboeMoves c moves count buf offset =
        .ok (writeBytesAt buf offset (movesData c (moves.take count))) := by
  intro count
  induction count with
  | zero =>
    intro moves buf offset _ _ _
    cases moves <;>
      simp [packWazaoboeMoves, movesData, writeBytesAt, List.take_append_drop]
  | succ k ih =>
    intro moves buf offset hcount hmem hbound
    cases moves with
    | nil => simp at hcount
    | cons m rest =>
      unfold packWazaoboeMoves
      rw [cnstval_mem c.moves m.move (hmem m (by simp)), ok_bind]
      have hpair : (w16 (idxOfD c.moves m.move) ++ w16 m.level).length = 4 := rfl
      rw [ih rest (writeBytesAt buf offset (w16 (idxOfD c.moves m.move) ++ w16 m.level))
        (offset + 4)
        (by simpa using hcount)
        (by
          intro x hx
          exact hmem x (by simp only [List.take_succ_cons, List.mem_cons]; right; exact hx))
        (by rw [writeBytesAt_length _ _ _ (by rw [hpair]; omega)]; omega)]
      have hcomp := writeBytesAt_writeBytesAt buf
        (w16 (idxOfD c.moves m.move) ++ w16 m.level)
        (movesData c (rest.take k)) offset
        (by
          rw [hpair, length_movesData]
          have : (rest.take k).length = k := by
            rw [List.length_take]
            simp only [List.length_cons] at hcount
            omega
          rw [this]
          omega)
      rw [hpair] at hcomp
      rw [hcomp]
      congr 1

theorem readU16_append_right (xs ys : List Nat) (n : Nat) (h : xs.length ≤ n) :
    readU16 (xs ++ ys) n = readU16 ys (n - xs.length) := by
  unfold readU16
  rw [readU8_append, readU8_append, if_neg (by omega), if_neg (by omega)]
  have harith : n + 1 - xs.length = n - xs.length + 1 := by omega
  rw [harith]

theorem readU16_w16_low (v : Nat) (X : List Nat) :
    readU16 (w16 v ++ X) 0 = v % 65536 := by
  show v % 256 + 256 * (v / 256 % 256) = v % 65536
  omega

theorem movesData_readU16 (c : Constants) :
    ∀ (ms : List MoveEntry) (j : Nat), j < ms.length →
      readU16 (movesData c ms) (4 * j) =
        idxOfD c.moves ((ms.getD j ⟨0, ""⟩).move) % 65536 ∧
      readU16 (movesData c ms) (4 * j + 2) =
        (ms.getD j ⟨0, ""⟩).level % 65536 := by
  intro ms
  induction ms with
  | nil => intro j hj; simp at hj
  | cons m rest ih =>
    intro j hj
    cases j with
    | zero =>
      constructor
      · show readU16 (w16 (idxOfD c.moves m.move) ++ w16 m.level ++
          movesData c rest) 0 = _
        rw [List.append_assoc, readU16_w16_low]
        rfl
      · show readU16 (w16 (idxOfD c.moves m.move) ++ w16 m.level ++
          movesData c rest) 2 = _
        rw [List.append_assoc,
          readU16_append_right _ _ 2 (by rw [length_w16]),
          length_w16]
        show readU16 (w16 m.level ++ movesData c rest) 0 = _
        rw [readU16_w16_low]
        rfl
    | succ q =>
      have hq : q < rest.length := by
        simp only [List.length_cons] at hj
        omega
      have e1 : 4 * (q + 1) = 4 + 4 * q := by omega
      have e2 : 4 * (q + 1) + 2 = 4 + (4 * q + 2) := by omega
      have hlen4 : (w16 (idxOfD c.moves m.move) ++ w16 m.level).length = 4 := rfl
      constructor
      · show readU16 (w16 (idxOfD c.moves m.move) ++ w16 m.level ++
          movesData c rest) (4 * (q + 1)) = _
        rw [e1, readU16_append_right _ _ _ (by rw [hlen4]; omega), hlen4]
        have : 4 + 4 * q - 4 = 4 * q := by omega
        rw [this]
        exact (ih q hq).1
      · show readU16 (w16 (idxOfD c.moves m.move) ++ w16 m.level ++
          movesData c rest) (4 * (q + 1) + 2) = _
        rw [e2]
        rw [show 4 + (4 * q + 2) = (4 + 4 * q) + 2 by omega]
        rw [readU16_append_right _ _ _ (by rw [hlen4]; omega), hlen4]
        have : 4 + 4 * q + 2 - 4 = 4 * q + 2 := by omega
        rw [this]
        exact (ih q hq).2

theorem unpackWazaoboeSlots_sentinel (c : Constants) (buffer : List Nat) :
    ∀ (count offset : Nat),
      (∀ j, j < count → readU16 buffer (offset + 4 * j) = 65535 ∨
        readU16 buffer (offset + 4 * j + 2) = 65535) →
      unpackWazaoboeSlots c buffer offset count = .ok [] := by
  intro count
  induction count with
  | zero => intro offset _; rfl
  | succ k ih =>
    intro offset h
    unfold unpackWazaoboeSlots
    rw [if_neg (by
      have h0 := h 0 (by omega)
      rw [(by omega : offset + 4 * 0 = offset)] at h0
      rw [(by omega : offset + 4 * 0 + 2 = offset + 2)] at h0
      tauto)]
    apply ih
    intro j hj
    have e1 : offset + 4 + 4 * j = offset + 4 * (j + 1) := by omega
    rw [e1]
    exact h (j + 1) (by omega)

theorem unpackWazaoboeSlots_decode (c : Constants) (buffer : List Nat) :
    ∀ (ms : List MoveEntry) (count offset : Nat),
      ms.length ≤ count →
      (∀ m ∈ ms, m.move ∈ c.moves ∧ idxOfD c.moves m.move ≠ 65535 ∧
        m.level ≠ 65535) →
      (∀ j, j < ms.length →
        readU16 buffer (offset + 4 * j) =
          idxOfD c.moves ((ms.getD j ⟨0, ""⟩).move) ∧
        readU16 buffer (offset + 4 * j + 2) = (ms.getD j ⟨0, ""⟩).level) →
      (∀ j, ms.length ≤ j → j < count →
        readU16 buffer (offset + 4 * j) = 65535 ∧
        readU16 buffer (offset + 4 * j + 2) = 65535) →
      unpackWazaoboeSlots c buffer offset count = .ok ms := by
  intro ms
  induction ms with
  | nil =>
    intro count offset _ _ _ hpad
    apply unpackWazaoboeSlots_sentinel
    intro j hj
    exact Or.inl (hpad j (Nat.zero_le j) hj).1
  | cons m rest ih =>
    intro count offset hcount hval hdata hpad
    cases count with
    | zero => simp at hcount
    | succ k =>
      unfold unpackWazaoboeSlots
      have h0 := hdata 0 (by simp)
      rw [(by omega : offset + 4 * 0 = offset),
        (by omega : offset + 4 * 0 + 2 = offset + 2)] at h0
      simp only [List.getD_cons_zero] at h0
      obtain ⟨hv0, hval0⟩ := hval m (by simp)
      rw [if_pos (by
        constructor
        · rw [h0.1]; exact hval0.1
        · rw [h0.2]; exact hval0.2)]
      rw [h0.1, cnstname_idxOfD c.moves m.move hv0]
      rw [ih k (offset + 4)
        (by simp only [List.length_cons] at hcount; omega)
        (fun x hx => hval x (by simp [hx]))
        (by
          intro j hj
          have e1 : offset + 4 + 4 * j = offset + 4 * (j + 1) := by omega
          rw [e1]
          have := hdata (j + 1) (by simp only [List.length_cons]; omega)
          simpa using this)
        (by
          intro j hj1 hj2
          have e1 : offset + 4 + 4 * j = offset + 4 * (j + 1) := by omega
          rw [e1]
          exact hpad (j + 1) (by simp only [List.length_cons]; omega) (by omega))]
      rw [h0.2]
      rfl

theorem unpackWazaoboeSlots_filterMap (c : Constants) (buffer : List Nat) :
    ∀ (count offset : Nat),
      (∀ j, j < count → readU16 buffer (offset + 4 * j) ≠ 65535 →
        readU16 buffer (offset + 4 * j + 2) ≠ 65535 →
        readU16 buffer (offset + 4 * j) < c.moves.length) →
      unpackWazaoboeSlots c buffer offset count =
        .ok ((List.range count).filterMap (fun j =>
          if readU16 buffer (offset + 4 * j) ≠ 65535 ∧
              readU16 buffer (offset + 4 * j + 2) ≠ 65535 then
            some { level := readU16 buffer (offset + 4 * j + 2),
                   move := c.moves.getD (readU16 buffer (offset + 4 * j)) "" }
          else none)) := by
  intro count
  induction count with
  | zero => intro offset _; rfl
  | succ k ih =>
    intro offset h
    have hmap : ((List.range (k + 1)).filterMap (fun j =>
        if readU16 buffer (offset + 4 * j) ≠ 65535 ∧
            readU16 buffer (offset + 4 * j + 2) ≠ 65535 then
          some ({ level := readU16 buffer (offset + 4 * j + 2),
                  move := c.moves.getD (readU16 buffer (offset + 4 * j)) "" } : MoveEntry)
          else none)) =
        ((if readU16 buffer (offset + 4 * 0) ≠ 65535 ∧
            readU16 buffer (offset + 4 * 0 + 2) ≠ 65535 then
          [({ level := readU16 buffer (offset + 4 * 0 + 2),
              move := c.moves.getD (readU16 buffer (offset + 4 * 0)) "" } : MoveEntry)]
          else []) ++
        (List.range k).filterMap (fun j =>
          if readU16 buffer (offset + 4 + 4 * j) ≠ 65535 ∧
              readU16 buffer (offset + 4 + 4 * j + 2) ≠ 65535 then
            some ({ level := readU16 buffer (offset + 4 + 4 * j + 2),
                    move := c.moves.getD (readU16 buffer (offset + 4 + 4 * j)) "" } : MoveEntry)
            else none)) := by
      rw [List.range_succ_eq_map, List.filterMap_cons, List.filterMap_map]
      have hfun : ∀ j : Nat,
          ((fun j => if readU16 buffer (offset + 4 * j) ≠ 65535 ∧
              readU16 buffer (offset + 4 * j + 2) ≠ 65535 then
            some ({ level := readU16 buffer (offset + 4 * j + 2),
                    move := c.moves.getD (readU16 buffer (offset + 4 * j)) "" } : MoveEntry)
            else none) ∘ Nat.succ) j =
          (fun j => if readU16 buffer (offset + 4 + 4 * j) ≠ 65535 ∧
              readU16 buffer (offset + 4 + 4 * j + 2) ≠ 65535 then
            some ({ level := readU16 buffer (offset + 4 + 4 * j + 2),
                    move := c.moves.getD (readU16 buffer (offset + 4 + 4 * j)) "" } : MoveEntry)
            else none) j := by
        intro j
        have e1 : offset + 4 * Nat.succ j = offset + 4 + 4 * j := by omega
        simp only [Function.comp_apply, e1]
      rw [funext hfun]
      by_cases h0 : readU16 buffer (offset + 4 * 0) ≠ 65535 ∧
          readU16 buffer (offset + 4 * 0 + 2) ≠ 65535
      · simp only [if_pos h0]
        rfl
      · simp only [if_neg h0]
        rfl
    rw [hmap]
    unfold unpackWazaoboeSlots
    by_cases hs : readU16 buffer offset ≠ 65535 ∧ readU16 buffer (offset + 2) ≠ 65535
    · rw [if_pos hs,
        cnstname_ok c.moves _ (by
          have := h 0 (by omega)
          rw [(by omega : offset + 4 * 0 = offset)] at this
          rw [(by omega : offset + 4 * 0 + 2 = offset + 2)] at this
          exact this hs.1 hs.2),
        ih (offset + 4) (by
          intro j hj
          have e1 : offset + 4 + 4 * j = offset + 4 * (j + 1) := by omega
          rw [e1]
          exact h (j + 1) (by omega)),
        if_pos (by
          rw [(by omega : offset + 4 * 0 = offset),
            (by omega : offset + 4 * 0 + 2 = offset + 2)]
          exact hs)]
      rw [(by omega : offset + 4 * 0 = offset),
        (by omega : offset + 4 * 0 + 2 = offset + 2)]
      rfl
    · rw [if_neg hs,
        ih (offset + 4) (by
          intro j hj
          have e1 : offset + 4 + 4 * j = offset + 4 * (j + 1) := by omega
          rw [e1]
          exact h (j + 1) (by omega)),
        if_neg (by
          rw [(by omega : offset + 4 * 0 = offset),
            (by omega : offset + 4 * 0 + 2 = offset + 2)]
          exact hs)]
      rfl

theorem readU8_replicate (n v p : Nat) (h : p < n) :
    readU8 (List.replicate n v) p = v := by
  unfold readU8
  rw [List.getD_eq_getElem?_getD, List.getElem?_replicate_of_lt h]
  rfl

theorem pack_wazaoboe_creature_eq (c : Constants) (ms : List MoveEntry)
    (buf : List Nat) (offset : Nat)
    (hmem : ∀ m ∈ ms.take 65, m.move ∈ c.moves)
    (hbound : offset + 4 * (if ms.length > 65 then 65 else ms.length) ≤
      buf.length) :
    pack_wazaoboe_creature c ms buf offset =
      .ok (writeBytesAt buf offset (movesData c (ms.take 65)),
        decide (ms.length > 65)) := by
  unfold pack_wazaoboe_creature
  by_cases hlen : ms.length > 65
  · rw [if_pos hlen] at hbound
    rw [if_pos hlen,
      packWazaoboeMoves_eq c 65 ms buf offset (by omega) hmem hbound]
    rfl
  · rw [if_neg hlen] at hbound
    rw [if_neg hlen,
      packWazaoboeMoves_eq c ms.length ms buf offset (by omega)
        (by
          intro m hm
          apply hmem
          rw [List.take_of_length_le (by omega)]
          rw [List.take_length] at hm
          exact hm) hbound]
    rw [List.take_length, List.take_of_length_le (by omega)]
    rfl

theorem wazaoboe_packed_slot_unpack (c : Constants) (ms : List MoveEntry)
    (hlen : ms.length ≤ 65)
    (hval : ∀ m ∈ ms, m.move ∈ c.moves ∧ idxOfD c.moves m.move < 65535 ∧
      m.level < 65535) :
    unpack_wazaoboe_slot c
      (writeBytesAt (List.replicate 260 255) 0 (movesData c ms)) 0 = .ok ms := by
  have hdlen : (movesData c ms).length = 4 * ms.length := length_movesData c ms
  have hblen : 0 + (movesData c ms).length ≤ (List.replicate 260 255).length := by
    rw [hdlen, List.length_replicate]
    omega
  apply unpackWazaoboeSlots_decode c _ ms 65 0 hlen
  · intro m hm
    obtain ⟨h1, h2, h3⟩ := hval m hm
    exact ⟨h1, by omega, by omega⟩
  · intro j hj
    have hr8a := readU8_writeBytesAt (List.replicate 260 255) (movesData c ms)
      0 (4 * j) hblen
    have hr8b := readU8_writeBytesAt (List.replicate 260 255) (movesData c ms)
      0 (4 * j + 1) hblen
    have hr8c := readU8_writeBytesAt (List.replicate 260 255) (movesData c ms)
      0 (4 * j + 2) hblen
    have hr8d := readU8_writeBytesAt (List.replicate 260 255) (movesData c ms)
      0 (4 * j + 3) hblen
    rw [if_neg (by omega), if_pos (by rw [hdlen]; omega)] at hr8a hr8b hr8c hr8d
    have hidx := movesData_readU16 c ms j hj
    obtain ⟨hm1, hm2, hm3⟩ := hval (ms.getD j ⟨0, ""⟩) (by
      rw [List.getD_eq_getElem ms (⟨0, ""⟩) hj]
      exact List.getElem_mem _)
    constructor
    · show readU8 _ (0 + 4 * j) + 256 * readU8 _ (0 + 4 * j + 1) = _
      rw [(by omega : 0 + 4 * j = 4 * j), (by omega : 4 * j + 1 = 4 * j + 1)]
      rw [hr8a, hr8b]
      rw [(by omega : 4 * j - 0 = 4 * j), (by omega : 4 * j + 1 - 0 = 4 * j + 1)]
      have := hidx.1
      unfold readU16 at this
      rw [this]
      omega
    · show readU8 _ (0 + 4 * j + 2) + 256 * readU8 _ (0 + 4 * j + 2 + 1) = _
      rw [(by omega : 0 + 4 * j + 2 = 4 * j + 2),
        (by omega : 4 * j + 2 + 1 = 4 * j + 3)]
      rw [hr8c, hr8d]
      rw [(by omega : 4 * j + 2 - 0 = 4 * j + 2),
        (by omega : 4 * j + 3 - 0 = 4 * j + 3)]
      have := hidx.2
      unfold readU16 at this
      rw [(by omega : 4 * j + 2 + 1 = 4 * j + 3)] at this
      rw [this]
      omega
  · intro j hjlo hjhi
    have hr8a := readU8_writeBytesAt (List.replicate 260 255) (movesData c ms)
      0 (4 * j) hblen
    have hr8b := readU8_writeBytesAt (List.replicate 260 255) (movesData c ms)
      0 (4 * j + 1) hblen
    have hr8c := readU8_writeBytesAt (List.replicate 260 255) (movesData c ms)
      0 (4 * j + 2) hblen
    have hr8d := readU8_writeBytesAt (List.replicate 260 255) (movesData c ms)
      0 (4 * j + 3) hblen
    rw [if_neg (by omega), if_neg (by rw [hdlen]; omega)] at hr8a hr8b hr8c hr8d
    rw [readU8_replicate 260 255 (4 * j) (by omega)] at hr8a
    rw [readU8_replicate 260 255 (4 * j + 1) (by omega)] at hr8b
    rw [readU8_replicate 260 255 (4 * j + 2) (by omega)] at hr8c
    rw [readU8_replicate 260 255 (4 * j + 3) (by omega)] at hr8d
    constructor
    · show readU8 _ (0 + 4 * j) + 256 * readU8 _ (0 + 4 * j + 1) = 65535
      rw [(by omega : 0 + 4 * j = 4 * j), hr8a,
        (by omega : 4 * j + 1 = 4 * j + 1), hr8b]
    · show readU8 _ (0 + 4 * j + 2) + 256 * readU8 _ (0 + 4 * j + 2 + 1) = 65535
      rw [(by omega : 0 + 4 * j + 2 = 4 * j + 2), hr8c,
        (by omega : 4 * j + 2 + 1 = 4 * j + 3), hr8d]

/-- C6: level-up learnset decode scans all 65 fixed 4-byte slots of a
0x104-byte record; a slot is emitted iff both its raw move code and its raw
level differ from the 0xFFFF sentinel, in slot order; all-sentinel slots are
skipped wherever they occur (middle included) and scanning continues. -/
theorem C6_levelup_sentinel_scan (c : Constants) (buffer : List Nat)
    (offset : Nat)
    (h : ∀ j, j < 65 → readU16 buffer (offset + 4 * j) ≠ 65535 →
      readU16 buffer (offset + 4 * j + 2) ≠ 65535 →
      readU16 buffer (offset + 4 * j) < c.moves.length) :
    unpack_wazaoboe_slot c buffer offset =
      .ok ((List.range 65).filterMap (fun j =>
        if readU16 buffer (offset + 4 * j) ≠ 65535 ∧
            readU16 buffer (offset + 4 * j + 2) ≠ 65535 then
          some ({ level := readU16 buffer (offset + 4 * j + 2),
                  move := c.moves.getD (readU16 buffer (offset + 4 * j)) "" }
            : MoveEntry)
        else none)) :=
  unpackWazaoboeSlots_filterMap c buffer 65 offset h

/-- A concrete 0x104-byte slot: a valid pair, an all-sentinel middle slot,
then another valid pair, the rest sentinel-padded. -/
def demoWazaBuf : List Nat :=
  writeBytesAt (List.replicate 260 255) 0
    ([0, 0, 5, 0] ++ [255, 255, 255, 255] ++ [1, 0, 7, 0])

/-- Witness for C6: the middle all-sentinel slot is skipped and scanning
continues to the third slot. -/
theorem C6_levelup_sentinel_scan_witness :
    unpack_wazaoboe_slot demoConstants demoWazaBuf 0 =
      .ok [{ level := 5, move := "Pound" }, { level := 7, move := "Karate Chop" }] :=
  (C6_levelup_sentinel_scan demoConstants demoWazaBuf 0 (by decide)).trans
    (congrArg Except.ok (by decide))

/-- C7: level-up encode pre-fills the 0x104-byte slot with 0xFF and writes
the entries in input order at 4-byte stride; exactly 65 entries encode
losslessly; more than 65 entries are truncated to the first 65 with a
non-fatal warning (the Bool), processing continues, and decoding the result
yields the leading 65 entries unchanged. -/
theorem C7_levelup_truncation (c : Constants) (ms : List MoveEntry)
    (hval : ∀ m ∈ ms.take 65, m.move ∈ c.moves ∧
      idxOfD c.moves m.move < 65535 ∧ m.level < 65535) :
    pack_wazaoboe_slot c ms =
      .ok (writeBytesAt (List.replicate 260 255) 0 (movesData c (ms.take 65)),
        decide (ms.length > 65)) ∧
    (∀ p, 4 * (ms.take 65).length ≤ p → p < 260 →
      readU8 (writeBytesAt (List.replicate 260 255) 0
        (movesData c (ms.take 65))) p = 255) ∧
    unpack_wazaoboe_slot c
      (writeBytesAt (List.replicate 260 255) 0 (movesData c (ms.take 65))) 0 =
      .ok (ms.take 65) := by
  have htlen : (ms.take 65).length ≤ 65 := by
    rw [List.length_take]
    omega
  refine ⟨?_, ?_, ?_⟩
  · unfold pack_wazaoboe_slot
    apply pack_wazaoboe_creature_eq c ms _ 0 (fun m hm => (hval m hm).1)
    rw [List.length_replicate]
    split <;> omega
  · intro p hp1 hp2
    have hblen : 0 + (movesData c (ms.take 65)).length ≤
        (List.replicate 260 255).length := by
      rw [length_movesData, List.length_replicate]
      omega
    rw [readU8_writeBytesAt _ _ _ _ hblen, if_neg (by omega),
      if_neg (by rw [length_movesData]; omega)]
    exact readU8_replicate 260 255 p hp2
  · exact wazaoboe_packed_slot_unpack c (ms.take 65) htlen
      (fun m hm => hval m hm)

/-- Witness for C7: a 66-entry list is truncated to 65, the warning fires,
and decode returns the leading 65 entries. -/
theorem C7_levelup_truncation_witness :
    pack_wazaoboe_slot demoConstants (List.replicate 66 ⟨1, "Pound"⟩) =
      .ok (writeBytesAt (List.replicate 260 255) 0
        (movesData demoConstants ((List.replicate 66 ⟨1, "Pound"⟩).take 65)),
        decide ((List.replicate 66 (⟨1, "Pound"⟩ : MoveEntry)).length > 65)) ∧
    (∀ p, 4 * ((List.replicate 66 (⟨1, "Pound"⟩ : MoveEntry)).take 65).length ≤ p →
      p < 260 →
      readU8 (writeBytesAt (List.replicate 260 255) 0
        (movesData demoConstants
          ((List.replicate 66 ⟨1, "Pound"⟩).take 65))) p = 255) ∧
    unpack_wazaoboe_slot demoConstants
      (writeBytesAt (List.replicate 260 255) 0
        (movesData demoConstants ((List.replicate 66 ⟨1, "Pound"⟩).take 65))) 0 =
      .ok ((List.replicate 66 ⟨1, "Pound"⟩).take 65) :=
  C7_levelup_truncation demoConstants (List.replicate 66 ⟨1, "Pound"⟩)
    (by decide)

/-- Pure byte image of the `pack_wazaoboe` entry loop: each creature's
(truncated) move data overwrites its registry-index slot in turn. -/
def wazaWriteAll (c : Constants) :
    List (String × List MoveEntry) → List Nat → List Nat
  | [], buf => buf
  | (nm, ms) :: rest, buf =>
    wazaWriteAll c rest
      (writeBytesAt buf (idxOfD c.pokemon nm * 260) (movesData c (ms.take 65)))

/-- Names for which the >65-moves warning is printed, in input order. -/
def wazaWarnings : List (String × List MoveEntry) → List String
  | [] => []
  | (nm, ms) :: rest =>
    (if ms.length > 65 then [nm] else []) ++ wazaWarnings rest

theorem wazaWriteAll_length (c : Constants) :
    ∀ (entries : List (String × List MoveEntry)) (buf : List Nat),
      (∀ p ∈ entries, p.1 ∈ c.pokemon) →
      buf.length = c.pokemon.length * 260 →
      (wazaWriteAll c entries buf).length = buf.length := by
  intro entries
  induction entries with
  | nil => intro buf _ _; rfl
  | cons e rest ih =>
    intro buf hmem hlen
    obtain ⟨nm, ms⟩ := e
    unfold wazaWriteAll
    have hidx : idxOfD c.pokemon nm < c.pokemon.length :=
      idxOfD_lt c.pokemon nm (hmem (nm, ms) (by simp))
    have hw : (writeBytesAt buf (idxOfD c.pokemon nm * 260)
        (movesData c (ms.take 65))).length = buf.length := by
      apply writeBytesAt_length
      rw [length_movesData, hlen]
      have : (ms.take 65).length ≤ 65 := by
        rw [List.length_take]; omega
      omega
    rw [ih _ (fun p hp => hmem p (by simp [hp])) (by rw [hw, hlen]), hw]

theorem packWazaoboeEntries_eq (c : Constants) :
    ∀ (entries : List (String × List MoveEntry)) (buf : List Nat),
      (∀ p ∈ entries, p.1 ∈ c.pokemon ∧ ∀ m ∈ p.2.take 65, m.move ∈ c.moves) →
      buf.length = c.pokemon.length * 260 →
      packWazaoboeEntries c entries buf =
        .ok (wazaWriteAll c entries buf, wazaWarnings entries) := by
  intro entries
  induction entries with
  | nil => intro buf _ _; rfl
  | cons e rest ih =>
    intro buf hmem hlen
    obtain ⟨nm, ms⟩ := e
    have h0 := hmem (nm, ms) (by simp)
    have hidx : idxOfD c.pokemon nm < c.pokemon.length :=
      idxOfD_lt c.pokemon nm h0.1
    unfold packWazaoboeEntries
    rw [cnstval_mem c.pokemon nm h0.1, ok_bind]
    rw [pack_wazaoboe_creature_eq c ms buf (idxOfD c.pokemon nm * 260) h0.2
      (by
        rw [hlen]
        split <;> omega)]
    have hw : (writeBytesAt buf (idxOfD c.pokemon nm * 260)
        (movesData c (ms.take 65))).length = buf.length := by
      apply writeBytesAt_length
      rw [length_movesData, hlen]
      have : (ms.take 65).length ≤ 65 := by
        rw [List.length_take]; omega
      omega
    rw [ok_bind]
    dsimp only
    rw [ih _ (fun p hp => hmem p (by simp [hp])) (by rw [hw, hlen]), ok_bind]
    dsimp only
    simp only [decide_eq_true_eq]
    rfl

theorem wazaWriteAll_untouched (c : Constants) :
    ∀ (entries : List (String × List MoveEntry)) (buf : List Nat) (i : Nat),
      i < c.pokemon.length →
      (∀ p ∈ entries, p.1 ∈ c.pokemon) →
      buf.length = c.pokemon.length * 260 →
      (∀ p ∈ entries, listFirstIndex c.pokemon p.1 ≠ some i) →
      ∀ k, k < 260 →
        readU8 (wazaWriteAll c entries buf) (i * 260 + k) =
          readU8 buf (i * 260 + k) := by
  intro entries
  induction entries with
  | nil => intro buf i _ _ _ _ k _; rfl
  | cons e rest ih =>
    intro buf i hi hmem hlen habs k hk
    obtain ⟨nm, ms⟩ := e
    have hnm : nm ∈ c.pokemon := hmem (nm, ms) (by simp)
    have hidx : idxOfD c.pokemon nm < c.pokemon.length := idxOfD_lt _ _ hnm
    have hne : idxOfD c.pokemon nm ≠ i := by
      intro hcon
      exact habs (nm, ms) (by simp)
        (hcon ▸ listFirstIndex_of_mem c.pokemon nm hnm)
    have hdlen : (movesData c (ms.take 65)).length ≤ 260 := by
      rw [length_movesData, List.length_take]
      omega
    have hw : (writeBytesAt buf (idxOfD c.pokemon nm * 260)
        (movesData c (ms.take 65))).length = buf.length := by
      apply writeBytesAt_length
      omega
    unfold wazaWriteAll
    rw [ih _ i hi (fun p hp => hmem p (by simp [hp])) (by omega)
      (fun p hp => habs p (by simp [hp])) k hk]
    rw [readU8_writeBytesAt _ _ _ _ (by omega)]
    rcases Nat.lt_or_ge (idxOfD c.pokemon nm) i with hlt | hge
    · rw [if_neg (by
        have : idxOfD c.pokemon nm * 260 + 260 ≤ i * 260 := by
          calc idxOfD c.pokemon nm * 260 + 260
              = (idxOfD c.pokemon nm + 1) * 260 := by ring
            _ ≤ i * 260 := Nat.mul_le_mul_right 260 (by omega)
        omega), if_neg (by
        have : idxOfD c.pokemon nm * 260 + 260 ≤ i * 260 := by
          calc idxOfD c.pokemon nm * 260 + 260
              = (idxOfD c.pokemon nm + 1) * 260 := by ring
            _ ≤ i * 260 := Nat.mul_le_mul_right 260 (by omega)
        omega)]
    · have hgt : i < idxOfD c.pokemon nm := by omega
      rw [if_pos (by
        have : i * 260 + 260 ≤ idxOfD c.pokemon nm * 260 := by
          calc i * 260 + 260 = (i + 1) * 260 := by ring
            _ ≤ idxOfD c.pokemon nm * 260 := Nat.mul_le_mul_right 260 (by omega)
        omega)]

theorem wazaWriteAll_slot (c : Constants) :
    ∀ (entries : List (String × List MoveEntry)) (buf : List Nat)
      (nm : String) (ms : List MoveEntry),
      (nm, ms) ∈ entries →
      (entries.map Prod.fst).Nodup →
      (∀ p ∈ entries, p.1 ∈ c.pokemon) →
      buf.length = c.pokemon.length * 260 →
      ∀ k, k < 260 →
        readU8 (wazaWriteAll c entries buf) (idxOfD c.pokemon nm * 260 + k) =
          if k < (movesData c (ms.take 65)).length then
            readU8 (movesData c (ms.take 65)) k
          else readU8 buf (idxOfD c.pokemon nm * 260 + k) := by
  intro entries
  induction entries with
  | nil => intro buf nm ms hmem; simp at hmem
  | cons e rest ih =>
    intro buf nm ms hmem hnd hall hlen k hk
    obtain ⟨nm1, ms1⟩ := e
    have hnm1 : nm1 ∈ c.pokemon := hall (nm1, ms1) (by simp)
    have hidx1 : idxOfD c.pokemon nm1 < c.pokemon.length := idxOfD_lt _ _ hnm1
    have hdlen1 : (movesData c (ms1.take 65)).length ≤ 260 := by
      rw [length_movesData, List.length_take]
      omega
    have hw : (writeBytesAt buf (idxOfD c.pokemon nm1 * 260)
        (movesData c (ms1.take 65))).length = buf.length := by
      apply writeBytesAt_length
      omega
    rcases List.mem_cons.mp hmem with hhead | htail
    · have hpair : nm = nm1 ∧ ms = ms1 := by
        have h1 := congrArg Prod.fst hhead
        have h2 := congrArg Prod.snd hhead
        exact ⟨h1, h2⟩
      obtain ⟨rfl, rfl⟩ := hpair
      unfold wazaWriteAll
      have habs : ∀ p ∈ rest, listFirstIndex c.pokemon p.1 ≠
          some (idxOfD c.pokemon nm) := by
        intro p hp hcon
        have hp1mem : p.1 ∈ c.pokemon := hall p (by simp [hp])
        have hget := listFirstIndex_get c.pokemon p.1 _ hcon
        have hget2 := listFirstIndex_get c.pokemon nm _
          (listFirstIndex_of_mem c.pokemon nm hnm1)
        rw [hget] at hget2
        have : p.1 = nm := by
          exact Option.some_injective _ hget2
        simp only [List.map_cons, List.nodup_cons] at hnd
        exact hnd.1 (this ▸ List.mem_map_of_mem Prod.fst hp)
      rw [wazaWriteAll_untouched c rest _ (idxOfD c.pokemon nm)
        (idxOfD_lt _ _ hnm1) (fun p hp => hall p (by simp [hp])) (by omega)
        habs k hk]
      rw [readU8_writeBytesAt _ _ _ _ (by omega)]
      rw [if_neg (by omega)]
      by_cases hin : k < (movesData c (ms.take 65)).length
      · rw [if_pos (by omega), if_pos hin]
        congr 1
        omega
      · rw [if_neg (by omega), if_neg hin]
    · unfold wazaWriteAll
      have hne : idxOfD c.pokemon nm1 ≠ idxOfD c.pokemon nm := by
        intro hcon
        have hnmmem : nm ∈ c.pokemon := hall (nm, ms) (by simp [htail])
        have hget1 := listFirstIndex_get c.pokemon nm1 _
          (listFirstIndex_of_mem c.pokemon nm1 hnm1)
        have hget2 := listFirstIndex_get c.pokemon nm _
          (listFirstIndex_of_mem c.pokemon nm hnmmem)
        rw [hcon] at hget1
        rw [hget1] at hget2
        have heq : nm1 = nm := Option.some_injective _ hget2
        simp only [List.map_cons, List.nodup_cons] at hnd
        exact hnd.1 (heq ▸ List.mem_map_of_mem Prod.fst htail)
      rw [ih _ nm ms htail
        (by simp only [List.map_cons, List.nodup_cons] at hnd; exact hnd.2)
        (fun p hp => hall p (by simp [hp])) (by omega) k hk]
      have hnmmem : nm ∈ c.pokemon := hall (nm, ms) (by simp [htail])
      have hidx : idxOfD c.pokemon nm < c.pokemon.length := idxOfD_lt _ _ hnmmem
      have houtside : readU8 (writeBytesAt buf (idxOfD c.pokemon nm1 * 260)
          (movesData c (ms1.take 65))) (idxOfD c.pokemon nm * 260 + k) =
          readU8 buf (idxOfD c.pokemon nm * 260 + k) := by
        rw [readU8_writeBytesAt _ _ _ _ (by omega)]
        rcases Nat.lt_or_ge (idxOfD c.pokemon nm1) (idxOfD c.pokemon nm)
          with hlt | hge
        · rw [if_neg (by
            have : idxOfD c.pokemon nm1 * 260 + 260 ≤
                idxOfD c.pokemon nm * 260 := by
              calc idxOfD c.pokemon nm1 * 260 + 260
                  = (idxOfD c.pokemon nm1 + 1) * 260 := by ring
                _ ≤ idxOfD c.pokemon nm * 260 :=
                  Nat.mul_le_mul_right 260 (by omega)
            omega), if_neg (by
            have : idxOfD c.pokemon nm1 * 260 + 260 ≤
                idxOfD c.pokemon nm * 260 := by
              calc idxOfD c.pokemon nm1 * 260 + 260
                  = (idxOfD c.pokemon nm1 + 1) * 260 := by ring
                _ ≤ idxOfD c.pokemon nm * 260 :=
                  Nat.mul_le_mul_right 260 (by omega)
            omega)]
        · have hgt : idxOfD c.pokemon nm < idxOfD c.pokemon nm1 := by omega
          rw [if_pos (by
            have : idxOfD c.pokemon nm * 260 + 260 ≤
                idxOfD c.pokemon nm1 * 260 := by
              calc idxOfD c.pokemon nm * 260 + 260
                  = (idxOfD c.pokemon nm + 1) * 260 := by ring
                _ ≤ idxOfD c.pokemon nm1 * 260 :=
                  Nat.mul_le_mul_right 260 (by omega)
            omega)]
      rw [houtside]

/-- C10: `pack_wazaoboe` always emits `len(pokemon) * 0x104` bytes; each
input creature's (truncated) move data is written at byte offset
`index * 0x104` (its slot holds exactly the bytes of the standalone packed
slot), and every slot of a creature no input entry resolves to stays filled
with 0xFF. -/
theorem C10_wazaoboe_blob_layout (c : Constants)
    (entries : List (String × List MoveEntry))
    (hmem : ∀ p ∈ entries, p.1 ∈ c.pokemon ∧
      ∀ m ∈ p.2.take 65, m.move ∈ c.moves)
    (hnd : (entries.map Prod.fst).Nodup) :
    pack_wazaoboe c entries =
      .ok (wazaWriteAll c entries (List.replicate (c.pokemon.length * 260) 255),
        wazaWarnings entries) ∧
    (wazaWriteAll c entries
      (List.replicate (c.pokemon.length * 260) 255)).length =
      c.pokemon.length * 260 ∧
    (∀ i, i < c.pokemon.length →
      (∀ p ∈ entries, listFirstIndex c.pokemon p.1 ≠ some i) →
      ∀ k, k < 260 →
        readU8 (wazaWriteAll c entries
          (List.replicate (c.pokemon.length * 260) 255)) (i * 260 + k) = 255) ∧
    (∀ nm ms, (nm, ms) ∈ entries → ∀ k, k < 260 →
      readU8 (wazaWriteAll c entries
          (List.replicate (c.pokemon.length * 260) 255))
          (idxOfD c.pokemon nm * 260 + k) =
        readU8 (writeBytesAt (List.replicate 260 255) 0
          (movesData c (ms.take 65))) k) := by
  have hinit : (List.replicate (c.pokemon.length * 260) 255).length =
      c.pokemon.length * 260 := List.length_replicate _ _
  refine ⟨?_, ?_, ?_, ?_⟩
  · exact packWazaoboeEntries_eq c entries _ hmem hinit
  · rw [wazaWriteAll_length c entries _ (fun p hp => (hmem p hp).1) hinit,
      hinit]
  · intro i hi habs k hk
    rw [wazaWriteAll_untouched c entries _ i hi
      (fun p hp => (hmem p hp).1) hinit habs k hk]
    exact readU8_replicate _ _ _ (by
      have : i * 260 + 260 ≤ c.pokemon.length * 260 := by
        calc i * 260 + 260 = (i + 1) * 260 := by ring
          _ ≤ c.pokemon.length * 260 := Nat.mul_le_mul_right 260 (by omega)
      omega)
  · intro nm ms hpm k hk
    have hnm : nm ∈ c.pokemon := (hmem (nm, ms) hpm).1
    have hidx : idxOfD c.pokemon nm < c.pokemon.length := idxOfD_lt _ _ hnm
    have hdlen : (movesData c (ms.take 65)).length ≤ 260 := by
      rw [length_movesData, List.length_take]
      omega
    rw [wazaWriteAll_slot c entries _ nm ms hpm hnd
      (fun p hp => (hmem p hp).1) hinit k hk]
    by_cases hin : k < (movesData c (ms.take 65)).length
    · rw [if_pos hin, readU8_writeBytesAt (List.replicate 260 255) _ 0 k
        (by rw [List.length_replicate]; omega),
        if_neg (by omega : ¬k < 0), if_pos (by omega), Nat.sub_zero]
    · rw [if_neg hin, readU8_writeBytesAt (List.replicate 260 255) _ 0 k
        (by rw [List.length_replicate]; omega),
        if_neg (by omega : ¬k < 0), if_neg (by omega),
        readU8_replicate 260 255 k (by omega),
        readU8_replicate (c.pokemon.length * 260) 255
          (idxOfD c.pokemon nm * 260 + k) (by
          have : idxOfD c.pokemon nm * 260 + 260 ≤ c.pokemon.length * 260 := by
            calc idxOfD c.pokemon nm * 260 + 260
                = (idxOfD c.pokemon nm + 1) * 260 := by ring
              _ ≤ c.pokemon.length * 260 := Nat.mul_le_mul_right 260 (by omega)
          omega)]

/-- Witness for C10 on a concrete two-entry input over the demo registry. -/
theorem C10_wazaoboe_blob_layout_witness :
    pack_wazaoboe demoConstants
        [("Venusaur", [⟨12, "Pound"⟩]), ("Bulbasaur", [⟨3, "Double Slap"⟩])] =
      .ok (wazaWriteAll demoConstants
          [("Venusaur", [⟨12, "Pound"⟩]), ("Bulbasaur", [⟨3, "Double Slap"⟩])]
          (List.replicate (demoConstants.pokemon.length * 260) 255),
        wazaWarnings
          [("Venusaur", [⟨12, "Pound"⟩]), ("Bulbasaur", [⟨3, "Double Slap"⟩])]) :=
  (C10_wazaoboe_blob_layout demoConstants
    [("Venusaur", [⟨12, "Pound"⟩]), ("Bulbasaur", [⟨3, "Double Slap"⟩])]
    (by decide) (by decide)).1

theorem wbytes_of_length (n : Nat) (bs : List Nat) (h : bs.length = n) :
    wbytes n bs = bs := by
  unfold wbytes
  rw [h, List.take_of_length_le (by omega), Nat.sub_self]
  simp

/-- `ev_yield` as assembled by `pack_personal` (lines 195-201): six 2-bit
lanes at bit offsets 0,2,4,6,8,10 (each masked with `& 3`) and the
telekinesis flag at bit 12. -/
def packEvYield (e : CreatureEntry) : Nat :=
  (e.evs_hp &&& 3) ||| ((e.evs_atk &&& 3) <<< 2) ||| ((e.evs_def &&& 3) <<< 4) |||
  ((e.evs_spd &&& 3) <<< 6) ||| ((e.evs_sp_atk &&& 3) <<< 8) |||
  ((e.evs_sp_def &&& 3) <<< 10) |||
  ((if e.fail_telekinesis then 1 else 0) <<< 12)

/-- `pokedex_bits` as assembled by `pack_personal` (lines 212-214). -/
def packPokedexBits (dexColorIdx : Nat) (e : CreatureEntry) : Nat :=
  dexColorIdx ||| (if e.has_dex_entry then 0x40 else 0) |||
  (if e.is_visual_form then 0x80 else 0)

/-- `special_species_flags` as assembled by `pack_personal` (lines 219-220). -/
def packSpeciesFlags (e : CreatureEntry) : Nat :=
  (if e.is_regional_form then 1 else 0) ||| (if e.can_not_dynamax then 4 else 0)

/-- One record of `unpack_personal` (lines 92-168): unpack the
`<10B4H6B4H2B3H16s4s16sI8H72s4s2H` little-endian struct at `offset` and
build the JSON entry, resolving enum codes through the registry. -/
def unpack_personal_entry (c : Constants) (buffer : List Nat) (offset : Nat) :
    Except PyError CreatureEntry := do
  let ev_yield := readU16 buffer (offset + 0xA)
  let pokedex_bits := readU8 buffer (offset + 0x21)
  let special_species_flags := readU16 buffer (offset + 0x5A)
  let type_1 ← cnstname c.types (readU8 buffer (offset + 6))
  let type_2 ← cnstname c.types (readU8 buffer (offset + 7))
  let ability_1 ← cnstname c.abilities (readU16 buffer (offset + 0x18))
  let ability_2 ← cnstname c.abilities (readU16 buffer (offset + 0x1A))
  let hidden_ability ← cnstname c.abilities (readU16 buffer (offset + 0x1C))
  let growth_type ← cnstname c.growth_types (readU8 buffer (offset + 0x15))
  let special_z_item ← cnstname c.items (readU16 buffer (offset + 0x50))
  let special_z_base_move ← cnstname c.moves (readU16 buffer (offset + 0x52))
  let special_z_move ← cnstname c.moves (readU16 buffer (offset + 0x54))
  let egg_group_1 ← cnstname c.egg_groups (readU8 buffer (offset + 0x16))
  let egg_group_2 ← cnstname c.egg_groups (readU8 buffer (offset + 0x17))
  let egg_species ← cnstname c.pokemon (readU16 buffer (offset + 0x56))
  let common_item ← cnstname c.items (readU16 buffer (offset + 0xC))
  let rare_item ← cnstname c.items (readU16 buffer (offset + 0xE))
  let very_rare_item ← cnstname c.items (readU16 buffer (offset + 0x10))
  let first_form_index ← cnstname c.pokemon (readU16 buffer (offset + 0x1E))
  let dex_color ← cnstname c.dex_colors (pokedex_bits &&& 0x3F)
  .ok {
    type_1 := type_1
    type_2 := type_2
    base_hp := readU8 buffer (offset + 0)
    base_atk := readU8 buffer (offset + 1)
    base_def := readU8 buffer (offset + 2)
    base_sp_atk := readU8 buffer (offset + 4)
    base_sp_def := readU8 buffer (offset + 5)
    base_spd := readU8 buffer (offset + 3)
    ability_1 := ability_1
    ability_2 := ability_2
    hidden_ability := hidden_ability
    height := readU16 buffer (offset + 0x24)
    weight := readU16 buffer (offset + 0x26)
    evs_hp := ev_yield &&& 3
    evs_atk := (ev_yield >>> 2) &&& 3
    evs_def := (ev_yield >>> 4) &&& 3
    evs_sp_atk := (ev_yield >>> 8) &&& 3
    evs_sp_def := (ev_yield >>> 10) &&& 3
    evs_spd := (ev_yield >>> 6) &&& 3
    fail_telekinesis := ((ev_yield >>> 12) &&& 3) != 0
    catch_rate := readU8 buffer (offset + 8)
    gender_rate := readU8 buffer (offset + 0x12)
    base_exp := readU16 buffer (offset + 0x22)
    growth_type := growth_type
    special_z_item := special_z_item
    special_z_base_move := special_z_base_move
    special_z_move := special_z_move
    egg_group_1 := egg_group_1
    egg_group_2 := egg_group_2
    evolution_stage := readU8 buffer (offset + 9)
    egg_species := egg_species
    egg_form := readU16 buffer (offset + 0x58)
    hatch_cycles := readU8 buffer (offset + 0x13)
    base_friendship := readU8 buffer (offset + 0x14)
    common_item := common_item
    rare_item := rare_item
    very_rare_item := very_rare_item
    first_form_index := first_form_index
    form_count := readU8 buffer (offset + 0x20)
    icon_id := readU32 buffer (offset + 0x4C)
    pokedex_number := readU16 buffer (offset + 0x5C)
    armor_dex_number := readU16 buffer (offset + 0xAC)
    crown_dex_number := readU16 buffer (offset + 0xAE)
    dex_color := dex_color
    has_dex_entry := (pokedex_bits &&& 0x40) != 0
    is_visual_form := (pokedex_bits &&& 0x80) != 0
    is_regional_form := (special_species_flags &&& 0x1) != 0
    can_not_dynamax := (special_species_flags &&& 0x4) != 0
    tms := parse_learnset_bits c.tms (readBytes buffer (offset + 0x28) 16)
    trs := parse_learnset_bits c.trs (readBytes buffer (offset + 0x3C) 16)
    move_tutors :=
      parse_learnset_bits c.move_tutors (readBytes buffer (offset + 0x38) 4)
    armor_tutors :=
      parse_learnset_bits c.armor_tutors (readBytes buffer (offset + 0xA8) 4)
    unk5E := readU16 buffer (offset + 0x5E)
    unk60 := readBytes buffer (offset + 0x60) 72 }

/-- One record of `pack_personal` (lines 180-234): resolve the entry's enum
names, assemble the bit-packed fields and emit the 0xB0 bytes of the
`<10B4H6B4H2B3H16s4s16sI8H72s4s2H` struct in order. -/
def pack_personal_entry (c : Constants) (e : CreatureEntry) :
    Except PyError (List Nat) := do
  let tm_bits := pack_learnset_bits c.tms e.tms 16
  let move_tutors_bits := pack_learnset_bits c.move_tutors e.move_tutors 4
  let tr_bits := pack_learnset_bits c.trs e.trs 16
  let armor_tutors_bits := pack_learnset_bits c.armor_tutors e.armor_tutors 4
  let type_1 ← cnstval c.types e.type_1
  let type_2 ← cnstval c.types e.type_2
  let common_item ← cnstval c.items e.common_item
  let rare_item ← cnstval c.items e.rare_item
  let very_rare_item ← cnstval c.items e.very_rare_item
  let growth_type ← cnstval c.growth_types e.growth_type
  let egg_group_1 ← cnstval c.egg_groups e.egg_group_1
  let egg_group_2 ← cnstval c.egg_groups e.egg_group_2
  let ability_1 ← cnstval c.abilities e.ability_1
  let ability_2 ← cnstval c.abilities e.ability_2
  let hidden_ability ← cnstval c.abilities e.hidden_ability
  let first_form_index ← cnstval c.pokemon e.first_form_index
  let dex_color_index ← cnstval c.dex_colors e.dex_color
  let special_z_item ← cnstval c.items e.special_z_item
  let special_z_base_move ← cnstval c.moves e.special_z_base_move
  let special_z_move ← cnstval c.moves e.special_z_move
  let egg_species ← cnstval c.pokemon e.egg_species
  .ok ((w8 e.base_hp ++ w8 e.base_atk ++ w8 e.base_def ++ w8 e.base_spd ++
    w8 e.base_sp_atk ++ w8 e.base_sp_def ++ w8 type_1 ++ w8 type_2 ++
    w8 e.catch_rate ++ w8 e.evolution_stage ++ w16 (packEvYield e) ++
    w16 common_item ++ w16 rare_item ++ w16 very_rare_item ++
    w8 e.gender_rate ++ w8 e.hatch_cycles ++ w8 e.base_friendship ++
    w8 growth_type ++ w8 egg_group_1 ++ w8 egg_group_2 ++ w16 ability_1 ++
    w16 ability_2 ++ w16 hidden_ability ++ w16 first_form_index ++
    w8 e.form_count ++ w8 (packPokedexBits dex_color_index e) ++
    w16 e.base_exp ++ w16 e.height ++ w16 e.weight) ++
    (wbytes 16 tm_bits ++
    (wbytes 4 move_tutors_bits ++
    (wbytes 16 tr_bits ++
    ((w32 e.icon_id ++
    w16 special_z_item ++ w16 special_z_base_move ++ w16 special_z_move ++
    w16 egg_species ++ w16 e.egg_form ++ w16 (packSpeciesFlags e) ++
    w16 e.pokedex_number ++ w16 e.unk5E) ++
    (wbytes 72 e.unk60 ++
    (wbytes 4 armor_tutors_bits ++
    (w16 e.armor_dex_number ++ w16 e.crown_dex_number))))))))

/-- The entry `unpack_personal` builds when every enum lookup succeeds
(total variant used to state decode results). -/
def personalEntryOf (c : Constants) (buffer : List Nat) (offset : Nat) :
    CreatureEntry where
  type_1 := c.types.getD (readU8 buffer (offset + 6)) ""
  type_2 := c.types.getD (readU8 buffer (offset + 7)) ""
  base_hp := readU8 buffer (offset + 0)
  base_atk := readU8 buffer (offset + 1)
  base_def := readU8 buffer (offset + 2)
  base_sp_atk := readU8 buffer (offset + 4)
  base_sp_def := readU8 buffer (offset + 5)
  base_spd := readU8 buffer (offset + 3)
  ability_1 := c.abilities.getD (readU16 buffer (offset + 0x18)) ""
  ability_2 := c.abilities.getD (readU16 buffer (offset + 0x1A)) ""
  hidden_ability := c.abilities.getD (readU16 buffer (offset + 0x1C)) ""
  height := readU16 buffer (offset + 0x24)
  weight := readU16 buffer (offset + 0x26)
  evs_hp := readU16 buffer (offset + 0xA) &&& 3
  evs_atk := (readU16 buffer (offset + 0xA) >>> 2) &&& 3
  evs_def := (readU16 buffer (offset + 0xA) >>> 4) &&& 3
  evs_sp_atk := (readU16 buffer (offset + 0xA) >>> 8) &&& 3
  evs_sp_def := (readU16 buffer (offset + 0xA) >>> 10) &&& 3
  evs_spd := (readU16 buffer (offset + 0xA) >>> 6) &&& 3
  fail_telekinesis := ((readU16 buffer (offset + 0xA) >>> 12) &&& 3) != 0
  catch_rate := readU8 buffer (offset + 8)
  gender_rate := readU8 buffer (offset + 0x12)
  base_exp := readU16 buffer (offset + 0x22)
  growth_type := c.growth_types.getD (readU8 buffer (offset + 0x15)) ""
  special_z_item := c.items.getD (readU16 buffer (offset + 0x50)) ""
  special_z_base_move := c.moves.getD (readU16 buffer (offset + 0x52)) ""
  special_z_move := c.moves.getD (readU16 buffer (offset + 0x54)) ""
  egg_group_1 := c.egg_groups.getD (readU8 buffer (offset + 0x16)) ""
  egg_group_2 := c.egg_groups.getD (readU8 buffer (offset + 0x17)) ""
  evolution_stage := readU8 buffer (offset + 9)
  egg_species := c.pokemon.getD (readU16 buffer (offset + 0x56)) ""
  egg_form := readU16 buffer (offset + 0x58)
  hatch_cycles := readU8 buffer (offset + 0x13)
  base_friendship := readU8 buffer (offset + 0x14)
  common_item := c.items.getD (readU16 buffer (offset + 0xC)) ""
  rare_item := c.items.getD (readU16 buffer (offset + 0xE)) ""
  very_rare_item := c.items.getD (readU16 buffer (offset + 0x10)) ""
  first_form_index := c.pokemon.getD (readU16 buffer (offset + 0x1E)) ""
  form_count := readU8 buffer (offset + 0x20)
  icon_id := readU32 buffer (offset + 0x4C)
  pokedex_number := readU16 buffer (offset + 0x5C)
  armor_dex_number := readU16 buffer (offset + 0xAC)
  crown_dex_number := readU16 buffer (offset + 0xAE)
  dex_color := c.dex_colors.getD (readU8 buffer (offset + 0x21) &&& 0x3F) ""
  has_dex_entry := (readU8 buffer (offset + 0x21) &&& 0x40) != 0
  is_visual_form := (readU8 buffer (offset + 0x21) &&& 0x80) != 0
  is_regional_form := (readU16 buffer (offset + 0x5A) &&& 0x1) != 0
  can_not_dynamax := (readU16 buffer (offset + 0x5A) &&& 0x4) != 0
  tms := parse_learnset_bits c.tms (readBytes buffer (offset + 0x28) 16)
  trs := parse_learnset_bits c.trs (readBytes buffer (offset + 0x3C) 16)
  move_tutors :=
    parse_learnset_bits c.move_tutors (readBytes buffer (offset + 0x38) 4)
  armor_tutors :=
    parse_learnset_bits c.armor_tutors (readBytes buffer (offset + 0xA8) 4)
  unk5E := readU16 buffer (offset + 0x5E)
  unk60 := readBytes buffer (offset + 0x60) 72

/-- The record bytes `pack_personal` emits when every enum lookup succeeds
(total variant used to state encode results). -/
def personalHead (c : Constants) (e : CreatureEntry) : List Nat :=
  w8 e.base_hp ++ w8 e.base_atk ++ w8 e.base_def ++ w8 e.base_spd ++
  w8 e.base_sp_atk ++ w8 e.base_sp_def ++ w8 (idxOfD c.types e.type_1) ++
  w8 (idxOfD c.types e.type_2) ++ w8 e.catch_rate ++ w8 e.evolution_stage ++
  w16 (packEvYield e) ++ w16 (idxOfD c.items e.common_item) ++
  w16 (idxOfD c.items e.rare_item) ++ w16 (idxOfD c.items e.very_rare_item) ++
  w8 e.gender_rate ++ w8 e.hatch_cycles ++ w8 e.base_friendship ++
  w8 (idxOfD c.growth_types e.growth_type) ++
  w8 (idxOfD c.egg_groups e.egg_group_1) ++
  w8 (idxOfD c.egg_groups e.egg_group_2) ++
  w16 (idxOfD c.abilities e.ability_1) ++
  w16 (idxOfD c.abilities e.ability_2) ++
  w16 (idxOfD c.abilities e.hidden_ability) ++
  w16 (idxOfD c.pokemon e.first_form_index) ++ w8 e.form_count ++
  w8 (packPokedexBits (idxOfD c.dex_colors e.dex_color) e) ++
  w16 e.base_exp ++ w16 e.height ++ w16 e.weight

def personalMid (c : Constants) (e : CreatureEntry) : List Nat :=
  w32 e.icon_id ++
  w16 (idxOfD c.items e.special_z_item) ++
  w16 (idxOfD c.moves e.special_z_base_move) ++
  w16 (idxOfD c.moves e.special_z_move) ++
  w16 (idxOfD c.pokemon e.egg_species) ++ w16 e.egg_form ++
  w16 (packSpeciesFlags e) ++ w16 e.pokedex_number ++ w16 e.unk5E

def packedPersonalBytes (c : Constants) (e : CreatureEntry) : List Nat :=
  personalHead c e ++
  (wbytes 16 (pack_learnset_bits c.tms e.tms 16) ++
  (wbytes 4 (pack_learnset_bits c.move_tutors e.move_tutors 4) ++
  (wbytes 16 (pack_learnset_bits c.trs e.trs 16) ++
  (personalMid c e ++
  (wbytes 72 e.unk60 ++
  (wbytes 4 (pack_learnset_bits c.armor_tutors e.armor_tutors 4) ++
  (w16 e.armor_dex_number ++ w16 e.crown_dex_number)))))))

/-- All enum codes of the record at `offset` are within their categories, so
`unpack_personal` can resolve every name. -/
def personalEnumCodesOk (c : Constants) (buffer : List Nat) (offset : Nat) :
    Prop :=
  readU8 buffer (offset + 6) < c.types.length ∧
  readU8 buffer (offset + 7) < c.types.length ∧
  readU16 buffer (offset + 0x18) < c.abilities.length ∧
  readU16 buffer (offset + 0x1A) < c.abilities.length ∧
  readU16 buffer (offset + 0x1C) < c.abilities.length ∧
  readU8 buffer (offset + 0x15) < c.growth_types.length ∧
  readU16 buffer (offset + 0x50) < c.items.length ∧
  readU16 buffer (offset + 0x52) < c.moves.length ∧
  readU16 buffer (offset + 0x54) < c.moves.length ∧
  readU8 buffer (offset + 0x16) < c.egg_groups.length ∧
  readU8 buffer (offset + 0x17) < c.egg_groups.length ∧
  readU16 buffer (offset + 0x56) < c.pokemon.length ∧
  readU16 buffer (offset + 0xC) < c.items.length ∧
  readU16 buffer (offset + 0xE) < c.items.length ∧
  readU16 buffer (offset + 0x10) < c.items.length ∧
  readU16 buffer (offset + 0x1E) < c.pokemon.length ∧
  (readU8 buffer (offset + 0x21) &&& 0x3F) < c.dex_colors.length

/-- All enum names of the entry are present in their categories, so
`pack_personal` can resolve every index. -/
def personalNamesOk (c : Constants) (e : CreatureEntry) : Prop :=
  e.type_1 ∈ c.types ∧ e.type_2 ∈ c.types ∧ e.common_item ∈ c.items ∧
  e.rare_item ∈ c.items ∧ e.very_rare_item ∈ c.items ∧
  e.growth_type ∈ c.growth_types ∧ e.egg_group_1 ∈ c.egg_groups ∧
  e.egg_group_2 ∈ c.egg_groups ∧ e.ability_1 ∈ c.abilities ∧
  e.ability_2 ∈ c.abilities ∧ e.hidden_ability ∈ c.abilities ∧
  e.first_form_index ∈ c.pokemon ∧ e.dex_color ∈ c.dex_colors ∧
  e.special_z_item ∈ c.items ∧ e.special_z_base_move ∈ c.moves ∧
  e.special_z_move ∈ c.moves ∧ e.egg_species ∈ c.pokemon

theorem unpack_personal_entry_ok (c : Constants) (buffer : List Nat)
    (offset : Nat) (h : personalEnumCodesOk c buffer offset) :
    unpack_personal_entry c buffer offset =
      .ok (personalEntryOf c buffer offset) := by
  obtain ⟨h1, h2, h3, h4, h5, h6, h7, h8, h9, h10, h11, h12, h13, h14, h15,
    h16, h17⟩ := h
  unfold unpack_personal_entry
  rw [cnstname_ok _ _ h1, ok_bind, cnstname_ok _ _ h2, ok_bind,
    cnstname_ok _ _ h3, ok_bind, cnstname_ok _ _ h4, ok_bind,
    cnstname_ok _ _ h5, ok_bind, cnstname_ok _ _ h6, ok_bind,
    cnstname_ok _ _ h7, ok_bind, cnstname_ok _ _ h8, ok_bind,
    cnstname_ok _ _ h9, ok_bind, cnstname_ok _ _ h10, ok_bind,
    cnstname_ok _ _ h11, ok_bind, cnstname_ok _ _ h12, ok_bind,
    cnstname_ok _ _ h13, ok_bind, cnstname_ok _ _ h14, ok_bind,
    cnstname_ok _ _ h15, ok_bind, cnstname_ok _ _ h16, ok_bind,
    cnstname_ok _ _ h17, ok_bind]
  rfl

theorem pack_personal_entry_ok (c : Constants) (e : CreatureEntry)
    (h : personalNamesOk c e) :
    pack_personal_entry c e = .ok (packedPersonalBytes c e) := by
  obtain ⟨h1, h2, h3, h4, h5, h6, h7, h8, h9, h10, h11, h12, h13, h14, h15,
    h16, h17⟩ := h
  unfold pack_personal_entry
  rw [cnstval_mem _ _ h1, ok_bind, cnstval_mem _ _ h2, ok_bind,
    cnstval_mem _ _ h3, ok_bind, cnstval_mem _ _ h4, ok_bind,
    cnstval_mem _ _ h5, ok_bind, cnstval_mem _ _ h6, ok_bind,
    cnstval_mem _ _ h7, ok_bind, cnstval_mem _ _ h8, ok_bind,
    cnstval_mem _ _ h9, ok_bind, cnstval_mem _ _ h10, ok_bind,
    cnstval_mem _ _ h11, ok_bind, cnstval_mem _ _ h12, ok_bind,
    cnstval_mem _ _ h13, ok_bind, cnstval_mem _ _ h14, ok_bind,
    cnstval_mem _ _ h15, ok_bind, cnstval_mem _ _ h16, ok_bind,
    cnstval_mem _ _ h17, ok_bind]
  rfl

theorem readU8_w8_zero (v : Nat) : readU8 (w8 v) 0 = v % 256 := rfl

theorem readU8_w16_zero (v : Nat) : readU8 (w16 v) 0 = v % 256 := rfl

theorem readU8_w16_one (v : Nat) : readU8 (w16 v) 1 = v / 256 % 256 := rfl


theorem readU8_w16_zero2 (v : Nat) (X : List Nat) :
    readU8 (w16 v ++ X) 0 = v % 256 := rfl

theorem length_personalHead (c : Constants) (e : CreatureEntry) :
    (personalHead c e).length = 40 := by
  norm_num [personalHead, List.length_append, length_w8, length_w16]

theorem length_personalMid (c : Constants) (e : CreatureEntry) :
    (personalMid c e).length = 20 := by
  norm_num [personalMid, List.length_append, length_w8, length_w16, length_w32]

theorem readU8_w32_0 (v : Nat) : readU8 (w32 v) 0 = v % 256 := rfl

theorem readU8_w32_1 (v : Nat) : readU8 (w32 v) 1 = v / 256 % 256 := rfl

theorem readU8_w32_2 (v : Nat) : readU8 (w32 v) 2 = v / 65536 % 256 := rfl

theorem readU8_w32_3 (v : Nat) : readU8 (w32 v) 3 = v / 16777216 % 256 := rfl


theorem ppb_u8_0 (c : Constants) (e : CreatureEntry) :
    readU8 (packedPersonalBytes c e) 0 = (e.base_hp) % 256 := by
  norm_num [packedPersonalBytes, personalHead, readU8_append, length_w8,
    length_w16, readU8_w8_zero, readU8_w16_zero, readU8_w16_one]

theorem ppb_u8_1 (c : Constants) (e : CreatureEntry) :
    readU8 (packedPersonalBytes c e) 1 = (e.base_atk) % 256 := by
  norm_num [packedPersonalBytes, personalHead, readU8_append, length_w8,
    length_w16, readU8_w8_zero, readU8_w16_zero, readU8_w16_one]

theorem ppb_u8_2 (c : Constants) (e : CreatureEntry) :
    readU8 (packedPersonalBytes c e) 2 = (e.base_def) % 256 := by
  norm_num [packedPersonalBytes, personalHead, readU8_append, length_w8,
    length_w16, readU8_w8_zero, readU8_w16_zero, readU8_w16_one]

theorem ppb_u8_3 (c : Constants) (e : CreatureEntry) :
    readU8 (packedPersonalBytes c e) 3 = (e.base_spd) % 256 := by
  norm_num [packedPersonalBytes, personalHead, readU8_append, length_w8,
    length_w16, readU8_w8_zero, readU8_w16_zero, readU8_w16_one]

theorem ppb_u8_4 (c : Constants) (e : CreatureEntry) :
    readU8 (packedPersonalBytes c e) 4 = (e.base_sp_atk) % 256 := by
  norm_num [packedPersonalBytes, personalHead, readU8_append, length_w8,
    length_w16, readU8_w8_zero, readU8_w16_zero, readU8_w16_one]

theorem ppb_u8_5 (c : Constants) (e : CreatureEntry) :
    readU8 (packedPersonalBytes c e) 5 = (e.base_sp_def) % 256 := by
  norm_num [packedPersonalBytes, personalHead, readU8_append, length_w8,
    length_w16, readU8_w8_zero, readU8_w16_zero, readU8_w16_one]

theorem ppb_u8_6 (c : Constants) (e : CreatureEntry) :
    readU8 (packedPersonalBytes c e) 6 = (idxOfD c.types e.type_1) % 256 := by
  norm_num [packedPersonalBytes, personalHead, readU8_append, length_w8,
    length_w16, readU8_w8_zero, readU8_w16_zero, readU8_w16_one]

theorem ppb_u8_7 (c : Constants) (e : CreatureEntry) :
    readU8 (packedPersonalBytes c e) 7 = (idxOfD c.types e.type_2) % 256 := by
  norm_num [packedPersonalBytes, personalHead, readU8_append, length_w8,
    length_w16, readU8_w8_zero, readU8_w16_zero, readU8_w16_one]

theorem ppb_u8_8 (c : Constants) (e : CreatureEntry) :
    readU8 (packedPersonalBytes c e) 8 = (e.catch_rate) % 256 := by
  norm_num [packedPersonalBytes, personalHead, readU8_append, length_w8,
    length_w16, readU8_w8_zero, readU8_w16_zero, readU8_w16_one]

theorem ppb_u8_9 (c : Constants) (e : CreatureEntry) :
    readU8 (packedPersonalBytes c e) 9 = (e.evolution_stage) % 256 := by
  norm_num [packedPersonalBytes, personalHead, readU8_append, length_w8,
    length_w16, readU8_w8_zero, readU8_w16_zero, readU8_w16_one]

theorem ppb_u8_18 (c : Constants) (e : CreatureEntry) :
    readU8 (packedPersonalBytes c e) 18 = (e.gender_rate) % 256 := by
  norm_num [packedPersonalBytes, personalHead, readU8_append, length_w8,
    length_w16, readU8_w8_zero, readU8_w16_zero, readU8_w16_one]

theorem ppb_u8_19 (c : Constants) (e : CreatureEntry) :
    readU8 (packedPersonalBytes c e) 19 = (e.hatch_cycles) % 256 := by
  norm_num [packedPersonalBytes, personalHead, readU8_append, length_w8,
    length_w16, readU8_w8_zero, readU8_w16_zero, readU8_w16_one]

theorem ppb_u8_20 (c : Constants) (e : CreatureEntry) :
    readU8 (packedPersonalBytes c e) 20 = (e.base_friendship) % 256 := by
  norm_num [packedPersonalBytes, personalHead, readU8_append, length_w8,
    length_w16, readU8_w8_zero, readU8_w16_zero, readU8_w16_one]

theorem ppb_u8_21 (c : Constants) (e : CreatureEntry) :
    readU8 (packedPersonalBytes c e) 21 = (idxOfD c.growth_types e.growth_type) % 256 := by
  norm_num [packedPersonalBytes, personalHead, readU8_append, length_w8,
    length_w16, readU8_w8_zero, readU8_w16_zero, readU8_w16_one]

theorem ppb_u8_22 (c : Constants) (e : CreatureEntry) :
    readU8 (packedPersonalBytes c e) 22 = (idxOfD c.egg_groups e.egg_group_1) % 256 := by
  norm_num [packedPersonalBytes, personalHead, readU8_append, length_w8,
    length_w16, readU8_w8_zero, readU8_w16_zero, readU8_w16_one]

theorem ppb_u8_23 (c : Constants) (e : CreatureEntry) :
    readU8 (packedPersonalBytes c e) 23 = (idxOfD c.egg_groups e.egg_group_2) % 256 := by
  norm_num [packedPersonalBytes, personalHead, readU8_append, length_w8,
    length_w16, readU8_w8_zero, readU8_w16_zero, readU8_w16_one]

theorem ppb_u8_32 (c : Constants) (e : CreatureEntry) :
    readU8 (packedPersonalBytes c e) 32 = (e.form_count) % 256 := by
  norm_num [packedPersonalBytes, personalHead, readU8_append, length_w8,
    length_w16, readU8_w8_zero, readU8_w16_zero, readU8_w16_one]

theorem ppb_u8_33 (c : Constants) (e : CreatureEntry) :
    readU8 (packedPersonalBytes c e) 33 = (packPokedexBits (idxOfD c.dex_colors e.dex_color) e) % 256 := by
  norm_num [packedPersonalBytes, personalHead, readU8_append, length_w8,
    length_w16, readU8_w8_zero, readU8_w16_zero, readU8_w16_one]

theorem ppb_u16_10 (c : Constants) (e : CreatureEntry) :
    readU16 (packedPersonalBytes c e) 10 = (packEvYield e) % 65536 := by
  norm_num [readU16, packedPersonalBytes, personalHead, readU8_append, length_w8,
    length_w16, readU8_w8_zero, readU8_w16_zero, readU8_w16_one]
  omega

theorem ppb_u16_12 (c : Constants) (e : CreatureEntry) :
    readU16 (packedPersonalBytes c e) 12 = (idxOfD c.items e.common_item) % 65536 := by
  norm_num [readU16, packedPersonalBytes, personalHead, readU8_append, length_w8,
    length_w16, readU8_w8_zero, readU8_w16_zero, readU8_w16_one]
  omega

theorem ppb_u16_14 (c : Constants) (e : CreatureEntry) :
    readU16 (packedPersonalBytes c e) 14 = (idxOfD c.items e.rare_item) % 65536 := by
  norm_num [readU16, packedPersonalBytes, personalHead, readU8_append, length_w8,
    length_w16, readU8_w8_zero, readU8_w16_zero, readU8_w16_one]
  omega

theorem ppb_u16_16 (c : Constants) (e : CreatureEntry) :
    readU16 (packedPersonalBytes c e) 16 = (idxOfD c.items e.very_rare_item) % 65536 := by
  norm_num [readU16, packedPersonalBytes, personalHead, readU8_append, length_w8,
    length_w16, readU8_w8_zero, readU8_w16_zero, readU8_w16_one]
  omega

theorem ppb_u16_24 (c : Constants) (e : CreatureEntry) :
    readU16 (packedPersonalBytes c e) 24 = (idxOfD c.abilities e.ability_1) % 65536 := by
  norm_num [readU16, packedPersonalBytes, personalHead, readU8_append, length_w8,
    length_w16, readU8_w8_zero, readU8_w16_zero, readU8_w16_one]
  omega

theorem ppb_u16_26 (c : Constants) (e : CreatureEntry) :
    readU16 (packedPersonalBytes c e) 26 = (idxOfD c.abilities e.ability_2) % 65536 := by
  norm_num [readU16, packedPersonalBytes, personalHead, readU8_append, length_w8,
    length_w16, readU8_w8_zero, readU8_w16_zero, readU8_w16_one]
  omega

theorem ppb_u16_28 (c : Constants) (e : CreatureEntry) :
    readU16 (packedPersonalBytes c e) 28 = (idxOfD c.abilities e.hidden_ability) % 65536 := by
  norm_num [readU16, packedPersonalBytes, personalHead, readU8_append, length_w8,
    length_w16, readU8_w8_zero, readU8_w16_zero, readU8_w16_one]
  omega

theorem ppb_u16_30 (c : Constants) (e : CreatureEntry) :
    readU16 (packedPersonalBytes c e) 30 = (idxOfD c.pokemon e.first_form_index) % 65536 := by
  norm_num [readU16, packedPersonalBytes, personalHead, readU8_append, length_w8,
    length_w16, readU8_w8_zero, readU8_w16_zero, readU8_w16_one]
  omega

theorem ppb_u16_34 (c : Constants) (e : CreatureEntry) :
    readU16 (packedPersonalBytes c e) 34 = (e.base_exp) % 65536 := by
  norm_num [readU16, packedPersonalBytes, personalHead, readU8_append, length_w8,
    length_w16, readU8_w8_zero, readU8_w16_zero, readU8_w16_one]
  omega

theorem ppb_u16_36 (c : Constants) (e : CreatureEntry) :
    readU16 (packedPersonalBytes c e) 36 = (e.height) % 65536 := by
  norm_num [readU16, packedPersonalBytes, personalHead, readU8_append, length_w8,
    length_w16, readU8_w8_zero, readU8_w16_zero, readU8_w16_one]
  omega

theorem ppb_u16_38 (c : Constants) (e : CreatureEntry) :
    readU16 (packedPersonalBytes c e) 38 = (e.weight) % 65536 := by
  norm_num [readU16, packedPersonalBytes, personalHead, readU8_append, length_w8,
    length_w16, readU8_w8_zero, readU8_w16_zero, readU8_w16_one]
  omega

theorem ppb_u16_80 (c : Constants) (e : CreatureEntry) :
    readU16 (packedPersonalBytes c e) 80 = (idxOfD c.items e.special_z_item) % 65536 := by
  norm_num [readU16, packedPersonalBytes, personalMid, readU8_append,
    length_personalHead, length_wbytes, length_personalMid, length_w8,
    length_w16, length_w32, readU8_w8_zero, readU8_w16_zero, readU8_w16_one,
    readU8_w32_0, readU8_w32_1, readU8_w32_2, readU8_w32_3]
  omega

theorem ppb_u16_82 (c : Constants) (e : CreatureEntry) :
    readU16 (packedPersonalBytes c e) 82 = (idxOfD c.moves e.special_z_base_move) % 65536 := by
  norm_num [readU16, packedPersonalBytes, personalMid, readU8_append,
    length_personalHead, length_wbytes, length_personalMid, length_w8,
    length_w16, length_w32, readU8_w8_zero, readU8_w16_zero, readU8_w16_one,
    readU8_w32_0, readU8_w32_1, readU8_w32_2, readU8_w32_3]
  omega

theorem ppb_u16_84 (c : Constants) (e : CreatureEntry) :
    readU16 (packedPersonalBytes c e) 84 = (idxOfD c.moves e.special_z_move) % 65536 := by
  norm_num [readU16, packedPersonalBytes, personalMid, readU8_append,
    length_personalHead, length_wbytes, length_personalMid, length_w8,
    length_w16, length_w32, readU8_w8_zero, readU8_w16_zero, readU8_w16_one,
    readU8_w32_0, readU8_w32_1, readU8_w32_2, readU8_w32_3]
  omega

theorem ppb_u16_86 (c : Constants) (e : CreatureEntry) :
    readU16 (packedPersonalBytes c e) 86 = (idxOfD c.pokemon e.egg_species) % 65536 := by
  norm_num [readU16, packedPersonalBytes, personalMid, readU8_append,
    length_personalHead, length_wbytes, length_personalMid, length_w8,
    length_w16, length_w32, readU8_w8_zero, readU8_w16_zero, readU8_w16_one,
    readU8_w32_0, readU8_w32_1, readU8_w32_2, readU8_w32_3]
  omega

theorem ppb_u16_88 (c : Constants) (e : CreatureEntry) :
    readU16 (packedPersonalBytes c e) 88 = (e.egg_form) % 65536 := by
  norm_num [readU16, packedPersonalBytes, personalMid, readU8_append,
    length_personalHead, length_wbytes, length_personalMid, length_w8,
    length_w16, length_w32, readU8_w8_zero, readU8_w16_zero, readU8_w16_one,
    readU8_w32_0, readU8_w32_1, readU8_w32_2, readU8_w32_3]
  omega

theorem ppb_u16_90 (c : Constants) (e : CreatureEntry) :
    readU16 (packedPersonalBytes c e) 90 = (packSpeciesFlags e) % 65536 := by
  norm_num [readU16, packedPersonalBytes, personalMid, readU8_append,
    length_personalHead, length_wbytes, length_personalMid, length_w8,
    length_w16, length_w32, readU8_w8_zero, readU8_w16_zero, readU8_w16_one,
    readU8_w32_0, readU8_w32_1, readU8_w32_2, readU8_w32_3]
  omega

theorem ppb_u16_92 (c : Constants) (e : CreatureEntry) :
    readU16 (packedPersonalBytes c e) 92 = (e.pokedex_number) % 65536 := by
  norm_num [readU16, packedPersonalBytes, personalMid, readU8_append,
    length_personalHead, length_wbytes, length_personalMid, length_w8,
    length_w16, length_w32, readU8_w8_zero, readU8_w16_zero, readU8_w16_one,
    readU8_w32_0, readU8_w32_1, readU8_w32_2, readU8_w32_3]
  omega

theorem ppb_u16_94 (c : Constants) (e : CreatureEntry) :
    readU16 (packedPersonalBytes c e) 94 = (e.unk5E) % 65536 := by
  norm_num [readU16, packedPersonalBytes, personalMid, readU8_append,
    length_personalHead, length_wbytes, length_personalMid, length_w8,
    length_w16, length_w32, readU8_w8_zero, readU8_w16_zero, readU8_w16_one,
    readU8_w32_0, readU8_w32_1, readU8_w32_2, readU8_w32_3]
  omega

theorem ppb_u16_172 (c : Constants) (e : CreatureEntry) :
    readU16 (packedPersonalBytes c e) 172 = (e.armor_dex_number) % 65536 := by
  norm_num [readU16, packedPersonalBytes, personalMid, readU8_append,
    length_personalHead, length_wbytes, length_personalMid, length_w8,
    length_w16, length_w32, readU8_w8_zero, readU8_w16_zero, readU8_w16_one,
    readU8_w32_0, readU8_w32_1, readU8_w32_2, readU8_w32_3]
  omega

theorem ppb_u16_174 (c : Constants) (e : CreatureEntry) :
    readU16 (packedPersonalBytes c e) 174 = (e.crown_dex_number) % 65536 := by
  norm_num [readU16, packedPersonalBytes, personalMid, readU8_append,
    length_personalHead, length_wbytes, length_personalMid, length_w8,
    length_w16, length_w32, readU8_w8_zero, readU8_w16_zero, readU8_w16_one,
    readU8_w32_0, readU8_w32_1, readU8_w32_2, readU8_w32_3]
  omega

theorem ppb_u32_76 (c : Constants) (e : CreatureEntry) :
    readU32 (packedPersonalBytes c e) 76 = e.icon_id % 4294967296 := by
  norm_num [readU32, readU16, packedPersonalBytes, personalMid, readU8_append,
    length_personalHead, length_wbytes, length_personalMid, length_w8,
    length_w16, length_w32, readU8_w8_zero, readU8_w16_zero, readU8_w16_one,
    readU8_w32_0, readU8_w32_1, readU8_w32_2, readU8_w32_3]
  omega

theorem ppb_rb_40 (c : Constants) (e : CreatureEntry) :
    readBytes (packedPersonalBytes c e) 40 16 = wbytes 16 (pack_learnset_bits c.tms e.tms 16) := by
  norm_num [packedPersonalBytes, readBytes_append, length_personalHead,
    length_wbytes, length_personalMid]
  exact readBytes_self _ _ (length_wbytes _ _)

theorem ppb_rb_56 (c : Constants) (e : CreatureEntry) :
    readBytes (packedPersonalBytes c e) 56 4 = wbytes 4 (pack_learnset_bits c.move_tutors e.move_tutors 4) := by
  norm_num [packedPersonalBytes, readBytes_append, length_personalHead,
    length_wbytes, length_personalMid]
  exact readBytes_self _ _ (length_wbytes _ _)

theorem ppb_rb_60 (c : Constants) (e : CreatureEntry) :
    readBytes (packedPersonalBytes c e) 60 16 = wbytes 16 (pack_learnset_bits c.trs e.trs 16) := by
  norm_num [packedPersonalBytes, readBytes_append, length_personalHead,
    length_wbytes, length_personalMid]
  exact readBytes_self _ _ (length_wbytes _ _)

theorem ppb_rb_96 (c : Constants) (e : CreatureEntry) :
    readBytes (packedPersonalBytes c e) 96 72 = wbytes 72 e.unk60 := by
  norm_num [packedPersonalBytes, readBytes_append, length_personalHead,
    length_wbytes, length_personalMid]
  exact readBytes_self _ _ (length_wbytes _ _)

theorem ppb_rb_168 (c : Constants) (e : CreatureEntry) :
    readBytes (packedPersonalBytes c e) 168 4 = wbytes 4 (pack_learnset_bits c.armor_tutors e.armor_tutors 4) := by
  norm_num [packedPersonalBytes, readBytes_append, length_personalHead,
    length_wbytes, length_personalMid]
  exact readBytes_self _ _ (length_wbytes _ _)

theorem getD_idxOfD (l : List String) (x : String) (h : x ∈ l) :
    l.getD (idxOfD l x) "" = x := by
  have hg := listFirstIndex_get l x _ (listFirstIndex_of_mem l x h)
  rw [List.get?_eq_getElem?] at hg
  rw [List.getD_eq_getElem?_getD, hg]
  rfl

theorem and3_of_lt : ∀ x, x < 4 → x &&& 3 = x := by decide

/-- The raw bit expression of the packed `ev_yield` word, with the six
masked lanes abstracted as bounded variables. -/
def EVP (t : Bool) (a b c2 d e2 f : Nat) : Nat :=
  a ||| (b <<< 2) ||| (c2 <<< 4) ||| (d <<< 6) ||| (e2 <<< 8) ||| (f <<< 10) |||
    ((if t then 1 else 0) <<< 12)


theorem ev_lane0 (t : Bool) : ∀ a, a < 4 → ∀ b, b < 4 → ∀ c2, c2 < 4 →
    ∀ d, d < 4 → ∀ e2, e2 < 4 → ∀ f, f < 4 →
    EVP t a b c2 d e2 f &&& 3 = a := by
  cases t <;> decide


theorem ev_lane2 (t : Bool) : ∀ a, a < 4 → ∀ b, b < 4 → ∀ c2, c2 < 4 →
    ∀ d, d < 4 → ∀ e2, e2 < 4 → ∀ f, f < 4 →
    (EVP t a b c2 d e2 f >>> 2) &&& 3 = b := by
  cases t <;> decide


theorem ev_lane4 (t : Bool) : ∀ a, a < 4 → ∀ b, b < 4 → ∀ c2, c2 < 4 →
    ∀ d, d < 4 → ∀ e2, e2 < 4 → ∀ f, f < 4 →
    (EVP t a b c2 d e2 f >>> 4) &&& 3 = c2 := by
  cases t <;> decide


theorem ev_lane6 (t : Bool) : ∀ a, a < 4 → ∀ b, b < 4 → ∀ c2, c2 < 4 →
    ∀ d, d < 4 → ∀ e2, e2 < 4 → ∀ f, f < 4 →
    (EVP t a b c2 d e2 f >>> 6) &&& 3 = d := by
  cases t <;> decide


theorem ev_lane8 (t : Bool) : ∀ a, a < 4 → ∀ b, b < 4 → ∀ c2, c2 < 4 →
    ∀ d, d < 4 → ∀ e2, e2 < 4 → ∀ f, f < 4 →
    (EVP t a b c2 d e2 f >>> 8) &&& 3 = e2 := by
  cases t <;> decide


theorem ev_lane10 (t : Bool) : ∀ a, a < 4 → ∀ b, b < 4 → ∀ c2, c2 < 4 →
    ∀ d, d < 4 → ∀ e2, e2 < 4 → ∀ f, f < 4 →
    (EVP t a b c2 d e2 f >>> 10) &&& 3 = f := by
  cases t <;> decide


theorem ev_fail (t : Bool) : ∀ a, a < 4 → ∀ b, b < 4 → ∀ c2, c2 < 4 →
    ∀ d, d < 4 → ∀ e2, e2 < 4 → ∀ f, f < 4 →
    ((EVP t a b c2 d e2 f >>> 12) &&& 3 != 0) = t := by
  cases t <;> decide


theorem ev_lt (t : Bool) : ∀ a, a < 4 → ∀ b, b < 4 → ∀ c2, c2 < 4 →
    ∀ d, d < 4 → ∀ e2, e2 < 4 → ∀ f, f < 4 →
    EVP t a b c2 d e2 f < 8192 := by
  cases t <;> decide


/-- `pack_personal` lane extraction: with every EV sub-field already in
[0,3], the packed `ev_yield` word decodes back to the exact sub-fields and
flag, and fits in 13 bits. -/
theorem packEvYield_decomp (e : CreatureEntry)
    (h1 : e.evs_hp < 4) (h2 : e.evs_atk < 4) (h3 : e.evs_def < 4)
    (h4 : e.evs_spd < 4) (h5 : e.evs_sp_atk < 4) (h6 : e.evs_sp_def < 4) :
    packEvYield e &&& 3 = e.evs_hp ∧
    (packEvYield e >>> 2) &&& 3 = e.evs_atk ∧
    (packEvYield e >>> 4) &&& 3 = e.evs_def ∧
    (packEvYield e >>> 6) &&& 3 = e.evs_spd ∧
    (packEvYield e >>> 8) &&& 3 = e.evs_sp_atk ∧
    (packEvYield e >>> 10) &&& 3 = e.evs_sp_def ∧
    ((packEvYield e >>> 12) &&& 3 != 0) = e.fail_telekinesis ∧
    packEvYield e < 8192 := by
  have he : packEvYield e = EVP e.fail_telekinesis e.evs_hp e.evs_atk
      e.evs_def e.evs_spd e.evs_sp_atk e.evs_sp_def := by
    unfold packEvYield EVP
    rw [and3_of_lt _ h1, and3_of_lt _ h2, and3_of_lt _ h3, and3_of_lt _ h4,
      and3_of_lt _ h5, and3_of_lt _ h6]
  rw [he]
  exact ⟨ev_lane0 _ _ h1 _ h2 _ h3 _ h4 _ h5 _ h6,
    ev_lane2 _ _ h1 _ h2 _ h3 _ h4 _ h5 _ h6,
    ev_lane4 _ _ h1 _ h2 _ h3 _ h4 _ h5 _ h6,
    ev_lane6 _ _ h1 _ h2 _ h3 _ h4 _ h5 _ h6,
    ev_lane8 _ _ h1 _ h2 _ h3 _ h4 _ h5 _ h6,
    ev_lane10 _ _ h1 _ h2 _ h3 _ h4 _ h5 _ h6,
    ev_fail _ _ h1 _ h2 _ h3 _ h4 _ h5 _ h6,
    ev_lt _ _ h1 _ h2 _ h3 _ h4 _ h5 _ h6⟩

theorem pdb_ball (h v : Bool) : ∀ d, d < 64 →
    (d ||| (if h then 0x40 else 0) ||| (if v then 0x80 else 0)) &&& 0x3F = d ∧
    ((d ||| (if h then 0x40 else 0) ||| (if v then 0x80 else 0)) &&& 0x40 != 0) = h ∧
    ((d ||| (if h then 0x40 else 0) ||| (if v then 0x80 else 0)) &&& 0x80 != 0) = v ∧
    (d ||| (if h then 0x40 else 0) ||| (if v then 0x80 else 0)) < 256 := by
  cases h <;> cases v <;> decide

/-- `pack_personal` pokedex-bits extraction: with the colour index below 64
the packed byte decodes back to the index and the two flags, and fits in a
byte. -/
theorem packPokedexBits_decomp (e : CreatureEntry) (d : Nat) (hd : d < 64) :
    packPokedexBits d e &&& 0x3F = d ∧
    (packPokedexBits d e &&& 0x40 != 0) = e.has_dex_entry ∧
    (packPokedexBits d e &&& 0x80 != 0) = e.is_visual_form ∧
    packPokedexBits d e < 256 := by
  unfold packPokedexBits
  exact pdb_ball e.has_dex_entry e.is_visual_form d hd

theorem ssf_ball (r cd : Bool) :
    (((if r then 1 else 0) ||| (if cd then 4 else 0)) &&& 0x1 != 0) = r ∧
    (((if r then 1 else 0) ||| (if cd then 4 else 0)) &&& 0x4 != 0) = cd ∧
    ((if r then 1 else 0) ||| (if cd then 4 else 0)) < 65536 := by
  cases r <;> cases cd <;> decide

/-- `pack_personal` species-flags extraction: the packed word decodes back
to the two booleans and fits in 16 bits. -/
theorem packSpeciesFlags_decomp (e : CreatureEntry) :
    (packSpeciesFlags e &&& 0x1 != 0) = e.is_regional_form ∧
    (packSpeciesFlags e &&& 0x4 != 0) = e.can_not_dynamax ∧
    packSpeciesFlags e < 65536 := by
  unfold packSpeciesFlags
  exact ssf_ball e.is_regional_form e.can_not_dynamax

theorem creatureEntry_ext (a b : CreatureEntry)
    (he1 : a.type_1 = b.type_1)
    (he2 : a.type_2 = b.type_2)
    (he3 : a.base_hp = b.base_hp)
    (he4 : a.base_atk = b.base_atk)
    (he5 : a.base_def = b.base_def)
    (he6 : a.base_sp_atk = b.base_sp_atk)
    (he7 : a.base_sp_def = b.base_sp_def)
    (he8 : a.base_spd = b.base_spd)
    (he9 : a.ability_1 = b.ability_1)
    (he10 : a.ability_2 = b.ability_2)
    (he11 : a.hidden_ability = b.hidden_ability)
    (he12 : a.height = b.height)
    (he13 : a.weight = b.weight)
    (he14 : a.evs_hp = b.evs_hp)
    (he15 : a.evs_atk = b.evs_atk)
    (he16 : a.evs_def = b.evs_def)
    (he17 : a.evs_sp_atk = b.evs_sp_atk)
    (he18 : a.evs_sp_def = b.evs_sp_def)
    (he19 : a.evs_spd = b.evs_spd)
    (he20 : a.fail_telekinesis = b.fail_telekinesis)
    (he21 : a.catch_rate = b.catch_rate)
    (he22 : a.gender_rate = b.gender_rate)
    (he23 : a.base_exp = b.base_exp)
    (he24 : a.growth_type = b.growth_type)
    (he25 : a.special_z_item = b.special_z_item)
    (he26 : a.special_z_base_move = b.special_z_base_move)
    (he27 : a.special_z_move = b.special_z_move)
    (he28 : a.egg_group_1 = b.egg_group_1)
    (he29 : a.egg_group_2 = b.egg_group_2)
    (he30 : a.evolution_stage = b.evolution_stage)
    (he31 : a.egg_species = b.egg_species)
    (he32 : a.egg_form = b.egg_form)
    (he33 : a.hatch_cycles = b.hatch_cycles)
    (he34 : a.base_friendship = b.base_friendship)
    (he35 : a.common_item = b.common_item)
    (he36 : a.rare_item = b.rare_item)
    (he37 : a.very_rare_item = b.very_rare_item)
    (he38 : a.first_form_index = b.first_form_index)
    (he39 : a.form_count = b.form_count)
    (he40 : a.icon_id = b.icon_id)
    (he41 : a.pokedex_number = b.pokedex_number)
    (he42 : a.armor_dex_number = b.armor_dex_number)
    (he43 : a.crown_dex_number = b.crown_dex_number)
    (he44 : a.dex_color = b.dex_color)
    (he45 : a.has_dex_entry = b.has_dex_entry)
    (he46 : a.is_visual_form = b.is_visual_form)
    (he47 : a.is_regional_form = b.is_regional_form)
    (he48 : a.can_not_dynamax = b.can_not_dynamax)
    (he49 : a.tms = b.tms)
    (he50 : a.trs = b.trs)
    (he51 : a.move_tutors = b.move_tutors)
    (he52 : a.armor_tutors = b.armor_tutors)
    (he53 : a.unk5E = b.unk5E)
    (he54 : a.unk60 = b.unk60) : a = b := by
  cases a
  cases b
  simp only [CreatureEntry.mk.injEq]
  exact ⟨he1, he2, he3, he4, he5, he6, he7, he8, he9, he10, he11, he12, he13, he14, he15, he16, he17, he18, he19, he20, he21, he22, he23, he24, he25, he26, he27, he28, he29, he30, he31, he32, he33, he34, he35, he36, he37, he38, he39, he40, he41, he42, he43, he44, he45, he46, he47, he48, he49, he50, he51, he52, he53, he54⟩


/-- The registry categories fit the bit widths of the struct fields they
are encoded into (`<10B4H6B4H2B3H16s4s16sI8H72s4s2H`). -/
def categorySizesOk (c : Constants) : Prop :=
  c.types.length ≤ 256 ∧ c.abilities.length ≤ 65536 ∧
  c.growth_types.length ≤ 256 ∧ c.egg_groups.length ≤ 256 ∧
  c.items.length ≤ 65536 ∧ c.moves.length ≤ 65536 ∧
  c.pokemon.length ≤ 65536 ∧ c.dex_colors.length ≤ 64 ∧
  c.tms.length ≤ 128 ∧ c.trs.length ≤ 128 ∧
  c.move_tutors.length ≤ 32 ∧ c.armor_tutors.length ≤ 32

/-- Every numeric field of the entry is representable in the width of the
struct lane it is packed into. -/
def creatureNumbersOk (e : CreatureEntry) : Prop :=
  e.base_hp < 256 ∧ e.base_atk < 256 ∧ e.base_def < 256 ∧
  e.base_sp_atk < 256 ∧ e.base_sp_def < 256 ∧ e.base_spd < 256 ∧
  e.catch_rate < 256 ∧ e.evolution_stage < 256 ∧ e.gender_rate < 256 ∧
  e.hatch_cycles < 256 ∧ e.base_friendship < 256 ∧ e.form_count < 256 ∧
  e.evs_hp < 4 ∧ e.evs_atk < 4 ∧ e.evs_def < 4 ∧ e.evs_spd < 4 ∧
  e.evs_sp_atk < 4 ∧ e.evs_sp_def < 4 ∧
  e.base_exp < 65536 ∧ e.height < 65536 ∧ e.weight < 65536 ∧
  e.egg_form < 65536 ∧ e.pokedex_number < 65536 ∧ e.unk5E < 65536 ∧
  e.armor_dex_number < 65536 ∧ e.crown_dex_number < 65536 ∧
  e.icon_id < 4294967296

/-- The four learnset fields list their moves in master-list order: each is
the master list filtered by membership in itself (decode output is always
of this shape). -/
def learnsetsCanonical (c : Constants) (e : CreatureEntry) : Prop :=
  e.tms = c.tms.filter (fun m => e.tms.contains m) ∧
  e.trs = c.trs.filter (fun m => e.trs.contains m) ∧
  e.move_tutors = c.move_tutors.filter (fun m => e.move_tutors.contains m) ∧
  e.armor_tutors = c.armor_tutors.filter (fun m => e.armor_tutors.contains m)

/-- A structured creature entry that `pack_personal` can encode without
loss: enum names present, numerics in range, learnsets canonical, and the
opaque 72-byte block of full length. -/
def validCreatureEntry (c : Constants) (e : CreatureEntry) : Prop :=
  personalNamesOk c e ∧ categorySizesOk c ∧ creatureNumbersOk e ∧
  learnsetsCanonical c e ∧ e.unk60.length = 72


/-- Decoding the record bytes `pack_personal` emits for a valid entry
recovers the entry exactly, field by field. -/
theorem personalEntryOf_packed (c : Constants) (e : CreatureEntry)
    (hn : personalNamesOk c e) (hk : categorySizesOk c)
    (hnum : creatureNumbersOk e) (hcan : learnsetsCanonical c e)
    (h72 : e.unk60.length = 72) :
    personalEntryOf c (packedPersonalBytes c e) 0 = e := by
  obtain ⟨h1, h2, h3, h4, h5, h6, h7, h8, h9, h10, h11, h12, h13, h14, h15,
    h16, h17⟩ := hn
  obtain ⟨k1, k2, k3, k4, k5, k6, k7, k8, k9, k10, k11, k12⟩ := hk
  obtain ⟨n1, n2, n3, n4, n5, n6, n7, n8, n9, n10, n11, n12, n13, n14, n15,
    n16, n17, n18, n19, n20, n21, n22, n23, n24, n25, n26, n27⟩ := hnum
  obtain ⟨hc1, hc2, hc3, hc4⟩ := hcan
  have hEV := packEvYield_decomp e n13 n14 n15 n16 n17 n18
  have hevlt : packEvYield e < 65536 :=
    lt_trans hEV.2.2.2.2.2.2.2 (by norm_num)
  have hPD := packPokedexBits_decomp e (idxOfD c.dex_colors e.dex_color)
    (lt_of_lt_of_le (idxOfD_lt _ _ h13) k8)
  have hSF := packSpeciesFlags_decomp e
  apply creatureEntry_ext
  · dsimp only [personalEntryOf]
    simp only [Nat.zero_add]
    rw [ppb_u8_6, Nat.mod_eq_of_lt (lt_of_lt_of_le (idxOfD_lt _ _ h1) k1)]
    exact getD_idxOfD _ _ h1
  · dsimp only [personalEntryOf]
    simp only [Nat.zero_add]
    rw [ppb_u8_7, Nat.mod_eq_of_lt (lt_of_lt_of_le (idxOfD_lt _ _ h2) k1)]
    exact getD_idxOfD _ _ h2
  · dsimp only [personalEntryOf]
    simp only [Nat.zero_add]
    rw [ppb_u8_0, Nat.mod_eq_of_lt n1]
  · dsimp only [personalEntryOf]
    simp only [Nat.zero_add]
    rw [ppb_u8_1, Nat.mod_eq_of_lt n2]
  · dsimp only [personalEntryOf]
    simp only [Nat.zero_add]
    rw [ppb_u8_2, Nat.mod_eq_of_lt n3]
  · dsimp only [personalEntryOf]
    simp only [Nat.zero_add]
    rw [ppb_u8_4, Nat.mod_eq_of_lt n4]
  · dsimp only [personalEntryOf]
    simp only [Nat.zero_add]
    rw [ppb_u8_5, Nat.mod_eq_of_lt n5]
  · dsimp only [personalEntryOf]
    simp only [Nat.zero_add]
    rw [ppb_u8_3, Nat.mod_eq_of_lt n6]
  · dsimp only [personalEntryOf]
    simp only [Nat.zero_add]
    rw [ppb_u16_24, Nat.mod_eq_of_lt (lt_of_lt_of_le (idxOfD_lt _ _ h9) k2)]
    exact getD_idxOfD _ _ h9
  · dsimp only [personalEntryOf]
    simp only [Nat.zero_add]
    rw [ppb_u16_26, Nat.mod_eq_of_lt (lt_of_lt_of_le (idxOfD_lt _ _ h10) k2)]
    exact getD_idxOfD _ _ h10
  · dsimp only [personalEntryOf]
    simp only [Nat.zero_add]
    rw [ppb_u16_28, Nat.mod_eq_of_lt (lt_of_lt_of_le (idxOfD_lt _ _ h11) k2)]
    exact getD_idxOfD _ _ h11
  · dsimp only [personalEntryOf]
    simp only [Nat.zero_add]
    rw [ppb_u16_36, Nat.mod_eq_of_lt n20]
  · dsimp only [personalEntryOf]
    simp only [Nat.zero_add]
    rw [ppb_u16_38, Nat.mod_eq_of_lt n21]
  · dsimp only [personalEntryOf]
    simp only [Nat.zero_add]
    rw [ppb_u16_10, Nat.mod_eq_of_lt hevlt]
    exact hEV.1
  · dsimp only [personalEntryOf]
    simp only [Nat.zero_add]
    rw [ppb_u16_10, Nat.mod_eq_of_lt hevlt]
    exact hEV.2.1
  · dsimp only [personalEntryOf]
    simp only [Nat.zero_add]
    rw [ppb_u16_10, Nat.mod_eq_of_lt hevlt]
    exact hEV.2.2.1
  · dsimp only [personalEntryOf]
    simp only [Nat.zero_add]
    rw [ppb_u16_10, Nat.mod_eq_of_lt hevlt]
    exact hEV.2.2.2.2.1
  · dsimp only [personalEntryOf]
    simp only [Nat.zero_add]
    rw [ppb_u16_10, Nat.mod_eq_of_lt hevlt]
    exact hEV.2.2.2.2.2.1
  · dsimp only [personalEntryOf]
    simp only [Nat.zero_add]
    rw [ppb_u16_10, Nat.mod_eq_of_lt hevlt]
    exact hEV.2.2.2.1
  · dsimp only [personalEntryOf]
    simp only [Nat.zero_add]
    rw [ppb_u16_10, Nat.mod_eq_of_lt hevlt]
    exact hEV.2.2.2.2.2.2.1
  · dsimp only [personalEntryOf]
    simp only [Nat.zero_add]
    rw [ppb_u8_8, Nat.mod_eq_of_lt n7]
  · dsimp only [personalEntryOf]
    simp only [Nat.zero_add]
    rw [ppb_u8_18, Nat.mod_eq_of_lt n9]
  · dsimp only [personalEntryOf]
    simp only [Nat.zero_add]
    rw [ppb_u16_34, Nat.mod_eq_of_lt n19]
  · dsimp only [personalEntryOf]
    simp only [Nat.zero_add]
    rw [ppb_u8_21, Nat.mod_eq_of_lt (lt_of_lt_of_le (idxOfD_lt _ _ h6) k3)]
    exact getD_idxOfD _ _ h6
  · dsimp only [personalEntryOf]
    simp only [Nat.zero_add]
    rw [ppb_u16_80, Nat.mod_eq_of_lt (lt_of_lt_of_le (idxOfD_lt _ _ h14) k5)]
    exact getD_idxOfD _ _ h14
  · dsimp only [personalEntryOf]
    simp only [Nat.zero_add]
    rw [ppb_u16_82, Nat.mod_eq_of_lt (lt_of_lt_of_le (idxOfD_lt _ _ h15) k6)]
    exact getD_idxOfD _ _ h15
  · dsimp only [personalEntryOf]
    simp only [Nat.zero_add]
    rw [ppb_u16_84, Nat.mod_eq_of_lt (lt_of_lt_of_le (idxOfD_lt _ _ h16) k6)]
    exact getD_idxOfD _ _ h16
  · dsimp only [personalEntryOf]
    simp only [Nat.zero_add]
    rw [ppb_u8_22, Nat.mod_eq_of_lt (lt_of_lt_of_le (idxOfD_lt _ _ h7) k4)]
    exact getD_idxOfD _ _ h7
  · dsimp only [personalEntryOf]
    simp only [Nat.zero_add]
    rw [ppb_u8_23, Nat.mod_eq_of_lt (lt_of_lt_of_le (idxOfD_lt _ _ h8) k4)]
    exact getD_idxOfD _ _ h8
  · dsimp only [personalEntryOf]
    simp only [Nat.zero_add]
    rw [ppb_u8_9, Nat.mod_eq_of_lt n8]
  · dsimp only [personalEntryOf]
    simp only [Nat.zero_add]
    rw [ppb_u16_86, Nat.mod_eq_of_lt (lt_of_lt_of_le (idxOfD_lt _ _ h17) k7)]
    exact getD_idxOfD _ _ h17
  · dsimp only [personalEntryOf]
    simp only [Nat.zero_add]
    rw [ppb_u16_88, Nat.mod_eq_of_lt n22]
  · dsimp only [personalEntryOf]
    simp only [Nat.zero_add]
    rw [ppb_u8_19, Nat.mod_eq_of_lt n10]
  · dsimp only [personalEntryOf]
    simp only [Nat.zero_add]
    rw [ppb_u8_20, Nat.mod_eq_of_lt n11]
  · dsimp only [personalEntryOf]
    simp only [Nat.zero_add]
    rw [ppb_u16_12, Nat.mod_eq_of_lt (lt_of_lt_of_le (idxOfD_lt _ _ h3) k5)]
    exact getD_idxOfD _ _ h3
  · dsimp only [personalEntryOf]
    simp only [Nat.zero_add]
    rw [ppb_u16_14, Nat.mod_eq_of_lt (lt_of_lt_of_le (idxOfD_lt _ _ h4) k5)]
    exact getD_idxOfD _ _ h4
  · dsimp only [personalEntryOf]
    simp only [Nat.zero_add]
    rw [ppb_u16_16, Nat.mod_eq_of_lt (lt_of_lt_of_le (idxOfD_lt _ _ h5) k5)]
    exact getD_idxOfD _ _ h5
  · dsimp only [personalEntryOf]
    simp only [Nat.zero_add]
    rw [ppb_u16_30, Nat.mod_eq_of_lt (lt_of_lt_of_le (idxOfD_lt _ _ h12) k7)]
    exact getD_idxOfD _ _ h12
  · dsimp only [personalEntryOf]
    simp only [Nat.zero_add]
    rw [ppb_u8_32, Nat.mod_eq_of_lt n12]
  · dsimp only [personalEntryOf]
    simp only [Nat.zero_add]
    rw [ppb_u32_76, Nat.mod_eq_of_lt n27]
  · dsimp only [personalEntryOf]
    simp only [Nat.zero_add]
    rw [ppb_u16_92, Nat.mod_eq_of_lt n23]
  · dsimp only [personalEntryOf]
    simp only [Nat.zero_add]
    rw [ppb_u16_172, Nat.mod_eq_of_lt n25]
  · dsimp only [personalEntryOf]
    simp only [Nat.zero_add]
    rw [ppb_u16_174, Nat.mod_eq_of_lt n26]
  · dsimp only [personalEntryOf]
    simp only [Nat.zero_add]
    rw [ppb_u8_33, Nat.mod_eq_of_lt hPD.2.2.2, hPD.1]
    exact getD_idxOfD _ _ h13
  · dsimp only [personalEntryOf]
    simp only [Nat.zero_add]
    rw [ppb_u8_33, Nat.mod_eq_of_lt hPD.2.2.2]
    exact hPD.2.1
  · dsimp only [personalEntryOf]
    simp only [Nat.zero_add]
    rw [ppb_u8_33, Nat.mod_eq_of_lt hPD.2.2.2]
    exact hPD.2.2.1
  · dsimp only [personalEntryOf]
    simp only [Nat.zero_add]
    rw [ppb_u16_90, Nat.mod_eq_of_lt hSF.2.2]
    exact hSF.1
  · dsimp only [personalEntryOf]
    simp only [Nat.zero_add]
    rw [ppb_u16_90, Nat.mod_eq_of_lt hSF.2.2]
    exact hSF.2.1
  · dsimp only [personalEntryOf]
    simp only [Nat.zero_add]
    rw [ppb_rb_40, wbytes_of_length _ _ (length_pack_learnset_bits _ _ _),
      parse_pack_learnset_bits c.tms e.tms 16 (by omega)]
    exact hc1.symm
  · dsimp only [personalEntryOf]
    simp only [Nat.zero_add]
    rw [ppb_rb_60, wbytes_of_length _ _ (length_pack_learnset_bits _ _ _),
      parse_pack_learnset_bits c.trs e.trs 16 (by omega)]
    exact hc2.symm
  · dsimp only [personalEntryOf]
    simp only [Nat.zero_add]
    rw [ppb_rb_56, wbytes_of_length _ _ (length_pack_learnset_bits _ _ _),
      parse_pack_learnset_bits c.move_tutors e.move_tutors 4 (by omega)]
    exact hc3.symm
  · dsimp only [personalEntryOf]
    simp only [Nat.zero_add]
    rw [ppb_rb_168, wbytes_of_length _ _ (length_pack_learnset_bits _ _ _),
      parse_pack_learnset_bits c.armor_tutors e.armor_tutors 4 (by omega)]
    exact hc4.symm
  · dsimp only [personalEntryOf]
    simp only [Nat.zero_add]
    rw [ppb_u16_94, Nat.mod_eq_of_lt n24]
  · dsimp only [personalEntryOf]
    simp only [Nat.zero_add]
    rw [ppb_rb_96, wbytes_of_length _ _ h72]

/-- Every enum code in the record `pack_personal` emits for a valid entry is
inside its category, so decode can resolve every name. -/
theorem packed_codesOk (c : Constants) (e : CreatureEntry)
    (hn : personalNamesOk c e) (hk : categorySizesOk c) :
    personalEnumCodesOk c (packedPersonalBytes c e) 0 := by
  obtain ⟨h1, h2, h3, h4, h5, h6, h7, h8, h9, h10, h11, h12, h13, h14, h15,
    h16, h17⟩ := hn
  obtain ⟨k1, k2, k3, k4, k5, k6, k7, k8, k9, k10, k11, k12⟩ := hk
  have hPD := packPokedexBits_decomp e (idxOfD c.dex_colors e.dex_color)
    (lt_of_lt_of_le (idxOfD_lt _ _ h13) k8)
  unfold personalEnumCodesOk
  simp only [Nat.zero_add]
  refine ⟨?_, ?_, ?_, ?_, ?_, ?_, ?_, ?_, ?_, ?_, ?_, ?_, ?_, ?_, ?_, ?_, ?_⟩
  · rw [ppb_u8_6, Nat.mod_eq_of_lt (lt_of_lt_of_le (idxOfD_lt _ _ h1) k1)]
    exact idxOfD_lt _ _ h1
  · rw [ppb_u8_7, Nat.mod_eq_of_lt (lt_of_lt_of_le (idxOfD_lt _ _ h2) k1)]
    exact idxOfD_lt _ _ h2
  · rw [ppb_u16_24, Nat.mod_eq_of_lt (lt_of_lt_of_le (idxOfD_lt _ _ h9) k2)]
    exact idxOfD_lt _ _ h9
  · rw [ppb_u16_26, Nat.mod_eq_of_lt (lt_of_lt_of_le (idxOfD_lt _ _ h10) k2)]
    exact idxOfD_lt _ _ h10
  · rw [ppb_u16_28, Nat.mod_eq_of_lt (lt_of_lt_of_le (idxOfD_lt _ _ h11) k2)]
    exact idxOfD_lt _ _ h11
  · rw [ppb_u8_21, Nat.mod_eq_of_lt (lt_of_lt_of_le (idxOfD_lt _ _ h6) k3)]
    exact idxOfD_lt _ _ h6
  · rw [ppb_u16_80, Nat.mod_eq_of_lt (lt_of_lt_of_le (idxOfD_lt _ _ h14) k5)]
    exact idxOfD_lt _ _ h14
  · rw [ppb_u16_82, Nat.mod_eq_of_lt (lt_of_lt_of_le (idxOfD_lt _ _ h15) k6)]
    exact idxOfD_lt _ _ h15
  · rw [ppb_u16_84, Nat.mod_eq_of_lt (lt_of_lt_of_le (idxOfD_lt _ _ h16) k6)]
    exact idxOfD_lt _ _ h16
  · rw [ppb_u8_22, Nat.mod_eq_of_lt (lt_of_lt_of_le (idxOfD_lt _ _ h7) k4)]
    exact idxOfD_lt _ _ h7
  · rw [ppb_u8_23, Nat.mod_eq_of_lt (lt_of_lt_of_le (idxOfD_lt _ _ h8) k4)]
    exact idxOfD_lt _ _ h8
  · rw [ppb_u16_86, Nat.mod_eq_of_lt (lt_of_lt_of_le (idxOfD_lt _ _ h17) k7)]
    exact idxOfD_lt _ _ h17
  · rw [ppb_u16_12, Nat.mod_eq_of_lt (lt_of_lt_of_le (idxOfD_lt _ _ h3) k5)]
    exact idxOfD_lt _ _ h3
  · rw [ppb_u16_14, Nat.mod_eq_of_lt (lt_of_lt_of_le (idxOfD_lt _ _ h4) k5)]
    exact idxOfD_lt _ _ h4
  · rw [ppb_u16_16, Nat.mod_eq_of_lt (lt_of_lt_of_le (idxOfD_lt _ _ h5) k5)]
    exact idxOfD_lt _ _ h5
  · rw [ppb_u16_30, Nat.mod_eq_of_lt (lt_of_lt_of_le (idxOfD_lt _ _ h12) k7)]
    exact idxOfD_lt _ _ h12
  · rw [ppb_u8_33, Nat.mod_eq_of_lt hPD.2.2.2, hPD.1]
    exact idxOfD_lt _ _ h13

/-- Decoding the record bytes `pack_personal` emits for a valid entry
returns the entry unchanged. -/
theorem unpack_packedPersonalBytes (c : Constants) (e : CreatureEntry)
    (h : validCreatureEntry c e) :
    unpack_personal_entry c (packedPersonalBytes c e) 0 = .ok e := by
  obtain ⟨hn, hk, hnum, hcan, h72⟩ := h
  rw [unpack_personal_entry_ok c _ 0 (packed_codesOk c e hn hk)]
  exact congrArg Except.ok (personalEntryOf_packed c e hn hk hnum hcan h72)

/-- One record of `unpack_pokecaplist` (lines 302-321): unpack the `<3Hx?`
struct at `offset` (icon id, form id, gender code, pad byte, bool byte) and
resolve the gender code through the registry. -/
def unpack_pokecaplist_entry (c : Constants) (buffer : List Nat)
    (offset : Nat) : Except PyError IconEntry := do
  let gender_type ← cnstname c.genders (readU16 buffer (offset + 4))
  .ok { icon_id := readU16 buffer offset,
        form_id := readU16 buffer (offset + 2),
        gender_type := gender_type,
        is_gigantamax := readU8 buffer (offset + 7) != 0 }

/-- One record of `pack_pokecaplist` (lines 324-337): resolve the gender
name and pack the `<3Hx?` struct (pad byte written as 0, bool as 1/0). -/
def pack_pokecaplist_entry (c : Constants) (e : IconEntry) :
    Except PyError (List Nat) := do
  let gender_type ← cnstval c.genders e.gender_type
  .ok (w16 e.icon_id ++ w16 e.form_id ++ w16 gender_type ++
    ([0] ++ [if e.is_gigantamax then 1 else 0]))

/-- The 8 bytes `pack_pokecaplist` emits when the gender lookup succeeds. -/
def packedIconBytes (c : Constants) (e : IconEntry) : List Nat :=
  w16 e.icon_id ++ w16 e.form_id ++ w16 (idxOfD c.genders e.gender_type) ++
    ([0] ++ [if e.is_gigantamax then 1 else 0])

theorem pack_pokecaplist_entry_ok (c : Constants) (e : IconEntry)
    (h : e.gender_type ∈ c.genders) :
    pack_pokecaplist_entry c e = .ok (packedIconBytes c e) := by
  unfold pack_pokecaplist_entry
  rw [cnstval_mem _ _ h, ok_bind]
  rfl

theorem pib_u16_0 (c : Constants) (e : IconEntry) :
    readU16 (packedIconBytes c e) 0 = e.icon_id % 65536 := by
  norm_num [readU16, packedIconBytes, readU8_append, length_w16,
    readU8_w16_zero, readU8_w16_one]
  omega

theorem pib_u16_2 (c : Constants) (e : IconEntry) :
    readU16 (packedIconBytes c e) 2 = e.form_id % 65536 := by
  norm_num [readU16, packedIconBytes, readU8_append, length_w16,
    readU8_w16_zero, readU8_w16_one]
  omega

theorem pib_u16_4 (c : Constants) (e : IconEntry) :
    readU16 (packedIconBytes c e) 4 =
      idxOfD c.genders e.gender_type % 65536 := by
  norm_num [readU16, packedIconBytes, readU8_append, length_w16,
    readU8_w16_zero, readU8_w16_one]
  omega

theorem pib_u8_7 (c : Constants) (e : IconEntry) :
    readU8 (packedIconBytes c e) 7 = (if e.is_gigantamax then 1 else 0) := by
  norm_num [packedIconBytes, readU8_append, length_w16]
  rfl

/-- Decoding the record `pack_pokecaplist` emits for a valid icon entry
returns the entry unchanged. -/
theorem unpack_packedIconBytes (c : Constants) (e : IconEntry)
    (hm : e.gender_type ∈ c.genders) (hglen : c.genders.length ≤ 65536)
    (hi : e.icon_id < 65536) (hf : e.form_id < 65536) :
    unpack_pokecaplist_entry c (packedIconBytes c e) 0 = .ok e := by
  have hcode : readU16 (packedIconBytes c e) 4 < c.genders.length := by
    rw [pib_u16_4, Nat.mod_eq_of_lt (lt_of_lt_of_le (idxOfD_lt _ _ hm) hglen)]
    exact idxOfD_lt _ _ hm
  unfold unpack_pokecaplist_entry
  simp only [Nat.zero_add]
  rw [cnstname_ok _ _ hcode, ok_bind]
  refine congrArg Except.ok ?_
  cases e with
  | mk ei ef eg egg =>
  simp only [IconEntry.mk.injEq]
  refine ⟨?_, ?_, ?_, ?_⟩
  · rw [pib_u16_0, Nat.mod_eq_of_lt hi]
  · rw [pib_u16_2, Nat.mod_eq_of_lt hf]
  · rw [pib_u16_4, Nat.mod_eq_of_lt (lt_of_lt_of_le (idxOfD_lt _ _ hm) hglen)]
    exact getD_idxOfD _ _ hm
  · rw [pib_u8_7]
    cases egg <;> rfl

/-- A concrete creature entry valid for `demoConstants`. -/
def demoCreature : CreatureEntry where
  type_1 := "Normal"
  type_2 := "Fighting"
  base_hp := 45
  base_atk := 49
  base_def := 49
  base_sp_atk := 65
  base_sp_def := 65
  base_spd := 45
  ability_1 := "Stench"
  ability_2 := "Drizzle"
  hidden_ability := "Stench"
  height := 7
  weight := 69
  evs_hp := 0
  evs_atk := 1
  evs_def := 2
  evs_sp_atk := 3
  evs_sp_def := 1
  evs_spd := 0
  fail_telekinesis := true
  catch_rate := 45
  gender_rate := 31
  base_exp := 64
  growth_type := "Slow"
  special_z_item := "NoItem"
  special_z_base_move := "Pound"
  special_z_move := "Karate Chop"
  egg_group_1 := "Monster"
  egg_group_2 := "Water 1"
  evolution_stage := 1
  egg_species := "Bulbasaur"
  egg_form := 0
  hatch_cycles := 20
  base_friendship := 50
  common_item := "NoItem"
  rare_item := "Master Ball"
  very_rare_item := "NoItem"
  first_form_index := "Ivysaur"
  form_count := 1
  icon_id := 123456
  pokedex_number := 1
  armor_dex_number := 2
  crown_dex_number := 3
  dex_color := "Blue"
  has_dex_entry := true
  is_visual_form := false
  is_regional_form := true
  can_not_dynamax := false
  tms := ["TM00", "TM02"]
  trs := ["TR01"]
  move_tutors := []
  armor_tutors := ["Armor0"]
  unk5E := 9
  unk60 := List.replicate 72 0

/-- A concrete level-up move list valid for `demoConstants`. -/
def demoMoves : List MoveEntry := [⟨5, "Pound"⟩, ⟨13, "Double Slap"⟩]

/-- A concrete icon-list entry valid for `demoConstants`. -/
def demoIcon : IconEntry := ⟨300, 1, "MaleOnly", true⟩

/-- C1: for every valid structured entry of each of the three formats — a
creature entry with all enum names present and all numerics in range, an
ordered move list of at most 65 entries with resolvable moves, and an icon
entry with a resolvable gender — encoding to the binary record and decoding
that record back yields the entry unchanged. -/
theorem C1_entry_roundtrips (c : Constants) (e : CreatureEntry)
    (ms : List MoveEntry) (ie : IconEntry)
    (he : validCreatureEntry c e)
    (hms : ms.length ≤ 65)
    (hmv : ∀ m ∈ ms, m.move ∈ c.moves ∧ idxOfD c.moves m.move < 65535 ∧
      m.level < 65535)
    (hie : ie.gender_type ∈ c.genders ∧ c.genders.length ≤ 65536 ∧
      ie.icon_id < 65536 ∧ ie.form_id < 65536) :
    (∃ bs, pack_personal_entry c e = .ok bs ∧
      unpack_personal_entry c bs 0 = .ok e) ∧
    (∃ bs, pack_wazaoboe_slot c ms = .ok (bs, false) ∧
      unpack_wazaoboe_slot c bs 0 = .ok ms) ∧
    (∃ bs, pack_pokecaplist_entry c ie = .ok bs ∧
      unpack_pokecaplist_entry c bs 0 = .ok ie) := by
  obtain ⟨hg1, hg2, hg3, hg4⟩ := hie
  refine ⟨⟨packedPersonalBytes c e, pack_personal_entry_ok c e he.1,
      unpack_packedPersonalBytes c e he⟩,
    ⟨writeBytesAt (List.replicate 260 255) 0 (movesData c ms), ?_, ?_⟩,
    ⟨packedIconBytes c ie, pack_pokecaplist_entry_ok c ie hg1,
      unpack_packedIconBytes c ie hg1 hg2 hg3 hg4⟩⟩
  · have htk : ms.take 65 = ms := List.take_of_length_le hms
    have hpk := pack_wazaoboe_creature_eq c ms (List.replicate 260 255) 0
      (fun m hm => (hmv m (by rw [htk] at hm; exact hm)).1)
      (by rw [List.length_replicate]; split <;> omega)
    unfold pack_wazaoboe_slot
    rw [hpk, htk, decide_eq_false (by omega)]
  · exact wazaoboe_packed_slot_unpack c ms hms hmv

/-- Witness for C1 at concrete demo inputs for all three formats. -/
theorem C1_entry_roundtrips_witness :
    (∃ bs, pack_personal_entry demoConstants demoCreature = .ok bs ∧
      unpack_personal_entry demoConstants bs 0 = .ok demoCreature) ∧
    (∃ bs, pack_wazaoboe_slot demoConstants demoMoves = .ok (bs, false) ∧
      unpack_wazaoboe_slot demoConstants bs 0 = .ok demoMoves) ∧
    (∃ bs, pack_pokecaplist_entry demoConstants demoIcon = .ok bs ∧
      unpack_pokecaplist_entry demoConstants bs 0 = .ok demoIcon) :=
  C1_entry_roundtrips demoConstants demoCreature demoMoves demoIcon
    (by
      unfold validCreatureEntry personalNamesOk categorySizesOk
        creatureNumbersOk learnsetsCanonical
      refine ⟨⟨?_, ?_, ?_, ?_, ?_, ?_, ?_, ?_, ?_, ?_, ?_, ?_, ?_, ?_, ?_, ?_, ?_⟩, ⟨?_, ?_, ?_, ?_, ?_, ?_, ?_, ?_, ?_, ?_, ?_, ?_⟩, ⟨?_, ?_, ?_, ?_, ?_, ?_, ?_, ?_, ?_, ?_, ?_, ?_, ?_, ?_, ?_, ?_, ?_, ?_, ?_, ?_, ?_, ?_, ?_, ?_, ?_, ?_, ?_⟩, ⟨?_, ?_, ?_, ?_⟩, ?_⟩ <;> decide)
    (by decide) (by decide) (by decide)

/-- The demo creature entry satisfies all validity side conditions. -/
theorem demoCreature_valid : validCreatureEntry demoConstants demoCreature := by
  unfold validCreatureEntry personalNamesOk categorySizesOk
    creatureNumbersOk learnsetsCanonical
  refine ⟨⟨?_, ?_, ?_, ?_, ?_, ?_, ?_, ?_, ?_, ?_, ?_, ?_, ?_, ?_, ?_, ?_, ?_⟩, ⟨?_, ?_, ?_, ?_, ?_, ?_, ?_, ?_, ?_, ?_, ?_, ?_⟩, ⟨?_, ?_, ?_, ?_, ?_, ?_, ?_, ?_, ?_, ?_, ?_, ?_, ?_, ?_, ?_, ?_, ?_, ?_, ?_, ?_, ?_, ?_, ?_, ?_, ?_, ?_, ?_⟩, ⟨?_, ?_, ?_, ?_⟩, ?_⟩ <;> decide

/-- C4 (amended): the EV-yield word packs the six 2-bit lanes at bit
offsets 0,2,4,6,8,10 for hp,atk,def,spd,sp_atk,sp_def (each masked `& 3`)
and the telekinesis flag at bit 12, and pack-then-unpack recovers the exact
lane values and flag; however decode derives `fail_telekinesis` from BITS
12-13 (`(ev >> 12) & 3 != 0`), not from bit 12 alone as the spec states. -/
theorem C4_evyield_corrected (c : Constants) (e : CreatureEntry)
    (h : validCreatureEntry c e) :
    readU16 (packedPersonalBytes c e) 10 = packEvYield e ∧
    packEvYield e &&& 3 = e.evs_hp ∧
    (packEvYield e >>> 2) &&& 3 = e.evs_atk ∧
    (packEvYield e >>> 4) &&& 3 = e.evs_def ∧
    (packEvYield e >>> 6) &&& 3 = e.evs_spd ∧
    (packEvYield e >>> 8) &&& 3 = e.evs_sp_atk ∧
    (packEvYield e >>> 10) &&& 3 = e.evs_sp_def ∧
    ((packEvYield e >>> 12) &&& 3 != 0) = e.fail_telekinesis ∧
    (∀ e2, unpack_personal_entry c (packedPersonalBytes c e) 0 = .ok e2 →
      e2.evs_hp = e.evs_hp ∧ e2.evs_atk = e.evs_atk ∧
      e2.evs_def = e.evs_def ∧ e2.evs_spd = e.evs_spd ∧
      e2.evs_sp_atk = e.evs_sp_atk ∧ e2.evs_sp_def = e.evs_sp_def ∧
      e2.fail_telekinesis = e.fail_telekinesis) := by
  have hu := unpack_packedPersonalBytes c e h
  obtain ⟨hn, hk, hnum, hcan, h72⟩ := h
  obtain ⟨n1, n2, n3, n4, n5, n6, n7, n8, n9, n10, n11, n12, n13, n14, n15,
    n16, n17, n18, n19, n20, n21, n22, n23, n24, n25, n26, n27⟩ := hnum
  have hEV := packEvYield_decomp e n13 n14 n15 n16 n17 n18
  refine ⟨?_, hEV.1, hEV.2.1, hEV.2.2.1, hEV.2.2.2.1, hEV.2.2.2.2.1,
    hEV.2.2.2.2.2.1, hEV.2.2.2.2.2.2.1, ?_⟩
  · rw [ppb_u16_10]
    exact Nat.mod_eq_of_lt (lt_trans hEV.2.2.2.2.2.2.2 (by norm_num))
  · intro e2 he2
    rw [hu] at he2
    injection he2 with h3
    subst h3
    exact ⟨rfl, rfl, rfl, rfl, rfl, rfl, rfl⟩

/-- Witness for C4 at the concrete demo entry. -/
theorem C4_evyield_corrected_witness :
    readU16 (packedPersonalBytes demoConstants demoCreature) 10 =
      packEvYield demoCreature ∧
    packEvYield demoCreature &&& 3 = demoCreature.evs_hp ∧
    (packEvYield demoCreature >>> 2) &&& 3 = demoCreature.evs_atk ∧
    (packEvYield demoCreature >>> 4) &&& 3 = demoCreature.evs_def ∧
    (packEvYield demoCreature >>> 6) &&& 3 = demoCreature.evs_spd ∧
    (packEvYield demoCreature >>> 8) &&& 3 = demoCreature.evs_sp_atk ∧
    (packEvYield demoCreature >>> 10) &&& 3 = demoCreature.evs_sp_def ∧
    ((packEvYield demoCreature >>> 12) &&& 3 != 0) =
      demoCreature.fail_telekinesis ∧
    (∀ e2, unpack_personal_entry demoConstants
        (packedPersonalBytes demoConstants demoCreature) 0 = .ok e2 →
      e2.evs_hp = demoCreature.evs_hp ∧ e2.evs_atk = demoCreature.evs_atk ∧
      e2.evs_def = demoCreature.evs_def ∧ e2.evs_spd = demoCreature.evs_spd ∧
      e2.evs_sp_atk = demoCreature.evs_sp_atk ∧
      e2.evs_sp_def = demoCreature.evs_sp_def ∧
      e2.fail_telekinesis = demoCreature.fail_telekinesis) :=
  C4_evyield_corrected demoConstants demoCreature demoCreature_valid

/-- An all-zero 176-byte record except that the EV-yield word holds 0x2000:
bit 13 set, bit 12 clear. -/
def evBuf : List Nat := writeBytesAt (List.replicate 176 0) 10 [0, 32]

/-- Counterexample for C4 as stated: decode reads the telekinesis flag from
bits 12-13, so a record whose EV word is 0x2000 (bit 12 CLEAR) still
decodes with `fail_telekinesis = true`. -/
theorem C4_evyield_counterexample :
    unpack_personal_entry demoConstants evBuf 0 =
      .ok (personalEntryOf demoConstants evBuf 0) ∧
    readU16 evBuf 10 = 8192 ∧
    Nat.testBit (readU16 evBuf 10) 12 = false ∧
    (personalEntryOf demoConstants evBuf 0).fail_telekinesis = true := by
  refine ⟨unpack_personal_entry_ok demoConstants evBuf 0 ?_, by decide,
    by decide, by decide⟩
  refine ⟨?_, ?_, ?_, ?_, ?_, ?_, ?_, ?_, ?_, ?_, ?_, ?_, ?_, ?_, ?_, ?_, ?_⟩ <;> decide

/-- C5 (amended): index-to-name lookup on an out-of-range index raises
`IndexError`, which IS a `LookupError`, and decoding a record whose type
code is out of range for the `types` category fails that way; but
name-to-index lookup on an absent name raises `ValueError`, which is NOT a
`LookupError`, and encoding an entry whose `type_1` is absent fails with
that `ValueError` (lookups are exact string matches, no case folding). -/
theorem C5_lookup_contract_corrected (l : List String) (i : Nat) (x : String)
    (c : Constants) (buffer : List Nat) (offset : Nat) (e : CreatureEntry)
    (hi : l.length ≤ i) (hx : x ∉ l)
    (hdec : c.types.length ≤ readU8 buffer (offset + 6))
    (henc : e.type_1 ∉ c.types) :
    (cnstname l i = .error .indexError ∧
      PyError.isLookupError .indexError = true) ∧
    (cnstval l x = .error .valueError ∧
      PyError.isLookupError .valueError = false) ∧
    unpack_personal_entry c buffer offset = .error .indexError ∧
    pack_personal_entry c e = .error .valueError := by
  refine ⟨⟨cnstname_err l i hi, rfl⟩, ⟨cnstval_err l x hx, rfl⟩, ?_, ?_⟩
  · unfold unpack_personal_entry
    rw [cnstname_err _ _ hdec, err_bind]
  · unfold pack_personal_entry
    rw [cnstval_err _ _ henc, err_bind]

/-- Witness for C5 at concrete inputs. -/
theorem C5_lookup_contract_corrected_witness :
    (cnstname ["a"] 5 = .error .indexError ∧
      PyError.isLookupError .indexError = true) ∧
    (cnstval ["a"] "b" = .error .valueError ∧
      PyError.isLookupError .valueError = false) ∧
    unpack_personal_entry demoConstants (List.replicate 176 255) 0 =
      .error .indexError ∧
    pack_personal_entry demoConstants
      { demoCreature with type_1 := "Ghost" } = .error .valueError :=
  C5_lookup_contract_corrected ["a"] 5 "b" demoConstants
    (List.replicate 176 255) 0 { demoCreature with type_1 := "Ghost" }
    (by decide) (by decide) (by decide) (by decide)

/-- Counterexample for C5 as stated: the name-to-index lookup on an absent
name fails with `ValueError`, which is not a `LookupError`, and so does
creature encode for an entry whose `type_1` is absent. -/
theorem C5_lookup_contract_counterexample :
    cnstval demoConstants.types "Ghost" = .error .valueError ∧
    PyError.isLookupError .valueError = false ∧
    pack_personal_entry demoConstants
      { demoCreature with type_1 := "Ghost" } = .error .valueError := by
  refine ⟨cnstval_err _ _ (by decide), rfl, ?_⟩
  unfold pack_personal_entry
  rw [cnstval_err _ _ (by decide), err_bind]

/-- A 176-byte record of zeros except byte 0x08 = 0xFF: 0x08 is the actual
`catch_rate` lane of `<10B4H6B4H2B3H16s4s16sI8H72s4s2H`. -/
def zeroBuf8 : List Nat := writeBytesAt (List.replicate 176 0) 8 [255]

/-- A 176-byte record of zeros except byte 0x11 = 0xFF, as the claim words
it: 0x11 is NOT the catch-rate lane but the high byte of the u16
`very_rare_item` code at 0x10. -/
def evilBuf11 : List Nat := writeBytesAt (List.replicate 176 0) 17 [255]

set_option maxRecDepth 8192

/-- C9 (amended): the catch-rate lane is byte 0x08, not 0x11. Decoding the
all-zero record with byte 0x08 = 0xFF yields an entry whose `type_1` is the
first name of the `types` category, `catch_rate` = 255, all six EV
sub-fields = 0 and `fail_telekinesis` = false; re-encoding that entry
reproduces the 176-byte buffer exactly (the struct spans the whole record,
so no reserved template bytes survive inside a written record). -/
theorem C9_catchrate_record_corrected :
    unpack_personal_entry demoConstants zeroBuf8 0 =
      .ok (personalEntryOf demoConstants zeroBuf8 0) ∧
    (personalEntryOf demoConstants zeroBuf8 0).type_1 =
      demoConstants.types.getD 0 "" ∧
    (personalEntryOf demoConstants zeroBuf8 0).catch_rate = 255 ∧
    (personalEntryOf demoConstants zeroBuf8 0).evs_hp = 0 ∧
    (personalEntryOf demoConstants zeroBuf8 0).evs_atk = 0 ∧
    (personalEntryOf demoConstants zeroBuf8 0).evs_def = 0 ∧
    (personalEntryOf demoConstants zeroBuf8 0).evs_spd = 0 ∧
    (personalEntryOf demoConstants zeroBuf8 0).evs_sp_atk = 0 ∧
    (personalEntryOf demoConstants zeroBuf8 0).evs_sp_def = 0 ∧
    (personalEntryOf demoConstants zeroBuf8 0).fail_telekinesis = false ∧
    pack_personal_entry demoConstants (personalEntryOf demoConstants zeroBuf8 0) =
      .ok zeroBuf8 := by
  refine ⟨unpack_personal_entry_ok demoConstants zeroBuf8 0 ?_, by decide,
    by decide, by decide, by decide, by decide, by decide, by decide,
    by decide, by decide, ?_⟩
  · refine ⟨?_, ?_, ?_, ?_, ?_, ?_, ?_, ?_, ?_, ?_, ?_, ?_, ?_, ?_, ?_, ?_, ?_⟩ <;> decide
  · rw [pack_personal_entry_ok demoConstants _ ?_]
    · exact congrArg Except.ok (by decide)
    · unfold personalNamesOk
      refine ⟨?_, ?_, ?_, ?_, ?_, ?_, ?_, ?_, ?_, ?_, ?_, ?_, ?_, ?_, ?_, ?_, ?_⟩ <;> decide

/-- Counterexample for C9 as stated: byte 0x11 is the high byte of the
`very_rare_item` u16 code, so the claimed buffer carries item code 0xFF00
(failing the registry lookup here), and the actual catch-rate lane, byte
0x08, is zero - the decoded catch rate would be 0, not 255. -/
theorem C9_catchrate_counterexample :
    readU16 evilBuf11 16 = 65280 ∧
    readU8 evilBuf11 8 = 0 ∧
    (personalEntryOf demoConstants evilBuf11 0).catch_rate = 0 ∧
    unpack_personal_entry demoConstants evilBuf11 0 = .error .indexError := by
  refine ⟨by decide, by decide, by decide, ?_⟩
  unfold unpack_personal_entry
  rw [cnstname_ok _ _ (by decide : readU8 evilBuf11 (0 + 6) <
      demoConstants.types.length), ok_bind,
    cnstname_ok _ _ (by decide : readU8 evilBuf11 (0 + 7) <
      demoConstants.types.length), ok_bind,
    cnstname_ok _ _ (by decide : readU16 evilBuf11 (0 + 0x18) <
      demoConstants.abilities.length), ok_bind,
    cnstname_ok _ _ (by decide : readU16 evilBuf11 (0 + 0x1A) <
      demoConstants.abilities.length), ok_bind,
    cnstname_ok _ _ (by decide : readU16 evilBuf11 (0 + 0x1C) <
      demoConstants.abilities.length), ok_bind,
    cnstname_ok _ _ (by decide : readU8 evilBuf11 (0 + 0x15) <
      demoConstants.growth_types.length), ok_bind,
    cnstname_ok _ _ (by decide : readU16 evilBuf11 (0 + 0x50) <
      demoConstants.items.length), ok_bind,
    cnstname_ok _ _ (by decide : readU16 evilBuf11 (0 + 0x52) <
      demoConstants.moves.length), ok_bind,
    cnstname_ok _ _ (by decide : readU16 evilBuf11 (0 + 0x54) <
      demoConstants.moves.length), ok_bind,
    cnstname_ok _ _ (by decide : readU8 evilBuf11 (0 + 0x16) <
      demoConstants.egg_groups.length), ok_bind,
    cnstname_ok _ _ (by decide : readU8 evilBuf11 (0 + 0x17) <
      demoConstants.egg_groups.length), ok_bind,
    cnstname_ok _ _ (by decide : readU16 evilBuf11 (0 + 0x56) <
      demoConstants.pokemon.length), ok_bind,
    cnstname_ok _ _ (by decide : readU16 evilBuf11 (0 + 0xC) <
      demoConstants.items.length), ok_bind,
    cnstname_ok _ _ (by decide : readU16 evilBuf11 (0 + 0xE) <
      demoConstants.items.length), ok_bind,
    cnstname_err _ _ (by decide : demoConstants.items.length ≤
      readU16 evilBuf11 (0 + 0x10)), err_bind]

theorem length_packedPersonalBytes (c : Constants) (e : CreatureEntry) :
    (packedPersonalBytes c e).length = 176 := by
  simp [packedPersonalBytes, List.length_append, length_personalHead,
    length_wbytes, length_personalMid, length_w16]

theorem length_BLANK : BLANK_PRSNL_ENTRY.length = 176 := by decide

/-- The entry loop of `pack_personal` (lines 180-233): each entry is packed
and written at the current running offset, which advances by 0xB0 per input
entry in input order; the creature-name key of the entry is never
consulted. -/
def packPersonalEntries (c : Constants) :
    List (String × CreatureEntry) → List Nat → Nat → Except PyError (List Nat)
  | [], buf, _ => .ok buf
  | (_, e) :: rest, buf, offset => do
    let bs ← pack_personal_entry c e
    packPersonalEntries c rest (writeBytesAt buf offset bs) (offset + 176)

/-- `pack_personal` (lines 175-236): pre-fill `len(pokemon)` copies of the
blank template, then run the entry loop from offset 0. -/
def pack_personal (c : Constants) (entries : List (String × CreatureEntry)) :
    Except PyError (List Nat) :=
  packPersonalEntries c entries
    ((List.replicate c.pokemon.length BLANK_PRSNL_ENTRY).flatten) 0

/-- The pure sequential-write result of the `pack_personal` loop. -/
def personalWriteSeq (c : Constants) :
    List (String × CreatureEntry) → List Nat → Nat → List Nat
  | [], buf, _ => buf
  | (_, e) :: rest, buf, offset =>
    personalWriteSeq c rest
      (writeBytesAt buf offset (packedPersonalBytes c e)) (offset + 176)

theorem packPersonalEntries_eq (c : Constants) :
    ∀ (es : List (String × CreatureEntry)) (buf : List Nat) (offset : Nat),
      (∀ p ∈ es, personalNamesOk c p.2) →
      packPersonalEntries c es buf offset =
        .ok (personalWriteSeq c es buf offset) := by
  intro es
  induction es with
  | nil => intro buf offset _; rfl
  | cons p rest ih =>
    intro buf offset hmem
    obtain ⟨nm, e⟩ := p
    unfold packPersonalEntries personalWriteSeq
    rw [pack_personal_entry_ok c e (hmem (nm, e) (by simp)), ok_bind]
    exact ih _ _ (fun q hq => hmem q (by simp [hq]))

theorem personalWriteSeq_length (c : Constants) :
    ∀ (es : List (String × CreatureEntry)) (buf : List Nat) (offset : Nat),
      offset + 176 * es.length ≤ buf.length →
      (personalWriteSeq c es buf offset).length = buf.length := by
  intro es
  induction es with
  | nil => intro buf offset _; rfl
  | cons p rest ih =>
    intro buf offset h
    obtain ⟨nm, e⟩ := p
    simp only [List.length_cons] at h
    unfold personalWriteSeq
    have hw : (writeBytesAt buf offset (packedPersonalBytes c e)).length =
        buf.length := by
      apply writeBytesAt_length
      rw [length_packedPersonalBytes]
      omega
    rw [ih _ _ (by rw [hw]; omega), hw]

theorem personalWriteSeq_untouched_lo (c : Constants) :
    ∀ (es : List (String × CreatureEntry)) (buf : List Nat) (offset : Nat)
      (p : Nat), offset + 176 * es.length ≤ buf.length → p < offset →
      readU8 (personalWriteSeq c es buf offset) p = readU8 buf p := by
  intro es
  induction es with
  | nil => intro buf offset p _ _; rfl
  | cons q rest ih =>
    intro buf offset p h hp
    obtain ⟨nm, e⟩ := q
    simp only [List.length_cons] at h
    unfold personalWriteSeq
    have hwb : offset + (packedPersonalBytes c e).length ≤ buf.length := by
      rw [length_packedPersonalBytes]; omega
    have hw : (writeBytesAt buf offset (packedPersonalBytes c e)).length =
        buf.length := writeBytesAt_length _ _ _ hwb
    rw [ih _ _ _ (by rw [hw]; omega) (by omega)]
    rw [readU8_writeBytesAt _ _ _ _ hwb, if_pos hp]

theorem personalWriteSeq_untouched_hi (c : Constants) :
    ∀ (es : List (String × CreatureEntry)) (buf : List Nat) (offset : Nat)
      (p : Nat), offset + 176 * es.length ≤ buf.length →
      offset + 176 * es.length ≤ p →
      readU8 (personalWriteSeq c es buf offset) p = readU8 buf p := by
  intro es
  induction es with
  | nil => intro buf offset p _ _; rfl
  | cons q rest ih =>
    intro buf offset p h hp
    obtain ⟨nm, e⟩ := q
    simp only [List.length_cons] at h hp
    unfold personalWriteSeq
    have hwb : offset + (packedPersonalBytes c e).length ≤ buf.length := by
      rw [length_packedPersonalBytes]; omega
    have hw : (writeBytesAt buf offset (packedPersonalBytes c e)).length =
        buf.length := writeBytesAt_length _ _ _ hwb
    rw [ih _ _ _ (by rw [hw]; omega) (by omega)]
    rw [readU8_writeBytesAt _ _ _ _ hwb, if_neg (by omega),
      if_neg (by rw [length_packedPersonalBytes]; omega)]

theorem personalWriteSeq_slot (c : Constants) :
    ∀ (es : List (String × CreatureEntry)) (buf : List Nat) (offset : Nat)
      (j : Nat) (hj : j < es.length),
      offset + 176 * es.length ≤ buf.length →
      ∀ k, k < 176 →
      readU8 (personalWriteSeq c es buf offset) (offset + 176 * j + k) =
        readU8 (packedPersonalBytes c (es.get ⟨j, hj⟩).2) k := by
  intro es
  induction es with
  | nil => intro buf offset j hj; simp at hj
  | cons q rest ih =>
    intro buf offset j hj h k hk
    obtain ⟨nm, e⟩ := q
    simp only [List.length_cons] at h
    have hwb : offset + (packedPersonalBytes c e).length ≤ buf.length := by
      rw [length_packedPersonalBytes]; omega
    have hw : (writeBytesAt buf offset (packedPersonalBytes c e)).length =
        buf.length := writeBytesAt_length _ _ _ hwb
    cases j with
    | zero =>
      unfold personalWriteSeq
      rw [personalWriteSeq_untouched_lo c rest _ (offset + 176)
        (offset + 176 * 0 + k) (by rw [hw]; omega) (by omega)]
      rw [readU8_writeBytesAt _ _ _ _ hwb, if_neg (by omega),
        if_pos (by rw [length_packedPersonalBytes]; omega)]
      show readU8 (packedPersonalBytes c e) (offset + 176 * 0 + k - offset) =
        readU8 (packedPersonalBytes c e) k
      congr 1
      omega
    | succ j =>
      unfold personalWriteSeq
      have hj2 : j < rest.length := by simpa using hj
      have hpos : offset + 176 * (j + 1) + k =
          (offset + 176) + 176 * j + k := by ring
      rw [hpos, ih _ (offset + 176) j hj2 (by rw [hw]; omega) k hk]
      simp only [List.get_cons_succ]

theorem flatten_replicate_blank_length :
    ∀ n, ((List.replicate n BLANK_PRSNL_ENTRY).flatten).length = 176 * n := by
  intro n
  induction n with
  | zero => rfl
  | succ n ih =>
    rw [List.replicate_succ, List.flatten_cons, List.length_append, ih,
      length_BLANK]
    ring

theorem flatten_replicate_blank_read :
    ∀ (n j k : Nat), j < n → k < 176 →
      readU8 ((List.replicate n BLANK_PRSNL_ENTRY).flatten) (176 * j + k) =
        readU8 BLANK_PRSNL_ENTRY k := by
  intro n
  induction n with
  | zero => intro j k hj _; exact absurd hj (Nat.not_lt_zero j)
  | succ n ih =>
    intro j k hj hk
    rw [List.replicate_succ, List.flatten_cons, readU8_append]
    cases j with
    | zero =>
      rw [if_pos (by rw [length_BLANK]; omega)]
      congr 1
      omega
    | succ j =>
      rw [if_neg (by rw [length_BLANK]; omega)]
      have hpos : 176 * (j + 1) + k - BLANK_PRSNL_ENTRY.length =
          176 * j + k := by
        rw [length_BLANK]; ring_nf; omega
      rw [hpos, ih j k (by omega) hk]

/-- C8 (amended): encode pre-allocates `len(pokemon)` blank-template
records, but each input entry is written at the record index equal to its
POSITION in the input collection (the running offset advances by 0xB0 per
entry); the creature-name key is never consulted for placement, and the
records past the input length - not the records of absent creatures - are
the ones that retain the blank template. -/
theorem C8_record_placement_corrected (c : Constants)
    (es : List (String × CreatureEntry))
    (hval : ∀ p ∈ es, personalNamesOk c p.2)
    (hlen : es.length ≤ c.pokemon.length) :
    ∃ buf, pack_personal c es = .ok buf ∧
      buf.length = 176 * c.pokemon.length ∧
      (∀ j (hj : j < es.length), ∀ k, k < 176 →
        readU8 buf (176 * j + k) =
          readU8 (packedPersonalBytes c (es.get ⟨j, hj⟩).2) k) ∧
      (∀ j, es.length ≤ j → j < c.pokemon.length → ∀ k, k < 176 →
        readU8 buf (176 * j + k) = readU8 BLANK_PRSNL_ENTRY k) := by
  have hblen : ((List.replicate c.pokemon.length BLANK_PRSNL_ENTRY).flatten).length =
      176 * c.pokemon.length := flatten_replicate_blank_length c.pokemon.length
  refine ⟨personalWriteSeq c es
    ((List.replicate c.pokemon.length BLANK_PRSNL_ENTRY).flatten) 0,
    ?_, ?_, ?_, ?_⟩
  · unfold pack_personal
    exact packPersonalEntries_eq c es _ 0 hval
  · rw [personalWriteSeq_length c es _ 0 (by rw [hblen]; omega), hblen]
  · intro j hj k hk
    have hs := personalWriteSeq_slot c es _ 0 j hj (by rw [hblen]; omega) k hk
    simp only [Nat.zero_add] at hs
    exact hs
  · intro j hjlo hjhi k hk
    rw [personalWriteSeq_untouched_hi c es _ 0 (176 * j + k)
      (by rw [hblen]; omega) (by omega)]
    exact flatten_replicate_blank_read c.pokemon.length j k hjhi hk

/-- Counterexample for C8 as stated: with registry order
`["Bulbasaur", "Ivysaur", "Venusaur"]`, encoding the single-entry input
`[("Ivysaur", entry)]` writes the entry at record 0 (input position), not
at record 1 (the creature's registry index); record 1 keeps the blank
template even though "Ivysaur" IS present in the input. -/
theorem C8_record_placement_counterexample :
    ∃ buf, pack_personal demoConstants [("Ivysaur", demoCreature)] = .ok buf ∧
      idxOfD demoConstants.pokemon "Ivysaur" = 1 ∧
      readBytes buf 0 176 = packedPersonalBytes demoConstants demoCreature ∧
      readBytes buf 176 176 = BLANK_PRSNL_ENTRY ∧
      readBytes buf 0 176 ≠ BLANK_PRSNL_ENTRY := by
  refine ⟨writeBytesAt
    ((List.replicate demoConstants.pokemon.length BLANK_PRSNL_ENTRY).flatten)
    0 (packedPersonalBytes demoConstants demoCreature),
    ?_, by decide, by decide, by decide, by decide⟩
  unfold pack_personal packPersonalEntries
  rw [pack_personal_entry_ok demoConstants demoCreature demoCreature_valid.1,
    ok_bind]
  rfl

/-- Witness for C8 at a concrete single-entry input. -/
theorem C8_record_placement_corrected_witness :
    ∃ buf, pack_personal demoConstants [("Ivysaur", demoCreature)] = .ok buf ∧
      buf.length = 176 * demoConstants.pokemon.length ∧
      (∀ j (hj : j < [("Ivysaur", demoCreature)].length), ∀ k, k < 176 →
        readU8 buf (176 * j + k) =
          readU8 (packedPersonalBytes demoConstants
            ([("Ivysaur", demoCreature)].get ⟨j, hj⟩).2) k) ∧
      (∀ j, [("Ivysaur", demoCreature)].length ≤ j →
        j < demoConstants.pokemon.length → ∀ k, k < 176 →
        readU8 buf (176 * j + k) = readU8 BLANK_PRSNL_ENTRY k) :=
  C8_record_placement_corrected demoConstants [("Ivysaur", demoCreature)]
    (by
      intro p hp
      rw [List.mem_singleton] at hp
      rw [hp]
      exact demoCreature_valid.1)
    (by decide)

theorem readU8_readBytes (buf : List Nat) (off n k : Nat) (hk : k < n) :
    readU8 (readBytes buf off n) k = readU8 buf (off + k) := by
  unfold readU8 readBytes
  rw [List.getD_eq_getElem?_getD, List.getD_eq_getElem?_getD,
    List.getElem?_take_of_lt hk, List.getElem?_drop]

theorem readU8_slice (buffer rec2 : List Nat) (offset : Nat)
    (hs : readBytes buffer offset 176 = rec2) (k : Nat) (hk : k < 176) :
    readU8 buffer (offset + k) = readU8 rec2 k := by
  rw [← hs, readU8_readBytes buffer offset 176 k hk]

theorem readU16_slice (buffer rec2 : List Nat) (offset : Nat)
    (hs : readBytes buffer offset 176 = rec2) (k : Nat) (hk : k + 2 ≤ 176) :
    readU16 buffer (offset + k) = readU16 rec2 k := by
  unfold readU16
  rw [readU8_slice buffer rec2 offset hs k (by omega),
    (by omega : offset + k + 1 = offset + (k + 1)),
    readU8_slice buffer rec2 offset hs (k + 1) (by omega)]

theorem readU32_slice (buffer rec2 : List Nat) (offset : Nat)
    (hs : readBytes buffer offset 176 = rec2) (k : Nat) (hk : k + 4 ≤ 176) :
    readU32 buffer (offset + k) = readU32 rec2 k := by
  unfold readU32
  rw [readU16_slice buffer rec2 offset hs k (by omega),
    (by omega : offset + k + 2 = offset + (k + 2)),
    readU16_slice buffer rec2 offset hs (k + 2) (by omega)]

theorem readBytes_slice (buffer rec2 : List Nat) (offset : Nat)
    (hs : readBytes buffer offset 176 = rec2) (k m : Nat)
    (hk : k + m ≤ 176) :
    readBytes buffer (offset + k) m = readBytes rec2 k m := by
  rw [← hs]
  show readBytes buffer (offset + k) m =
    readBytes (readBytes buffer offset 176) k m
  unfold readBytes
  rw [List.drop_take 176 k (buffer.drop offset),
    List.take_take m (176 - k) ((buffer.drop offset).drop k),
    Nat.min_eq_left (by omega), List.drop_drop k offset buffer]


/-- Creature decode only looks at the 176-byte window at `offset`. -/
theorem personalEntryOf_slice (c : Constants) (buffer rec2 : List Nat)
    (offset : Nat) (hs : readBytes buffer offset 176 = rec2) :
    personalEntryOf c buffer offset = personalEntryOf c rec2 0 := by
  apply creatureEntry_ext
  · dsimp only [personalEntryOf]
    simp only [Nat.zero_add]
    rw [readU8_slice buffer rec2 offset hs 6 (by omega)]
  · dsimp only [personalEntryOf]
    simp only [Nat.zero_add]
    rw [readU8_slice buffer rec2 offset hs 7 (by omega)]
  · dsimp only [personalEntryOf]
    simp only [Nat.zero_add]
    rw [readU8_slice buffer rec2 offset hs 0 (by omega)]
  · dsimp only [personalEntryOf]
    simp only [Nat.zero_add]
    rw [readU8_slice buffer rec2 offset hs 1 (by omega)]
  · dsimp only [personalEntryOf]
    simp only [Nat.zero_add]
    rw [readU8_slice buffer rec2 offset hs 2 (by omega)]
  · dsimp only [personalEntryOf]
    simp only [Nat.zero_add]
    rw [readU8_slice buffer rec2 offset hs 4 (by omega)]
  · dsimp only [personalEntryOf]
    simp only [Nat.zero_add]
    rw [readU8_slice buffer rec2 offset hs 5 (by omega)]
  · dsimp only [personalEntryOf]
    simp only [Nat.zero_add]
    rw [readU8_slice buffer rec2 offset hs 3 (by omega)]
  · dsimp only [personalEntryOf]
    simp only [Nat.zero_add]
    rw [readU16_slice buffer rec2 offset hs 0x18 (by omega)]
  · dsimp only [personalEntryOf]
    simp only [Nat.zero_add]
    rw [readU16_slice buffer rec2 offset hs 0x1A (by omega)]
  · dsimp only [personalEntryOf]
    simp only [Nat.zero_add]
    rw [readU16_slice buffer rec2 offset hs 0x1C (by omega)]
  · dsimp only [personalEntryOf]
    simp only [Nat.zero_add]
    rw [readU16_slice buffer rec2 offset hs 0x24 (by omega)]
  · dsimp only [personalEntryOf]
    simp only [Nat.zero_add]
    rw [readU16_slice buffer rec2 offset hs 0x26 (by omega)]
  · dsimp only [personalEntryOf]
    simp only [Nat.zero_add]
    rw [readU16_slice buffer rec2 offset hs 0xA (by omega)]
  · dsimp only [personalEntryOf]
    simp only [Nat.zero_add]
    rw [readU16_slice buffer rec2 offset hs 0xA (by omega)]
  · dsimp only [personalEntryOf]
    simp only [Nat.zero_add]
    rw [readU16_slice buffer rec2 offset hs 0xA (by omega)]
  · dsimp only [personalEntryOf]
    simp only [Nat.zero_add]
    rw [readU16_slice buffer rec2 offset hs 0xA (by omega)]
  · dsimp only [personalEntryOf]
    simp only [Nat.zero_add]
    rw [readU16_slice buffer rec2 offset hs 0xA (by omega)]
  · dsimp only [personalEntryOf]
    simp only [Nat.zero_add]
    rw [readU16_slice buffer rec2 offset hs 0xA (by omega)]
  · dsimp only [personalEntryOf]
    simp only [Nat.zero_add]
    rw [readU16_slice buffer rec2 offset hs 0xA (by omega)]
  · dsimp only [personalEntryOf]
    simp only [Nat.zero_add]
    rw [readU8_slice buffer rec2 offset hs 8 (by omega)]
  · dsimp only [personalEntryOf]
    simp only [Nat.zero_add]
    rw [readU8_slice buffer rec2 offset hs 0x12 (by omega)]
  · dsimp only [personalEntryOf]
    simp only [Nat.zero_add]
    rw [readU16_slice buffer rec2 offset hs 0x22 (by omega)]
  · dsimp only [personalEntryOf]
    simp only [Nat.zero_add]
    rw [readU8_slice buffer rec2 offset hs 0x15 (by omega)]
  · dsimp only [personalEntryOf]
    simp only [Nat.zero_add]
    rw [readU16_slice buffer rec2 offset hs 0x50 (by omega)]
  · dsimp only [personalEntryOf]
    simp only [Nat.zero_add]
    rw [readU16_slice buffer rec2 offset hs 0x52 (by omega)]
  · dsimp only [personalEntryOf]
    simp only [Nat.zero_add]
    rw [readU16_slice buffer rec2 offset hs 0x54 (by omega)]
  · dsimp only [personalEntryOf]
    simp only [Nat.zero_add]
    rw [readU8_slice buffer rec2 offset hs 0x16 (by omega)]
  · dsimp only [personalEntryOf]
    simp only [Nat.zero_add]
    rw [readU8_slice buffer rec2 offset hs 0x17 (by omega)]
  · dsimp only [personalEntryOf]
    simp only [Nat.zero_add]
    rw [readU8_slice buffer rec2 offset hs 9 (by omega)]
  · dsimp only [personalEntryOf]
    simp only [Nat.zero_add]
    rw [readU16_slice buffer rec2 offset hs 0x56 (by omega)]
  · dsimp only [personalEntryOf]
    simp only [Nat.zero_add]
    rw [readU16_slice buffer rec2 offset hs 0x58 (by omega)]
  · dsimp only [personalEntryOf]
    simp only [Nat.zero_add]
    rw [readU8_slice buffer rec2 offset hs 0x13 (by omega)]
  · dsimp only [personalEntryOf]
    simp only [Nat.zero_add]
    rw [readU8_slice buffer rec2 offset hs 0x14 (by omega)]
  · dsimp only [personalEntryOf]
    simp only [Nat.zero_add]
    rw [readU16_slice buffer rec2 offset hs 0xC (by omega)]
  · dsimp only [personalEntryOf]
    simp only [Nat.zero_add]
    rw [readU16_slice buffer rec2 offset hs 0xE (by omega)]
  · dsimp only [personalEntryOf]
    simp only [Nat.zero_add]
    rw [readU16_slice buffer rec2 offset hs 0x10 (by omega)]
  · dsimp only [personalEntryOf]
    simp only [Nat.zero_add]
    rw [readU16_slice buffer rec2 offset hs 0x1E (by omega)]
  · dsimp only [personalEntryOf]
    simp only [Nat.zero_add]
    rw [readU8_slice buffer rec2 offset hs 0x20 (by omega)]
  · dsimp only [personalEntryOf]
    simp only [Nat.zero_add]
    rw [readU32_slice buffer rec2 offset hs 0x4C (by omega)]
  · dsimp only [personalEntryOf]
    simp only [Nat.zero_add]
    rw [readU16_slice buffer rec2 offset hs 0x5C (by omega)]
  · dsimp only [personalEntryOf]
    simp only [Nat.zero_add]
    rw [readU16_slice buffer rec2 offset hs 0xAC (by omega)]
  · dsimp only [personalEntryOf]
    simp only [Nat.zero_add]
    rw [readU16_slice buffer rec2 offset hs 0xAE (by omega)]
  · dsimp only [personalEntryOf]
    simp only [Nat.zero_add]
    rw [readU8_slice buffer rec2 offset hs 0x21 (by omega)]
  · dsimp only [personalEntryOf]
    simp only [Nat.zero_add]
    rw [readU8_slice buffer rec2 offset hs 0x21 (by omega)]
  · dsimp only [personalEntryOf]
    simp only [Nat.zero_add]
    rw [readU8_slice buffer rec2 offset hs 0x21 (by omega)]
  · dsimp only [personalEntryOf]
    simp only [Nat.zero_add]
    rw [readU16_slice buffer rec2 offset hs 0x5A (by omega)]
  · dsimp only [personalEntryOf]
    simp only [Nat.zero_add]
    rw [readU16_slice buffer rec2 offset hs 0x5A (by omega)]
  · dsimp only [personalEntryOf]
    simp only [Nat.zero_add]
    rw [readBytes_slice buffer rec2 offset hs 0x28 16 (by omega)]
  · dsimp only [personalEntryOf]
    simp only [Nat.zero_add]
    rw [readBytes_slice buffer rec2 offset hs 0x3C 16 (by omega)]
  · dsimp only [personalEntryOf]
    simp only [Nat.zero_add]
    rw [readBytes_slice buffer rec2 offset hs 0x38 4 (by omega)]
  · dsimp only [personalEntryOf]
    simp only [Nat.zero_add]
    rw [readBytes_slice buffer rec2 offset hs 0xA8 4 (by omega)]
  · dsimp only [personalEntryOf]
    simp only [Nat.zero_add]
    rw [readU16_slice buffer rec2 offset hs 0x5E (by omega)]
  · dsimp only [personalEntryOf]
    simp only [Nat.zero_add]
    rw [readBytes_slice buffer rec2 offset hs 0x60 72 (by omega)]


theorem personalEnumCodesOk_slice (c : Constants) (buffer rec2 : List Nat)
    (offset : Nat) (hs : readBytes buffer offset 176 = rec2)
    (h : personalEnumCodesOk c rec2 0) :
    personalEnumCodesOk c buffer offset := by
  unfold personalEnumCodesOk at h ⊢
  simp only [Nat.zero_add] at h
  obtain ⟨hx1, hx2, hx3, hx4, hx5, hx6, hx7, hx8, hx9, hx10, hx11, hx12, hx13, hx14, hx15, hx16, hx17⟩ := h
  refine ⟨?_, ?_, ?_, ?_, ?_, ?_, ?_, ?_, ?_, ?_, ?_, ?_, ?_, ?_, ?_, ?_, ?_⟩
  · rw [readU8_slice buffer rec2 offset hs 6 (by omega)]
    exact hx1
  · rw [readU8_slice buffer rec2 offset hs 7 (by omega)]
    exact hx2
  · rw [readU16_slice buffer rec2 offset hs 0x18 (by omega)]
    exact hx3
  · rw [readU16_slice buffer rec2 offset hs 0x1A (by omega)]
    exact hx4
  · rw [readU16_slice buffer rec2 offset hs 0x1C (by omega)]
    exact hx5
  · rw [readU8_slice buffer rec2 offset hs 0x15 (by omega)]
    exact hx6
  · rw [readU16_slice buffer rec2 offset hs 0x50 (by omega)]
    exact hx7
  · rw [readU16_slice buffer rec2 offset hs 0x52 (by omega)]
    exact hx8
  · rw [readU16_slice buffer rec2 offset hs 0x54 (by omega)]
    exact hx9
  · rw [readU8_slice buffer rec2 offset hs 0x16 (by omega)]
    exact hx10
  · rw [readU8_slice buffer rec2 offset hs 0x17 (by omega)]
    exact hx11
  · rw [readU16_slice buffer rec2 offset hs 0x56 (by omega)]
    exact hx12
  · rw [readU16_slice buffer rec2 offset hs 0xC (by omega)]
    exact hx13
  · rw [readU16_slice buffer rec2 offset hs 0xE (by omega)]
    exact hx14
  · rw [readU16_slice buffer rec2 offset hs 0x10 (by omega)]
    exact hx15
  · rw [readU16_slice buffer rec2 offset hs 0x1E (by omega)]
    exact hx16
  · rw [readU8_slice buffer rec2 offset hs 0x21 (by omega)]
    exact hx17

/-- Decoding any buffer whose 176-byte window at `offset` holds the packed
bytes of a valid entry returns that entry. -/
theorem unpack_personal_entry_slice (c : Constants) (buffer : List Nat)
    (offset : Nat) (e : CreatureEntry)
    (hs : readBytes buffer offset 176 = packedPersonalBytes c e)
    (hv : validCreatureEntry c e) :
    unpack_personal_entry c buffer offset = .ok e := by
  obtain ⟨hn, hk, hnum, hcan, h72⟩ := hv
  rw [unpack_personal_entry_ok c buffer offset
    (personalEnumCodesOk_slice c buffer _ offset hs (packed_codesOk c e hn hk))]
  rw [personalEntryOf_slice c buffer _ offset hs]
  exact congrArg Except.ok (personalEntryOf_packed c e hn hk hnum hcan h72)

/-- The record loop of `unpack_personal` (lines 91-170): decode `count`
records starting at record index `i` (record `i` sits at byte offset
`i * 0xB0`), keying each decoded entry by `cnstname("pokemon", i)`. -/
def unpackPersonalFrom (c : Constants) (buffer : List Nat) :
    Nat → Nat → Except PyError (List (String × CreatureEntry))
  | _, 0 => .ok []
  | i, count + 1 => do
    let e ← unpack_personal_entry c buffer (i * 176)
    let name ← cnstname c.pokemon i
    let rest ← unpackPersonalFrom c buffer (i + 1) count
    .ok ((name, e) :: rest)

/-- `unpack_personal` (lines 85-172): decode `len(buffer) // 0xB0` records
from offset 0. -/
def unpack_personal (c : Constants) (buffer : List Nat) :
    Except PyError (List (String × CreatureEntry)) :=
  unpackPersonalFrom c buffer 0 (buffer.length / 176)

theorem flatten_slice_176 :
    ∀ (ls : List (List Nat)) (j : Nat) (l : List Nat),
      ls[j]? = some l → (∀ x ∈ ls, x.length = 176) →
      readBytes ls.flatten (176 * j) 176 = l := by
  intro ls
  induction ls with
  | nil => intro j l hj _; simp at hj
  | cons a rest ih =>
    intro j l hj hlen
    have ha : a.length = 176 := hlen a (by simp)
    rw [List.flatten_cons, readBytes_append, ha]
    cases j with
    | zero =>
      simp only [List.getElem?_cons_zero, Option.some.injEq] at hj
      subst hj
      rw [if_pos (by omega)]
      simp only [Nat.mul_zero]
      exact readBytes_self a 176 ha
    | succ j =>
      simp only [List.getElem?_cons_succ] at hj
      rw [if_neg (by omega), if_pos (by omega),
        (by omega : 176 * (j + 1) - 176 = 176 * j)]
      exact ih j l hj (fun x hx => hlen x (by simp [hx]))

theorem length_flatten_packed (c : Constants) :
    ∀ es : List CreatureEntry,
      ((es.map (packedPersonalBytes c)).flatten).length = 176 * es.length := by
  intro es
  induction es with
  | nil => rfl
  | cons e rest ih =>
    simp only [List.map_cons, List.flatten_cons, List.length_append, ih,
      length_packedPersonalBytes, List.length_cons]
    ring

/-- When the tail of the buffer is exactly covered, the sequential writes of
the `pack_personal` loop replace it by the packed records. -/
theorem personalWriteSeq_off (c : Constants) :
    ∀ (entries : List (String × CreatureEntry)) (pre buf : List Nat),
      buf.length = 176 * entries.length →
      personalWriteSeq c entries (pre ++ buf) pre.length =
        pre ++ (entries.map (fun p => packedPersonalBytes c p.2)).flatten := by
  intro entries
  induction entries with
  | nil =>
    intro pre buf hlen
    simp only [List.length_nil, Nat.mul_zero] at hlen
    have hb : buf = [] := List.length_eq_zero.mp hlen
    subst hb
    simp [personalWriteSeq]
  | cons q rest ih =>
    intro pre buf hlen
    obtain ⟨nm, e⟩ := q
    simp only [List.length_cons] at hlen
    unfold personalWriteSeq
    have hwba : writeBytesAt (pre ++ buf) pre.length
        (packedPersonalBytes c e) =
        (pre ++ packedPersonalBytes c e) ++ buf.drop 176 := by
      unfold writeBytesAt
      rw [List.take_left, length_packedPersonalBytes, List.drop_append,
        List.append_assoc]
    have hpre2 : (pre ++ packedPersonalBytes c e).length = pre.length + 176 := by
      rw [List.length_append, length_packedPersonalBytes]
    have hdlen : (buf.drop 176).length = 176 * rest.length := by
      rw [List.length_drop]
      omega
    rw [hwba,
      (by rw [hpre2] : pre.length + 176 = (pre ++ packedPersonalBytes c e).length),
      ih (pre ++ packedPersonalBytes c e) (buf.drop 176) hdlen]
    simp only [List.map_cons, List.flatten_cons, List.append_assoc]

theorem unpackPersonalFrom_ok (c : Constants) (blob : List Nat) :
    ∀ (tail : List CreatureEntry) (i : Nat),
      i + tail.length ≤ c.pokemon.length →
      (∀ (j : Nat) (e2 : CreatureEntry), tail[j]? = some e2 →
        readBytes blob (176 * (i + j)) 176 = packedPersonalBytes c e2) →
      (∀ e ∈ tail, validCreatureEntry c e) →
      ∃ entries, unpackPersonalFrom c blob i tail.length = .ok entries ∧
        entries.map Prod.snd = tail := by
  intro tail
  induction tail with
  | nil => intro i _ _ _; exact ⟨[], rfl, rfl⟩
  | cons e rest ih =>
    intro i hle hsl hval
    simp only [List.length_cons] at hle ⊢
    have hs0 : readBytes blob (176 * (i + 0)) 176 = packedPersonalBytes c e :=
      hsl 0 e (by simp)
    have hu : unpack_personal_entry c blob (i * 176) = .ok e := by
      apply unpack_personal_entry_slice c blob (i * 176) e
      · rw [(by ring : i * 176 = 176 * (i + 0))]
        exact hs0
      · exact hval e (List.mem_cons_self e rest)
    have hname := cnstname_ok c.pokemon i (by omega)
    obtain ⟨entries2, h2, hm2⟩ := ih (i + 1) (by omega)
      (by
        intro j e2 hj
        have hj2 := hsl (j + 1) e2 (by simpa using hj)
        rw [(by ring : 176 * (i + (j + 1)) = 176 * (i + 1 + j))] at hj2
        exact hj2)
      (fun x hx => hval x (List.mem_cons_of_mem e hx))
    refine ⟨(c.pokemon.getD i "", e) :: entries2, ?_, ?_⟩
    · unfold unpackPersonalFrom
      rw [hu, ok_bind, hname, ok_bind, h2, ok_bind]
    · simp only [List.map_cons, hm2]

/-- C2: for a blob whose records are exactly the packed forms of valid
entries, one per registry creature, decoding the blob and re-encoding the
decoded entries reproduces the original bytes bit-identically (including
the opaque `unk60`/`unk5E` payloads carried through both directions). -/
theorem C2_blob_roundtrip (c : Constants) (es : List CreatureEntry)
    (hval : ∀ e ∈ es, validCreatureEntry c e)
    (hcount : es.length = c.pokemon.length) :
    ∃ entries,
      unpack_personal c ((es.map (packedPersonalBytes c)).flatten) =
        .ok entries ∧
      entries.map Prod.snd = es ∧
      pack_personal c entries =
        .ok ((es.map (packedPersonalBytes c)).flatten) := by
  have hblen : ((es.map (packedPersonalBytes c)).flatten).length =
      176 * es.length := length_flatten_packed c es
  obtain ⟨entries, hok, hmap⟩ := unpackPersonalFrom_ok c
    ((es.map (packedPersonalBytes c)).flatten) es 0 (by omega)
    (by
      intro j e2 hj
      simp only [Nat.zero_add]
      apply flatten_slice_176 (es.map (packedPersonalBytes c)) j
      · rw [List.getElem?_map, hj]
        rfl
      · intro x hx
        obtain ⟨e3, he3, rfl⟩ := List.mem_map.mp hx
        exact length_packedPersonalBytes c e3)
    hval
  refine ⟨entries, ?_, hmap, ?_⟩
  · unfold unpack_personal
    rw [hblen, Nat.mul_div_cancel_left _ (by norm_num)]
    exact hok
  · have hnames : ∀ p ∈ entries, personalNamesOk c p.2 := by
      intro p hp
      have hmem : p.2 ∈ es := by
        rw [← hmap]
        exact List.mem_map_of_mem Prod.snd hp
      exact (hval p.2 hmem).1
    unfold pack_personal
    rw [packPersonalEntries_eq c entries _ 0 hnames]
    refine congrArg Except.ok ?_
    have hlen_entries : entries.length = es.length := by
      rw [← hmap, List.length_map]
    have hblank : ((List.replicate c.pokemon.length
        BLANK_PRSNL_ENTRY).flatten).length = 176 * entries.length := by
      rw [flatten_replicate_blank_length, hlen_entries, hcount]
    have hw := personalWriteSeq_off c entries []
      ((List.replicate c.pokemon.length BLANK_PRSNL_ENTRY).flatten) hblank
    simp only [List.nil_append, List.length_nil] at hw
    rw [hw, ← hmap, List.map_map]
    rfl

/-- Witness for C2 at a concrete three-record blob over `demoConstants`. -/
theorem C2_blob_roundtrip_witness :
    ∃ entries,
      unpack_personal demoConstants
        (([demoCreature, demoCreature, demoCreature].map
          (packedPersonalBytes demoConstants)).flatten) = .ok entries ∧
      entries.map Prod.snd = [demoCreature, demoCreature, demoCreature] ∧
      pack_personal demoConstants entries =
        .ok (([demoCreature, demoCreature, demoCreature].map
          (packedPersonalBytes demoConstants)).flatten) :=
  C2_blob_roundtrip demoConstants [demoCreature, demoCreature, demoCreature]
    (by
      intro e he
      simp only [List.mem_cons, List.not_mem_nil, or_false] at he
      rcases he with h | h | h <;> (rw [h]; exact demoCreature_valid))
    (by decide)
